import Mathlib

/-!
# Ajax cart of `theme.js`: a shallow embedding

The file `src/shopify_tools/theme/assets/theme.js` holds the Shopify Ajax API helpers
(`Shopify.formatMoney`, `Shopify.changeItem`, ...) and the `ajaxifyShopify` plugin.  The
definitions below transcribe the JavaScript functions that the cart properties talk about.

JavaScript strings are lists of characters.  Numbers are kept exact: a finite number is a
decimal `m / 10 ^ scale`.  The built-in conversions (`ToString`, `parseInt`, `parseFloat`,
`Number`, `toFixed`) follow ECMAScript, including the switch to exponent notation at `1e21`.
Exact decimals agree with IEEE doubles on integers below `2 ^ 53`; statements that depend on
arithmetic being exact say so through a bound.
-/

namespace ThemeJs

/-! ## Characters -/

/-- The code points of ECMAScript `WhiteSpace` and `LineTerminator`: what `parseInt`,
`parseFloat` and `Number` trim, and what the regular expression class `\s` matches. -/
def isJsWhiteSpace (c : Char) : Bool :=
  decide (c.toNat ∈ [0x09, 0x0A, 0x0B, 0x0C, 0x0D, 0x20, 0xA0, 0x1680, 0x2028, 0x2029,
    0x202F, 0x205F, 0x3000, 0xFEFF]) || (decide (0x2000 ≤ c.toNat) && decide (c.toNat ≤ 0x200A))

/-- The regular expression class `\d`, also a decimal digit of a numeric literal. -/
def isDigit (c : Char) : Bool :=
  decide (48 ≤ c.toNat) && decide (c.toNat ≤ 57)

/-- The regular expression class `\w`: ASCII letters, digits and the underscore. -/
def isWordChar (c : Char) : Bool :=
  isDigit c || (decide (65 ≤ c.toNat) && decide (c.toNat ≤ 90))
    || (decide (97 ≤ c.toNat) && decide (c.toNat ≤ 122)) || decide (c.toNat = 95)

/-- Value of a digit in the given radix (2, 8, 10 or 16), if it is one. -/
def radixDigit (radix : Nat) (c : Char) : Option Nat :=
  let n := c.toNat
  let v :=
    if 48 ≤ n ∧ n ≤ 57 then some (n - 48)
    else if 97 ≤ n ∧ n ≤ 122 then some (n - 87)
    else if 65 ≤ n ∧ n ≤ 90 then some (n - 55)
    else none
  match v with
  | some d => if d < radix then some d else none
  | none => none

/-- Value of a string of digits read in the given radix, most significant digit first. -/
def digitsValue (radix : Nat) (cs : List Char) : Nat :=
  cs.foldl (fun acc c => acc * radix + (radixDigit radix c).getD 0) 0

/-- The character of a decimal digit. -/
def digitChar (d : Nat) : Char :=
  Char.ofNat (48 + d % 10)

/-- Decimal digits of a natural number, most significant first, written before `acc`. -/
def natDigitsAux : Nat → Nat → List Char → List Char
  | 0, _, acc => acc
  | fuel + 1, n, acc =>
    if n < 10 then digitChar n :: acc
    else natDigitsAux fuel (n / 10) (digitChar (n % 10) :: acc)

/-- Decimal digits of a natural number ("0" for zero), as `ToString` writes an integer. -/
def natDigits (n : Nat) : List Char :=
  natDigitsAux (n + 1) n []

/-- Remove the trailing zeros of a digit string. -/
def stripTrailingZeros (cs : List Char) : List Char :=
  (cs.reverse.dropWhile (fun c => c == '0')).reverse

/-! ## Numbers and values -/

/-- A JavaScript Number: `NaN`, an infinity, or the finite value `m / 10 ^ scale`. -/
inductive JSNum where
  | nan
  | inf (neg : Bool)
  | fin (m : Int) (scale : Nat)
  deriving DecidableEq, Repr

/-- A JavaScript primitive value. -/
inductive JSValue where
  | undefined
  | null
  | bool (b : Bool)
  | num (n : JSNum)
  | str (s : List Char)
  deriving DecidableEq, Repr

namespace JSNum

/-- The integer `z` as a Number. -/
def ofInt (z : Int) : JSNum := fin z 0

/-- Numeric equality of two Numbers (`NaN` equals nothing). -/
def eq : JSNum → JSNum → Bool
  | fin a s, fin b t => decide (a * 10 ^ t = b * 10 ^ s)
  | inf a, inf b => a == b
  | _, _ => false

/-- The test `x <= y` on Numbers (false when either is `NaN`). -/
def le : JSNum → JSNum → Bool
  | fin a s, fin b t => decide (a * 10 ^ t ≤ b * 10 ^ s)
  | inf a, inf b => a || !b
  | inf a, fin _ _ => a
  | fin _ _, inf b => !b
  | _, _ => false

/-- The sum `x + y` of two Numbers, computed exactly; it is the sum that JavaScript
computes when the operands and the result are integers below `2 ^ 53`. -/
def add : JSNum → JSNum → JSNum
  | fin a s, fin b t => fin (a * 10 ^ (max s t - s) + b * 10 ^ (max s t - t)) (max s t)
  | inf a, inf b => if a = b then inf a else nan
  | inf a, fin _ _ => inf a
  | fin _ _, inf b => inf b
  | _, _ => nan

/-- The negation `-x` of a Number. -/
def neg : JSNum → JSNum
  | fin a s => fin (-a) s
  | inf a => inf (!a)
  | nan => nan

/-- The difference `x - y` of two Numbers. -/
def sub (x y : JSNum) : JSNum := add x (neg y)

/-- The quotient `x / 100.0`. -/
def div100 : JSNum → JSNum
  | fin a s => fin a (s + 2)
  | x => x

/-- Whether the Number is `NaN`. -/
def isNaN : JSNum → Bool
  | nan => true
  | _ => false

/-- Exponent part `e+N` or `e-N` of a Number written in exponent notation. -/
def exponentPart (e : Int) : List Char :=
  'e' :: (if e < 0 then '-' else '+') :: natDigits e.natAbs

/-- The digit string of `Number::toString`: `s` holds the `k` significant digits and `n`
is the position of the decimal point.  Plain digits when `k ≤ n ≤ 21`, a decimal point
inside when `0 < n ≤ 21`, leading `0.0..` when `-6 < n ≤ 0`, and exponent notation
otherwise. -/
def renderDigits (s : List Char) (n : Int) : List Char :=
  let k : Int := s.length
  if k ≤ n ∧ n ≤ 21 then s ++ List.replicate (n - k).toNat '0'
  else if 0 < n ∧ n ≤ 21 then s.take n.toNat ++ '.' :: s.drop n.toNat
  else if -6 < n ∧ n ≤ 0 then '0' :: '.' :: (List.replicate (-n).toNat '0' ++ s)
  else if k = 1 then s ++ exponentPart (n - 1)
  else s.take 1 ++ '.' :: (s.drop 1 ++ exponentPart (n - 1))

/-- `Number::toString` for a positive value `m / 10 ^ scale` (`m > 0`): the significant
digits are those of `m` without its trailing zeros, and the decimal point stands `scale`
places before the end of the digits of `m`. -/
def posToString (m scale : Nat) : List Char :=
  renderDigits (stripTrailingZeros (natDigits m)) (((natDigits m).length : Int) - (scale : Int))

/-- `Number::toString(x)` in radix 10. -/
def toString : JSNum → List Char
  | nan => "NaN".data
  | inf false => "Infinity".data
  | inf true => "-Infinity".data
  | fin m scale =>
    if m = 0 then ['0']
    else if m < 0 then '-' :: posToString m.natAbs scale
    else posToString m.natAbs scale

end JSNum

/-! ## Parsing numbers out of strings -/

/-- Leading white space removed. -/
def trimStart (cs : List Char) : List Char :=
  cs.dropWhile isJsWhiteSpace

/-- Trailing white space removed. -/
def trimEnd (cs : List Char) : List Char :=
  (cs.reverse.dropWhile isJsWhiteSpace).reverse

/-- The global `parseInt(string)` called without a radix: skip leading white space, read
a sign, read a `0x` prefix (radix 16, otherwise 10), and take the longest run of digits;
`NaN` when that run is empty. -/
def parseIntChars (cs : List Char) : JSNum :=
  let s := trimStart cs
  let neg := s.head? == some '-'
  let s := if s.head? == some '-' || s.head? == some '+' then s.tail else s
  let hex := s.take 2 == ['0', 'x'] || s.take 2 == ['0', 'X']
  let s := if hex then s.drop 2 else s
  let radix := if hex then 16 else 10
  let z := s.takeWhile (fun c => (radixDigit radix c).isSome)
  if z.isEmpty then JSNum.nan
  else JSNum.fin (if neg then -(digitsValue radix z : Int) else (digitsValue radix z : Int)) 0

/-- The value `m * 10 ^ e / 10 ^ scale` as a Number. -/
def scaled (m scale : Nat) (e : Int) : JSNum :=
  if 0 ≤ e then JSNum.fin ((m : Int) * 10 ^ e.toNat) scale
  else JSNum.fin (m : Int) (scale + (-e).toNat)

/-- An `ExponentPart` at the head of the input, if there is one: `e` or `E`, an optional
sign and at least one digit.  Gives the exponent (0 without one) and the rest. -/
def scanExponent (cs : List Char) : Int × List Char :=
  if cs.head? == some 'e' || cs.head? == some 'E' then
    let r := cs.tail
    let neg := r.head? == some '-'
    let r1 := if r.head? == some '-' || r.head? == some '+' then r.tail else r
    let ds := r1.takeWhile isDigit
    if ds.isEmpty then (0, cs)
    else ((if neg then -(digitsValue 10 ds : Int) else (digitsValue 10 ds : Int)),
      r1.dropWhile isDigit)
  else (0, cs)

/-- The longest prefix that is a `StrUnsignedDecimalLiteral` (`Infinity`, digits with an
optional fraction and exponent, or a fraction starting with `.`): its value and the rest. -/
def scanUnsignedDecimal (cs : List Char) : Option (JSNum × List Char) :=
  if cs.take 8 = "Infinity".data then some (JSNum.inf false, cs.drop 8)
  else
    let ip := cs.takeWhile isDigit
    let r := cs.dropWhile isDigit
    let hasDot := r.head? == some '.'
    let fp := if hasDot then r.tail.takeWhile isDigit else []
    let r2 := if hasDot then r.tail.dropWhile isDigit else r
    if ip.isEmpty && fp.isEmpty then none
    else some (scaled (digitsValue 10 (ip ++ fp)) fp.length (scanExponent r2).1,
      (scanExponent r2).2)

/-- The longest prefix that is a `StrDecimalLiteral` (an optional sign first). -/
def scanDecimal (cs : List Char) : Option (JSNum × List Char) :=
  if cs.head? == some '-' then
    (scanUnsignedDecimal cs.tail).map (fun p => (p.1.neg, p.2))
  else if cs.head? == some '+' then scanUnsignedDecimal cs.tail
  else scanUnsignedDecimal cs

/-- The global `parseFloat(string)`: the value of the longest decimal literal after the
leading white space, `NaN` when there is none.  The value of the literal is kept exact,
where JavaScript rounds it to the nearest double: the two agree on whether the value is an
integer for a literal whose digits make a number below `2 ^ 53`. -/
def parseFloatChars (cs : List Char) : JSNum :=
  match scanDecimal (trimStart cs) with
  | some p => p.1
  | none => JSNum.nan

/-- A whole string read as digits of the radix; `NaN` unless it is one or more digits. -/
def radixLiteral (radix : Nat) (cs : List Char) : JSNum :=
  if !cs.isEmpty && cs.all (fun c => (radixDigit radix c).isSome)
  then JSNum.fin (digitsValue radix cs : Int) 0 else JSNum.nan

/-- `StringToNumber`: white space trimmed at both ends; the empty string is 0; otherwise
the whole string must be a decimal literal or a `0x`, `0o`, `0b` integer, else `NaN`.  The
value is kept exact, as in `parseFloatChars`. -/
def stringToNumber (cs : List Char) : JSNum :=
  let s := trimEnd (trimStart cs)
  match s with
  | [] => JSNum.fin 0 0
  | '0' :: 'x' :: r => radixLiteral 16 r
  | '0' :: 'X' :: r => radixLiteral 16 r
  | '0' :: 'o' :: r => radixLiteral 8 r
  | '0' :: 'O' :: r => radixLiteral 8 r
  | '0' :: 'b' :: r => radixLiteral 2 r
  | '0' :: 'B' :: r => radixLiteral 2 r
  | _ =>
    match scanDecimal s with
    | some (v, []) => v
    | _ => JSNum.nan

namespace JSValue

/-- The abstract operation `ToString`. -/
def toStr : JSValue → List Char
  | undefined => "undefined".data
  | null => "null".data
  | bool true => "true".data
  | bool false => "false".data
  | num n => n.toString
  | str s => s

/-- The abstract operation `ToNumber`. -/
def toNumber : JSValue → JSNum
  | undefined => JSNum.nan
  | null => JSNum.fin 0 0
  | bool true => JSNum.fin 1 0
  | bool false => JSNum.fin 0 0
  | num n => n
  | str s => stringToNumber s

/-- The abstract operation `ToBoolean` ("truthy"). -/
def truthy : JSValue → Bool
  | undefined => false
  | null => false
  | bool b => b
  | num (JSNum.fin m _) => decide (m ≠ 0)
  | num JSNum.nan => false
  | num (JSNum.inf _) => true
  | str s => !s.isEmpty

end JSValue

/-- The global `parseInt(value)`: the argument goes through `ToString` first. -/
def parseInt (v : JSValue) : JSNum :=
  parseIntChars v.toStr

/-- The global `parseFloat(value)`: the argument goes through `ToString` first. -/
def parseFloat (v : JSValue) : JSNum :=
  parseFloatChars v.toStr

/-- The global `isNaN(value)`: the argument goes through `ToNumber` first. -/
def isNaN (v : JSValue) : Bool :=
  v.toNumber.isNaN

/-- The operator `a + b`: concatenation when either operand is a string, else the sum. -/
def jsAdd (a b : JSValue) : JSValue :=
  match a, b with
  | JSValue.str s, _ => JSValue.str (s ++ b.toStr)
  | _, JSValue.str t => JSValue.str (a.toStr ++ t)
  | _, _ => JSValue.num (a.toNumber.add b.toNumber)

/-- The operator `a - b`: both operands go through `ToNumber`. -/
def jsSub (a b : JSValue) : JSValue :=
  JSValue.num (a.toNumber.sub b.toNumber)

/-- The test `a <= n` against a Number `n`. -/
def jsLeNum (a : JSValue) (n : JSNum) : Bool :=
  a.toNumber.le n

/-- The test `a === n` against a Number `n`: true only for a Number of the same value. -/
def jsStrictEqNum (a : JSValue) (n : JSNum) : Bool :=
  match a with
  | JSValue.num x => x.eq n
  | _ => false

/-- The Number `z` as a value. -/
def jsInt (z : Int) : JSValue :=
  JSValue.num (JSNum.ofInt z)

/-! ## Quantity validation (`validateQty`, lines 1150-1158 and 2305-2313) -/

/-- Transcription of `validateQty`:
`if ((parseFloat(qty) == parseInt(qty)) && !isNaN(qty)) return qty; else return 1;`.
The ajax cart and the product section define the same body. -/
def validateQty (qty : JSValue) : JSValue :=
  if (parseFloat qty).eq (parseInt qty) && !isNaN qty then qty else jsInt 1

/-- The copy of `validateQty` that `Product.qtySelectors` assigns (lines 2305-2313). -/
def productValidateQty (qty : JSValue) : JSValue :=
  if (parseFloat qty).eq (parseInt qty) && !isNaN qty then qty else jsInt 1

/-! ## `Shopify.formatMoney` (lines 57-106) -/

/-- `Number.prototype.toFixed(f)`: `ToString` when the magnitude reaches `1e21`; otherwise
the integer `n` nearest to `x * 10 ^ f` (the larger one on a tie), written with `f` digits
after the point, and a `-` in front of a negative `x`. -/
def JSNum.toFixed (x : JSNum) (f : Nat) : List Char :=
  match x with
  | JSNum.fin m scale =>
    if 10 ^ 21 * 10 ^ scale ≤ m.natAbs then x.toString
    else
      let n := (m.natAbs * 10 ^ f * 2 + 10 ^ scale) / (2 * 10 ^ scale)
      let ds := natDigits n
      let ds := if f = 0 then ds else List.replicate (f + 1 - ds.length) '0' ++ ds
      let body := if f = 0 then ds else ds.take (ds.length - f) ++ '.' :: ds.drop (ds.length - f)
      if m < 0 then '-' :: body else body
  | _ => x.toString

/-- `String.prototype.split('.')`, as far as `formatWithDelimiters` uses it: element 0 (the
text before the first `.`) and element 1 (the text between the first and the second `.`,
absent when there is no `.`). -/
def splitDot (cs : List Char) : List Char × Option (List Char) :=
  let head := cs.takeWhile (fun c => c != '.')
  match cs.dropWhile (fun c => c != '.') with
  | [] => (head, none)
  | _ :: rest => (head, some (rest.takeWhile (fun c => c != '.')))

/-- The lookahead `(?=(\d\d\d)+(?!\d))`: one or more groups of three digits, the last one
not followed by a digit. -/
def tripletsThenNoDigit : List Char → Bool
  | a :: b :: c :: rest =>
    isDigit a && isDigit b && isDigit c &&
      ((match rest with
        | [] => true
        | d :: _ => !isDigit d) || tripletsThenNoDigit rest)
  | _ => false

/-- The call `.replace(/(\d)(?=(\d\d\d)+(?!\d))/g, '$1' + thousands)`: after every digit
for which the lookahead holds, the separator is inserted. -/
def groupThousands (thousands : List Char) : List Char → List Char
  | [] => []
  | c :: rest =>
    if isDigit c && tripletsThenNoDigit rest then c :: (thousands ++ groupThousands thousands rest)
    else c :: groupThousands thousands rest

/-- Transcription of the inner function `formatWithDelimiters(number, precision, thousands,
decimal)`; the defaults `2`, `','`, `'.'` are passed by the caller here.  The early
`return 0` gives the Number 0, every other path a string. -/
def formatWithDelimiters (number : JSValue) (precision : Nat) (thousands decimal : List Char) :
    JSValue :=
  if isNaN number || number == JSValue.null || number == JSValue.undefined then jsInt 0
  else
    let text := (number.toNumber.div100).toFixed precision
    let parts := splitDot text
    let dollars := groupThousands thousands parts.1
    let cents := match parts.2 with
      | some p => if p.isEmpty then [] else decimal ++ p
      | none => []
    JSValue.str (dollars ++ cents)

/-- A match of `/\{\{\s*(\w+)\s*\}\}/` that starts at the head of the input: the captured
name and the text after the match. -/
def matchPlaceholderHere (cs : List Char) : Option (List Char × List Char) :=
  if cs.take 2 = ['{', '{'] then
    let r1 := (cs.drop 2).dropWhile isJsWhiteSpace
    let name := r1.takeWhile isWordChar
    let r2 := (r1.dropWhile isWordChar).dropWhile isJsWhiteSpace
    if name.isEmpty then none
    else if r2.take 2 = ['}', '}'] then some (name, r2.drop 2)
    else none
  else none

/-- The first match of `/\{\{\s*(\w+)\s*\}\}/` in the input: the text before it, the
captured name, and the text after it. -/
def findPlaceholder : List Char → Option (List Char × List Char × List Char)
  | [] => none
  | c :: cs =>
    match matchPlaceholderHere (c :: cs) with
    | some (name, rest) => some ([], name, rest)
    | none =>
      match findPlaceholder cs with
      | some (pre, name, post) => some (c :: pre, name, post)
      | none => none

/-- `String.prototype.replace(text, '')` with a string pattern: the first occurrence of
`pat` is removed. -/
def removeFirst (pat : List Char) : List Char → List Char
  | [] => []
  | c :: cs =>
    if pat.isPrefixOf (c :: cs) then (c :: cs).drop pat.length
    else c :: removeFirst pat cs

/-- Transcription of `Shopify.formatMoney(cents, format)`.  `shopFormat` is
`this.money_format`, used when `format` is empty.  The result is `none` when the function
throws, which it does when the format string has no placeholder (`match` gives `null`) or
when there is no format string at all. -/
def formatMoney (shopFormat : Option (List Char)) (cents : JSValue) (format : List Char) :
    Option (List Char) :=
  let formatString := if format.isEmpty then shopFormat else some format
  let cents := match cents with
    | JSValue.str s => JSValue.str (removeFirst ['.'] s)
    | v => v
  match formatString with
  | none => none
  | some fs =>
    match findPlaceholder fs with
    | none => none
    | some (pre, name, post) =>
      let value :=
        if name = "amount".data then formatWithDelimiters cents 2 [','] ['.']
        else if name = "amount_no_decimals".data then formatWithDelimiters cents 0 [','] ['.']
        else if name = "amount_with_comma_separator".data then
          formatWithDelimiters cents 2 ['.'] [',']
        else if name = "amount_no_decimals_with_comma_separator".data then
          formatWithDelimiters cents 0 ['.'] [',']
        else JSValue.str []
      some (pre ++ value.toStr ++ post)

/-! ## Cart data and the view model of `buildCart` -/

/-- A line item of the cart JSON, with the fields that `buildCart` reads. -/
structure CartItem where
  key : List Char
  quantity : Int
  title : List Char
  image : List Char
  url : List Char
  price : Int
  deriving DecidableEq, Repr

/-- The cart JSON answered by `/cart.js` and `/cart/change.js`. -/
structure Cart where
  item_count : Nat
  total_price : Int
  items : List CartItem
  deriving DecidableEq, Repr

/-- The object `item` that `buildCart` pushes for one line (lines 803-814). -/
structure ItemView where
  key : List Char
  line : Nat
  url : List Char
  img : List Char
  name : List Char
  variation : List Char
  itemAdd : Int
  itemMinus : Int
  itemQty : List Char
  price : List Char
  deriving DecidableEq, Repr

/-- The object `data` handed to the cart template (lines 820-824). -/
structure TemplateData where
  items : List ItemView
  totalPrice : List Char
  btnClass : Option (List Char)
  deriving DecidableEq, Repr

/-- A call `.replace(/(X[^X]*)$/, ...)` for a character `X`: the match is the last `X` with
everything after it, and `f` gives what replaces it. -/
def replaceLastSegment (sep : Char) (f : List Char → List Char) : List Char → List Char
  | [] => []
  | c :: cs =>
    if c == sep && cs.all (fun d => d != sep) then f (c :: cs)
    else c :: replaceLastSegment sep f cs

/-- The thumbnail: `image.replace(/(\.[^.]*)$/, "_small$1").replace('http:', '')`. -/
def prodImg (image : List Char) : List Char :=
  removeFirst "http:".data (replaceLastSegment '.' (fun seg => "_small".data ++ seg) image)

/-- The name: `title.replace(/(\-[^-]*)$/, "")`. -/
def prodName (title : List Char) : List Char :=
  replaceLastSegment '-' (fun _ => []) title

/-- The variation: `title.replace(/^[^\-]*/, "")` drops the text before the first dash, and
the second `replace`, whose pattern is a single dash, drops the first dash that is left. -/
def prodVariation (title : List Char) : List Char :=
  (title.dropWhile (fun c => c != '-')).erase '-'

/-- The body of the `$.each(cart.items, ...)` callback of `buildCart` (lines 788-817);
`none` when `Shopify.formatMoney` throws. -/
def buildItem (shopFormat : Option (List Char)) (moneyFormat : List Char) (index : Nat)
    (cartItem : CartItem) : Option ItemView :=
  match formatMoney shopFormat (jsInt cartItem.price) moneyFormat with
  | none => none
  | some price =>
    some {
      key := cartItem.key
      line := index + 1
      url := cartItem.url
      img := prodImg cartItem.image
      name := prodName cartItem.title
      variation := prodVariation cartItem.title
      itemAdd := cartItem.quantity + 1
      itemMinus := cartItem.quantity - 1
      itemQty := (jsAdd (jsInt cartItem.quantity) (JSValue.str " x".data)).toStr
      price := price }

/-- The loop `$.each(cart.items, ...)`, starting at the given index. -/
def buildItems (shopFormat : Option (List Char)) (moneyFormat : List Char) :
    Nat → List CartItem → Option (List ItemView)
  | _, [] => some []
  | index, cartItem :: rest =>
    match buildItem shopFormat moneyFormat index cartItem with
    | none => none
    | some item =>
      match buildItems shopFormat moneyFormat (index + 1) rest with
      | none => none
      | some items => some (item :: items)

/-! ## Settings, document and event loop of `ajaxifyShopify` -/

/-- The value of `settings.method` after `toLowerCase`. -/
inductive Method where
  | drawer
  | modal
  | flip
  deriving DecidableEq, Repr

/-- The options of `init` that the cart code reads. -/
structure Settings where
  method : Method
  useCartTemplate : Bool
  moneyFormat : List Char
  btnClass : Option (List Char)
  onToggleCallback : Bool
  deriving DecidableEq, Repr

/-- Which row class an element carries: `.ajaxifyCart--row` (client template) or
`.cart-row` (cart page markup). -/
inductive RowKind where
  | ajaxifyRow
  | cartRow
  deriving DecidableEq, Repr

/-- A cart row of the document with its quantity widget: the `data-line` attribute, the
text of the `.ajaxifyCart--num` field, and the two activity classes. -/
structure Row where
  kind : RowKind
  line : Option Nat
  value : List Char
  isLoading : Bool
  isRemoved : Bool
  deriving DecidableEq, Repr

/-- A child of the cart container `#ajaxifyCart`. -/
inductive CartNode where
  | emptyMessage
  | template (data : TemplateData)
  | fragment
  deriving DecidableEq, Repr

/-- The function handed to `Shopify.getCart`. -/
inductive CartCallback where
  | cartUpdateCallback
  | flipCartUpdateCallback
  | buildCart
  deriving DecidableEq, Repr

/-- A request sent by the page and not yet answered. -/
inductive Request where
  | getCart (callback : CartCallback)
  | changeItem (line : Nat) (quantity : JSValue)
  | addItemFromForm
  | updateCartNote (note : List Char)
  | loadCart (cart : Cart)
  deriving DecidableEq, Repr

/-- A pending `setTimeout`. -/
inductive Timer where
  | changeItem (line : Nat) (qty : JSValue)
  | settle
  | flip
  deriving DecidableEq, Repr

/-- The object that `eval` reads out of an error response. -/
structure ErrorData where
  message : JSValue
  status : JSValue
  description : JSValue
  deriving DecidableEq, Repr

/-- What the server answers to a request; `xhr = none` is a response text that `eval`
cannot read. -/
inductive Response where
  | cart (c : Cart)
  | lineItem
  | fragment (rows : List Row)
  | error (xhr : Option ErrorData)
  deriving DecidableEq, Repr

/-- A call of `alert` by `Shopify.onError`. -/
inductive Alert where
  | message (text : List Char)
  | fullMessages
  deriving DecidableEq, Repr

/-- What the page is loaded with.  `outerHeight` is the layout height of the cart
container for a given content. -/
structure Env where
  settings : Settings
  shopFormat : Option (List Char)
  outerHeight : List CartNode → Nat
  renderRows : TemplateData → List Row
  templateProduct : Bool

/-- The private variables of the plugin and the part of the document it writes. -/
structure State where
  isUpdating : Bool
  cartInit : Bool
  qtyMin : Int
  drawerVisible : Bool
  drawerHeight : Option Nat
  modalVisible : Bool
  bodyModalVisible : Bool
  cartContent : List CartNode
  rows : List Row
  jsFields : List (List Char)
  cartCount : List Char
  cartCountHidden : Bool
  cartCost : List Char
  flipCartCount : List Char
  isAdding : Bool
  isAdded : Bool
  flipLoading : Bool
  isFlipped : Bool
  qtyErrors : List (List Char)
  awaitingImages : Bool
  timers : List Timer
  pending : List Request
  calls : List Request
  alerts : List Alert
  toggleLog : List Bool
  deriving DecidableEq, Repr

/-- The state after `init`, before any event: nothing is pending, the drawer is closed,
and `jsFields` are the standalone quantity fields found on the page. -/
def initialState (jsFields : List (List Char)) : State :=
  { isUpdating := false, cartInit := false, qtyMin := 0, drawerVisible := false,
    drawerHeight := none, modalVisible := false, bodyModalVisible := false,
    cartContent := [], rows := [], jsFields := jsFields, cartCount := [],
    cartCountHidden := false, cartCost := [], flipCartCount := [], isAdding := false,
    isAdded := false, flipLoading := false, isFlipped := false, qtyErrors := [],
    awaitingImages := false, timers := [], pending := [], calls := [], alerts := [],
    toggleLog := [] }

/-- An event of the page: a user action, a timer that fires, or a response that arrives
(`k` picks the timer or the request). -/
inductive Event where
  | qtyAdjustClick (row : Nat) (add : Bool)
  | qtyInputChange (row : Nat) (text : List Char)
  | removeClick (row : Nat)
  | jsQtyAdjusterClick (field : Nat) (add : Bool)
  | formSubmit
  | toggleClick
  | flipCartClick
  | escapeKey
  | noteChange (note : List Char)
  | imagesLoaded
  | timerFires (k : Nat)
  | response (k : Nat) (r : Response)
  deriving DecidableEq, Repr

/-! ## The functions of the plugin

A handler that can throw returns `Except State State`: `error s` is the state in which the
exception left the page (the rest of the handler did not run).  `scrollTop()` only moves
the scroll position of the page, which the state does not hold. -/

/-- The test `a == n` against a Number `n`. -/
def jsLooseEqNum (a : JSValue) (n : JSNum) : Bool :=
  match a with
  | JSValue.undefined => false
  | JSValue.null => false
  | v => v.toNumber.eq n

/-- The test `if (line)` on a `data-line` value: the line when it is truthy. -/
def truthyLine (line : Option Nat) : Option Nat :=
  match line with
  | some 0 => none
  | some l => some l
  | none => none

/-- What `jQuery.ajax(params)` and `jQuery.getJSON` do: the request leaves the page. -/
def send (r : Request) (s : State) : State :=
  { s with pending := s.pending ++ [r], calls := s.calls ++ [r] }

/-- Transcription of `toggleCallback(data)` (lines 1143-1148). -/
def toggleCallback (env : Env) (isVisible : Bool) (s : State) : State :=
  if env.settings.onToggleCallback then { s with toggleLog := s.toggleLog ++ [isVisible] }
  else s

/-- Transcription of `sizeDrawer($empty)` (lines 603-611). -/
def sizeDrawer (env : Env) (empty : Bool) (s : State) : State :=
  if empty then { s with drawerHeight := some 0 }
  else { s with drawerHeight := some (env.outerHeight s.cartContent) }

/-- Transcription of `hideDrawer()` (lines 595-601). -/
def hideDrawer (env : Env) (s : State) : State :=
  toggleCallback env false { s with drawerHeight := none, drawerVisible := false }

/-- Transcription of `showDrawer(toggle)` (lines 571-593). -/
def showDrawer (env : Env) (toggle : Bool) (s : State) : State :=
  let s :=
    if env.settings.method = Method.flip then
      send (Request.getCart CartCallback.flipCartUpdateCallback) s
    else if !s.cartInit && toggle then send (Request.getCart CartCallback.cartUpdateCallback) s
    else if s.cartInit && toggle then sizeDrawer env false s
    else s
  toggleCallback env true { s with drawerVisible := true }

/-- Transcription of `sizeModal(isResizing)` (lines 486-504); the argument only changes
the opacity during the move. -/
def sizeModal (env : Env) (s : State) : State :=
  toggleCallback env true { s with modalVisible := true }

/-- Transcription of `showModal(toggle)` (lines 476-484). -/
def showModal (env : Env) (toggle : Bool) (s : State) : State :=
  let s := { s with bodyModalVisible := true }
  if !s.cartInit && toggle then send (Request.getCart CartCallback.cartUpdateCallback) s
  else sizeModal env s

/-- Transcription of `hideModal(e)` (lines 506-520). -/
def hideModal (env : Env) (s : State) : State :=
  toggleCallback env false { s with bodyModalVisible := false, modalVisible := false }

/-- Transcription of `loadCartImages()` (lines 613-634): the sizing waits for the `load`
event of the last image. -/
def loadCartImages (s : State) : State :=
  { s with awaitingImages := true }

/-- The `load` handler of `loadCartImages` once every image has loaded. -/
def imagesLoaded (env : Env) (s : State) : State :=
  if s.awaitingImages then
    let s := { s with awaitingImages := false }
    match env.settings.method with
    | Method.modal => sizeModal env s
    | _ => sizeDrawer env false s
  else s

/-- Transcription of `updateCountPrice(cart)` (lines 371-382). -/
def updateCountPrice (env : Env) (cart : Cart) (s : State) : Except State State :=
  let s := { s with
    cartCount := natDigits cart.item_count
    cartCountHidden := decide (cart.item_count = 0) }
  match formatMoney env.shopFormat (jsInt cart.total_price) env.settings.moneyFormat with
  | none => Except.error s
  | some text => Except.ok { s with cartCost := text }

/-- Transcription of `cartTemplate(cart)` (lines 851-879) up to the `load` request. -/
def cartTemplate (cart : Cart) (s : State) : State :=
  send (Request.loadCart cart) s

/-- The callback of `$cartContainer.load(...)` in `cartTemplate` (lines 854-878): the
loaded fragment replaces the content, `adjustCart()` binds its rows, the surface is sized
and the cart is marked as built. -/
def cartLoaded (env : Env) (cart : Cart) (rows : List Row) (s : State) : State :=
  let s := { s with cartContent := [CartNode.fragment], rows := rows }
  let s :=
    match env.settings.method with
    | Method.modal => loadCartImages s
    | _ => if 0 < cart.item_count then loadCartImages s else sizeDrawer env true s
  { s with cartInit := true }

/-- Transcription of `buildCart(cart)` (lines 747-849).  The rows of the document are
those of the cart container, so emptying the container removes them; `adjustCart()` binds
the handlers to the rows the template has just written. -/
def buildCart (env : Env) (cart : Cart) (s : State) : Except State State :=
  let s :=
    if !env.settings.useCartTemplate || cart.item_count == 0 then
      { s with cartContent := [], rows := [] }
    else s
  if cart.item_count == 0 then
    let s := { s with cartContent := s.cartContent ++ [CartNode.emptyMessage] }
    match env.settings.method with
    | Method.modal => Except.ok (sizeModal env s)
    | _ =>
      let s := sizeDrawer env false s
      Except.ok (if !s.drawerVisible && s.cartInit then sizeDrawer env true s else s)
  else if env.settings.useCartTemplate then Except.ok (cartTemplate cart s)
  else
    match buildItems env.shopFormat env.settings.moneyFormat 0 cart.items with
    | none => Except.error s
    | some items =>
      match formatMoney env.shopFormat (jsInt cart.total_price) env.settings.moneyFormat with
      | none => Except.error s
      | some totalPrice =>
        let data : TemplateData :=
          { items := items, totalPrice := totalPrice, btnClass := env.settings.btnClass }
        let s := { s with
          cartContent := s.cartContent ++ [CartNode.template data]
          rows := s.rows ++ env.renderRows data }
        let s :=
          match env.settings.method with
          | Method.modal => loadCartImages s
          | _ => if 0 < cart.item_count then loadCartImages s else sizeDrawer env true s
        Except.ok { s with cartInit := true }

/-- Transcription of `cartUpdateCallback(cart)` (lines 686-706). -/
def cartUpdateCallback (env : Env) (cart : Cart) (s : State) : Except State State :=
  match updateCountPrice env cart s with
  | Except.error s => Except.error s
  | Except.ok s =>
    match env.settings.method with
    | Method.flip => Except.ok { s with flipCartCount := natDigits cart.item_count }
    | Method.modal => buildCart env cart s
    | Method.drawer =>
      match buildCart env cart s with
      | Except.error s => Except.error s
      | Except.ok s => Except.ok (if !s.drawerVisible then showDrawer env false s else s)

/-- Transcription of `itemAddedCallback(product)` (lines 657-669). -/
def itemAddedCallback (env : Env) (s : State) : State :=
  let s := { s with isAdding := false, isAdded := true }
  let s :=
    match env.settings.method with
    | Method.flip => { s with timers := s.timers ++ [Timer.flip] }
    | _ => s
  send (Request.getCart CartCallback.cartUpdateCallback) s

/-- Transcription of `itemErrorCallback(XMLHttpRequest, textStatus)` (lines 671-684). -/
def itemErrorCallback (env : Env) (xhr : Option ErrorData) (s : State) : State :=
  let s :=
    match env.settings.method with
    | Method.flip => { s with flipLoading := false }
    | _ => s
  match xhr with
  | none => s
  | some data =>
    if data.message.truthy && jsLooseEqNum data.status (JSNum.ofInt 422) then
      { s with qtyErrors := s.qtyErrors ++ [data.description.toStr] }
    else s

/-- Transcription of `Shopify.onError(XMLHttpRequest, textStatus)` (lines 137-144).  On a
response text that `eval` cannot read (`xhr = none`) the function throws at its first line
and leaves the page as it was.  `Shopify.fullMessagesFromErrors`, called when the message
is falsy, is not defined in this file: the alert it would feed is kept abstract as
`Alert.fullMessages`. -/
def onError (xhr : Option ErrorData) (s : State) : State :=
  match xhr with
  | none => s
  | some data =>
    if data.message.truthy then
      { s with alerts := s.alerts ++ [Alert.message
          (data.message.toStr ++ '(' :: (data.status.toStr ++ "): ".data ++
            data.description.toStr))] }
    else { s with alerts := s.alerts ++ [Alert.fullMessages] }

/-- Transcription of the inner function `updateQuantity(line, qty)` of `adjustCart`
(lines 981-999). -/
def updateQuantity (env : Env) (line : Nat) (qty : JSValue) (s : State) : State :=
  let kind := if !env.settings.useCartTemplate then RowKind.ajaxifyRow else RowKind.cartRow
  let mark := fun (r : Row) =>
    if r.kind = kind ∧ r.line = some line then
      { r with isLoading := true, isRemoved := r.isRemoved || jsStrictEqNum qty (JSNum.ofInt 0) }
    else r
  { s with
    isUpdating := true
    rows := s.rows.map mark
    timers := s.timers ++ [Timer.changeItem line qty] }

/-- The quantity that the click handler of a cart stepper computes from the text of the
field (lines 909-918). -/
def cartStepperQty (fieldText : List Char) (add : Bool) : JSValue :=
  let qty := JSValue.num (parseInt (JSValue.str fieldText))
  let qty := validateQty qty
  if add then jsAdd qty (jsInt 1)
  else if jsLeNum qty (JSNum.ofInt 0) then jsInt 0 else jsSub qty (jsInt 1)

/-- Transcription of the click handler of `.ajaxifyCart--qty span` (lines 901-928). -/
def qtyAdjustClick (env : Env) (i : Nat) (add : Bool) (s : State) : State :=
  if s.isUpdating then s
  else
    match s.rows.get? i with
    | none => s
    | some r =>
      let qty := cartStepperQty r.value add
      match truthyLine r.line with
      | some line => updateQuantity env line qty s
      | none => { s with rows := s.rows.set i { r with value := qty.toStr } }

/-- Transcription of the change handler of `.ajaxifyCart--num` (lines 933-955); `text` is
what the shopper has left in the field. -/
def qtyInputChange (env : Env) (i : Nat) (text : List Char) (s : State) : State :=
  match s.rows.get? i with
  | none => s
  | some r =>
    let s := { s with rows := s.rows.set i { r with value := text } }
    if s.isUpdating then s
    else
      let qty := JSValue.str text
      if (parseFloat qty).eq (parseInt qty) && !isNaN qty then
        match truthyLine r.line with
        | some line => updateQuantity env line qty s
        | none => s
      else { s with rows := s.rows.set i { r with value := (jsInt 1).toStr } }

/-- Transcription of the click handler of `.ajaxifyCart--remove` (lines 967-979). -/
def removeClick (env : Env) (i : Nat) (s : State) : State :=
  match s.rows.get? i with
  | none => s
  | some r =>
    match truthyLine r.line with
    | none => s
    | some line => updateQuantity env line (jsInt 0) s

/-- The quantity that the click handler of the standalone stepper computes
(lines 1116-1126). -/
def standaloneStepperQty (fieldText : List Char) (add : Bool) (qtyMin : Int) : JSValue :=
  let qty := JSValue.num (parseInt (JSValue.str fieldText))
  let qty := validateQty qty
  if add then jsAdd qty (jsInt 1)
  else if jsLeNum qty (JSNum.ofInt qtyMin) then jsInt qtyMin else jsSub qty (jsInt 1)

/-- Transcription of the click handler of `.js--qty-adjuster` (lines 1112-1130). -/
def jsQtyAdjusterClick (env : Env) (i : Nat) (add : Bool) (s : State) : State :=
  match s.jsFields.get? i with
  | none => s
  | some text =>
    let qtyMin := if env.templateProduct then 1 else s.qtyMin
    let qty := standaloneStepperQty text add qtyMin
    { s with qtyMin := qtyMin, jsFields := s.jsFields.set i qty.toStr }

/-- Transcription of `adjustCartCallback(cart)` (lines 1016-1039). -/
def adjustCartCallback (env : Env) (cart : Cart) (s : State) : Except State State :=
  match updateCountPrice env cart s with
  | Except.error s => Except.error s
  | Except.ok s =>
    let s :=
      if cart.item_count = 0 then
        match env.settings.method with
        | Method.modal => s
        | _ => hideDrawer env s
      else s
    Except.ok { s with timers := s.timers ++ [Timer.settle] }

/-- Transcription of the submit handler installed by `formOverride` (lines 637-654). -/
def formSubmit (env : Env) (s : State) : State :=
  let s := { s with isAdded := false, isAdding := true, qtyErrors := [] }
  let s := send Request.addItemFromForm s
  match env.settings.method with
  | Method.flip => { s with flipLoading := true }
  | _ => s

/-- Transcription of the click handler of the toggle button (lines 717-738). -/
def toggleClick (env : Env) (s : State) : State :=
  match env.settings.method with
  | Method.modal => if s.modalVisible then hideModal env s else showModal env true s
  | _ => if s.drawerVisible then hideDrawer env s else showDrawer env true s

/-- Transcription of the `keyup` handler for the escape key (lines 347-359). -/
def escapeKey (env : Env) (s : State) : State :=
  match env.settings.method with
  | Method.modal => hideModal env s
  | _ => hideDrawer env s

/-- The body of a timer callback: the delayed `Shopify.changeItem` of `updateQuantity`,
the delayed reprint of `adjustCartCallback`, the delayed flip of `itemAddedCallback`. -/
def fireTimer (t : Timer) (s : State) : State :=
  match t with
  | Timer.changeItem line qty => send (Request.changeItem line qty) s
  | Timer.settle => send (Request.getCart CartCallback.buildCart) { s with isUpdating := false }
  | Timer.flip => { s with flipLoading := false, isFlipped := true }

/-- The state a handler leaves behind, whether it returned or threw. -/
def outcome (r : Except State State) : State :=
  match r with
  | Except.ok s => s
  | Except.error s => s

/-- The callback that a response triggers, as the `success` and `error` functions of
`Shopify.getCart`, `Shopify.changeItem`, `Shopify.addItemFromForm` and
`Shopify.updateCartNote` dispatch it (lines 116-246). -/
def deliver (env : Env) (req : Request) (r : Response) (s : State) : State :=
  match req, r with
  | Request.getCart CartCallback.cartUpdateCallback, Response.cart c =>
    outcome (cartUpdateCallback env c s)
  | Request.getCart CartCallback.flipCartUpdateCallback, Response.cart c =>
    outcome (buildCart env c s)
  | Request.getCart CartCallback.buildCart, Response.cart c => outcome (buildCart env c s)
  | Request.changeItem _ _, Response.cart c => outcome (adjustCartCallback env c s)
  | Request.changeItem _ _, Response.error xhr => onError xhr s
  | Request.addItemFromForm, Response.lineItem => itemAddedCallback env s
  | Request.addItemFromForm, Response.error xhr => itemErrorCallback env xhr s
  | Request.updateCartNote _, Response.error xhr => onError xhr s
  | Request.loadCart cart, Response.fragment rows => cartLoaded env cart rows s
  | _, _ => s

/-- One turn of the event loop. -/
def step (env : Env) (s : State) (e : Event) : State :=
  match e with
  | Event.qtyAdjustClick i add => qtyAdjustClick env i add s
  | Event.qtyInputChange i text => qtyInputChange env i text s
  | Event.removeClick i => removeClick env i s
  | Event.jsQtyAdjusterClick i add => jsQtyAdjusterClick env i add s
  | Event.formSubmit => formSubmit env s
  | Event.toggleClick => toggleClick env s
  | Event.flipCartClick =>
    match env.settings.method with
    | Method.flip => showDrawer env true s
    | _ => s
  | Event.escapeKey => escapeKey env s
  | Event.noteChange note => send (Request.updateCartNote note) s
  | Event.imagesLoaded => imagesLoaded env s
  | Event.timerFires k =>
    match s.timers.get? k with
    | none => s
    | some t => fireTimer t { s with timers := s.timers.eraseIdx k }
  | Event.response k r =>
    match s.pending.get? k with
    | none => s
    | some req => deliver env req r { s with pending := s.pending.eraseIdx k }

/-- The state after a sequence of events. -/
def runEvents (env : Env) (s : State) (es : List Event) : State :=
  es.foldl (step env) s

/-- Whether a request is a `Shopify.changeItem` call. -/
def Request.isChangeItem : Request → Bool
  | Request.changeItem _ _ => true
  | _ => false

/-- Whether a timer is the delayed `Shopify.changeItem` of `updateQuantity`. -/
def Timer.isChangeItem : Timer → Bool
  | Timer.changeItem _ _ => true
  | _ => false

/-- How many `Shopify.changeItem` calls the page has made so far. -/
def changeItemCalls (s : State) : Nat :=
  (s.calls.filter Request.isChangeItem).length

/-- How many delayed `Shopify.changeItem` calls are waiting for their timer. -/
def changeItemTimers (s : State) : Nat :=
  (s.timers.filter Timer.isChangeItem).length

/-- Whether an event belongs to the busy window of a change request: any event except a
click on a remove link and the firing of the settle timer that ends the window. -/
def inBusyWindow (s : State) (e : Event) : Bool :=
  match e with
  | Event.removeClick _ => false
  | Event.timerFires k => !(s.timers.get? k == some Timer.settle)
  | _ => true

/-- Whether a whole sequence of events, run from `s`, stays inside the busy window. -/
def windowTrace (env : Env) : State → List Event → Bool
  | _, [] => true
  | s, e :: es => inBusyWindow s e && windowTrace env (step env s e) es

/-- The configuration contract of `init`: the money format in use holds a placeholder. -/
def Env.moneyFormatOk (env : Env) : Bool :=
  match (if env.settings.moneyFormat.isEmpty then env.shopFormat
    else some env.settings.moneyFormat) with
  | some fs => (findPlaceholder fs).isSome
  | none => false

/-- Whether a request belongs to a cart mutation (a change, its reprint, a note), as
opposed to an add to cart and the cart fetch that follows it. -/
def Request.isMutationFlow : Request → Bool
  | Request.getCart CartCallback.cartUpdateCallback => false
  | Request.addItemFromForm => false
  | _ => true

/-- Whether an event belongs to a cart mutation: anything but an add-to-cart submit and a
click that opens the cart. -/
def Event.isMutationFlow : Event → Bool
  | Event.formSubmit => false
  | Event.toggleClick => false
  | Event.flipCartClick => false
  | _ => true

/-- The invariant of the busy window: the synchronizer is busy and the change requests
made or still waiting for their timer number `c`. -/
def BusyInv (c : Nat) (s : State) : Prop :=
  s.isUpdating = true ∧ changeItemCalls s + changeItemTimers s = c

/-- The invariant of a cart mutation after the cart became empty: the cart has been built,
the drawer is closed, and no add to cart is under way. -/
def EmptiedInv (s : State) : Prop :=
  s.cartInit = true ∧ s.drawerVisible = false ∧ ∀ r ∈ s.pending, r.isMutationFlow = true

/-! ## Sample page -/

/-- Sample settings: the drawer with the client template and the default money format. -/
def demoSettings : Settings :=
  { method := Method.drawer, useCartTemplate := false, moneyFormat := "${{amount}}".data,
    btnClass := none, onToggleCallback := false }

/-- Sample page: every item of the template becomes one cart row whose field shows the
quantity; the cart container is 40 pixels high per child. -/
def demoEnv : Env :=
  { settings := demoSettings
    shopFormat := none
    outerHeight := fun content => 40 * content.length
    renderRows := fun data => data.items.map (fun item =>
      { kind := RowKind.ajaxifyRow, line := some item.line,
        value := (jsInt (item.itemAdd - 1)).toStr, isLoading := false, isRemoved := false })
    templateProduct := true }

/-- Sample line item: quantity 2 of a shirt. -/
def demoItem : CartItem :=
  { key := "k1".data, quantity := 2, title := "Shirt - Blue".data,
    image := "http://cdn.shop/shirt.png".data, url := "/products/shirt".data, price := 1250 }

/-- Sample cart with the one sample line. -/
def demoCart : Cart :=
  { item_count := 2, total_price := 2500, items := [demoItem] }

/-- Sample cart with one line of quantity 1. -/
def demoCartOne : Cart :=
  { item_count := 1, total_price := 1250, items := [{ demoItem with quantity := 1 }] }

/-- The empty cart. -/
def emptyCart : Cart :=
  { item_count := 0, total_price := 0, items := [] }

/-- The sample page after the shopper has opened the drawer and the cart with one line of
quantity 2 has been rendered: idle, nothing pending. -/
def demoOpen : State :=
  runEvents demoEnv (initialState ["1".data])
    [Event.toggleClick, Event.response 0 (Response.cart demoCart)]

/-- The sample page with the rendered cart holding one line of quantity 1. -/
def demoOpenOne : State :=
  runEvents demoEnv (initialState ["1".data])
    [Event.toggleClick, Event.response 0 (Response.cart demoCartOne)]

/-- A validation error of the cart endpoints (HTTP 422). -/
def demoError : ErrorData :=
  { message := JSValue.str "Cart Error".data, status := jsInt 422,
    description := JSValue.str "All 1 Shirt are in your cart.".data }

/-- The sample page after a stepper click whose change request the server has answered
with an error: the click, the pre-request timer, the error response. -/
def demoAfterError : State :=
  runEvents demoEnv demoOpen
    [Event.qtyAdjustClick 0 true, Event.timerFires 0,
      Event.response 0 (Response.error (some demoError))]

/-- The sample page right after a click on the increment control: busy, the change
request waits for its timer. -/
def demoBusy : State :=
  step demoEnv demoOpen (Event.qtyAdjustClick 0 true)

/-- The page after a successful add to cart: the answer to the pending add request `k`
(`itemAddedCallback`), then the answer `cart` to the cart fetch that the callback has sent
(`cartUpdateCallback`). -/
def addThenFetch (env : Env) (s : State) (k : Nat) (cart : Cart) : State :=
  step env (step env s (Event.response k Response.lineItem))
    (Event.response (s.pending.eraseIdx k).length (Response.cart cart))

/-- The sample page after the shopper has submitted the add-to-cart form. -/
def demoSubmitted : State :=
  step demoEnv (initialState ["1".data]) Event.formSubmit

/-! ## What the money amount should look like -/

/-- The three digits of `n % 1000`. -/
def threeDigits (n : Nat) : List Char :=
  [digitChar (n / 100), digitChar (n / 10), digitChar n]

/-- The two digits of `n % 100`. -/
def twoDigits (n : Nat) : List Char :=
  [digitChar (n / 10), digitChar n]

/-- The digits of `n` grouped in threes from the right, the groups joined by `sep`
(`fuel` bounds the number of groups). -/
def groupedAux (sep : List Char) : Nat → Nat → List Char
  | 0, n => natDigits n
  | fuel + 1, n =>
    if n < 1000 then natDigits n
    else groupedAux sep fuel (n / 1000) ++ sep ++ threeDigits n

/-- The digits of `n` grouped in threes from the right, the groups joined by `sep`. -/
def grouped (sep : List Char) (n : Nat) : List Char :=
  groupedAux sep n n

/-- The amount `cents / 100` written with two decimals: the whole units grouped in threes
with `sep`, the mark `dec`, and the two digits of the remaining cents. -/
def amountWithDecimals (sep dec : List Char) (cents : Nat) : List Char :=
  grouped sep (cents / 100) ++ dec ++ twoDigits cents

/-- The amount `cents / 100` rounded to the nearest whole unit, a half rounding up, and
grouped in threes with `sep`. -/
def amountNoDecimals (sep : List Char) (cents : Nat) : List Char :=
  grouped sep ((cents + 50) / 100)

/-- Cart rows, and with them change requests, exist only once the cart has been built. -/
def BuiltInv (s : State) : Prop :=
  s.cartInit = true ∨
    (s.rows = [] ∧ (∀ t ∈ s.timers, t.isChangeItem = false) ∧
      ∀ r ∈ s.pending, r.isChangeItem = false)

/-! ## The data of `createQtySelectors` -/

/-- The object `data` that `createQtySelectors` hands to the quantity template
(lines 1054-1059). -/
structure QtyView where
  line : Option (List Char)
  itemQty : List Char
  itemAdd : JSValue
  itemMinus : JSValue
  deriving DecidableEq, Repr

/-- The body of the `each` callback of `createQtySelectors` (lines 1044-1059) for a number
field with the attribute `data-line` and the value `val`. -/
def createQtySelector (lineAttr : Option (List Char)) (val : List Char) : QtyView :=
  let currentQty := JSValue.num (parseInt (JSValue.str val))
  { line := lineAttr
    itemQty := (jsAdd currentQty (JSValue.str " x".data)).toStr
    itemAdd := jsAdd currentQty (jsInt 1)
    itemMinus := jsSub currentQty (jsInt 1) }

/-! ## Further sample data -/

/-- Sample cart of two lines, the second of quantity 0. -/
def demoCartZeroLine : Cart :=
  { item_count := 2, total_price := 2500,
    items := [demoItem, { demoItem with key := "k2".data, quantity := 0 }] }

/-- Sample settings and page for the flip method. -/
def demoFlipEnv : Env :=
  { demoEnv with settings := { demoSettings with method := Method.flip } }

/-- The flip page after the cart has been opened, rendered and closed again. -/
def demoFlipClosed : State :=
  runEvents demoFlipEnv (initialState [])
    [Event.toggleClick, Event.response 0 (Response.cart demoCart), Event.toggleClick]

/-- A cart that reports no item although its `items` array holds a line. -/
def demoCartCountZero : Cart :=
  { item_count := 0, total_price := 0, items := [demoItem] }

/-- Sample page whose cart template writes no `data-line` attribute on its rows. -/
def demoLinelessEnv : Env :=
  { demoEnv with
    renderRows := fun data => data.items.map (fun item =>
      { kind := RowKind.ajaxifyRow, line := none,
        value := (jsInt (item.itemAdd - 1)).toStr, isLoading := false, isRemoved := false }) }

/-- The page without `data-line` after the cart with one line of quantity 2 has been
rendered in the open drawer. -/
def demoLinelessOpen : State :=
  runEvents demoLinelessEnv (initialState ["1".data])
    [Event.toggleClick, Event.response 0 (Response.cart demoCart)]

/-! ## Settle timers, add requests and error routes -/

/-- Whether the event is the firing of a settle timer of `adjustCartCallback`. -/
def firesSettle (s : State) (e : Event) : Bool :=
  match e with
  | Event.timerFires k => s.timers.get? k == some Timer.settle
  | _ => false

/-- Whether no settle timer fires in a whole sequence of events run from `s`. -/
def settleFreeTrace (env : Env) : State → List Event → Bool
  | _, [] => true
  | s, e :: es => !firesSettle s e && settleFreeTrace env (step env s e) es

/-- Whether a request is the `Shopify.addItemFromForm` call of the submit handler. -/
def Request.isAdd : Request → Bool
  | Request.addItemFromForm => true
  | _ => false

/-- How many add requests are waiting for their answer. -/
def addPending (s : State) : Nat :=
  (s.pending.filter Request.isAdd).length

/-- Whether, in a sequence of events run from `s`, the form is only submitted while no
earlier add request is waiting for its answer. -/
def submitsApart (env : Env) : State → List Event → Bool
  | _, [] => true
  | s, e :: es =>
    (if e = Event.formSubmit then decide (addPending s = 0) else true) &&
      submitsApart env (step env s e) es

/-- The invariant of the error blocks: blocks on the page and add requests in flight are at
most one together. -/
def ErrorBlockInv (s : State) : Prop :=
  addPending s + s.qtyErrors.length ≤ 1

/-- The sample page after two submits in a row, both answered with the validation
error. -/
def demoTwoErrors : State :=
  runEvents demoEnv (initialState ["1".data])
    [Event.formSubmit, Event.formSubmit, Event.response 0 (Response.error (some demoError)),
      Event.response 0 (Response.error (some demoError))]

/-- A call of one of the cart functions of the `Shopify` object (lines 116-246);
`errorCallback` tells whether the third argument of `addItemFromForm` is a function. -/
inductive ClientCall where
  | addItem
  | addItemFromForm (errorCallback : Bool)
  | changeItem
  | updateCartNote
  | getCart
  deriving DecidableEq, Repr

/-- Where a failed request ends up. -/
inductive ErrorRoute where
  | errorCallback
  | onError
  | nowhere
  deriving DecidableEq, Repr

/-- The `error` member of the parameters that each cart function hands to jQuery:
`Shopify.onError` in `addItem`, `changeItem` and `updateCartNote`, the caller's function or
else `Shopify.onError` in `addItemFromForm`; `getCart` calls `jQuery.getJSON` with a
success function only. -/
def errorRoute : ClientCall → ErrorRoute
  | ClientCall.addItem => ErrorRoute.onError
  | ClientCall.addItemFromForm true => ErrorRoute.errorCallback
  | ClientCall.addItemFromForm false => ErrorRoute.onError
  | ClientCall.changeItem => ErrorRoute.onError
  | ClientCall.updateCartNote => ErrorRoute.onError
  | ClientCall.getCart => ErrorRoute.nowhere

/-- The sample page while the cart fetch that follows a change is under way: the stepper
click, its timer, the answer to the change request, the settle timer. -/
def demoRefetch : State :=
  runEvents demoEnv demoOpen
    [Event.qtyAdjustClick 0 true, Event.timerFires 0,
      Event.response 0 (Response.cart demoCart), Event.timerFires 0]

/-! ## Exchanging the separators of an amount -/

/-- Every `,` and `.` of the text exchanged. -/
def swapSeparators (cs : List Char) : List Char :=
  cs.map (fun c => if c = ',' then '.' else if c = '.' then ',' else c)

/-- Every `,` of the text replaced by `.`. -/
def commaToDot (cs : List Char) : List Char :=
  cs.map (fun c => if c = ',' then '.' else c)

/-- Sample error of the cart endpoints with a status other than 422. -/
def demoServerError : ErrorData :=
  { message := JSValue.str "Server Error".data, status := jsInt 500,
    description := JSValue.str "Try again later.".data }

end ThemeJs

/-! # Lemmas about the conversions -/

namespace ThemeJs

theorem natDigitsAux_append (fuel : Nat) : ∀ (n : Nat) (acc : List Char), n < fuel →
    natDigitsAux fuel n acc = natDigitsAux fuel n [] ++ acc := by
  induction fuel with
  | zero => intro n acc h; omega
  | succ f ih =>
    intro n acc h
    unfold natDigitsAux
    by_cases h10 : n < 10
    · simp [h10]
    · simp only [h10, if_false]
      have hlt : n / 10 < f := by omega
      rw [ih (n / 10) (digitChar (n % 10) :: acc) hlt, ih (n / 10) [digitChar (n % 10)] hlt]
      simp

theorem natDigitsAux_fuel (f1 : Nat) : ∀ (f2 n : Nat), n < f1 → n < f2 →
    natDigitsAux f1 n [] = natDigitsAux f2 n [] := by
  induction f1 with
  | zero => intro f2 n h; omega
  | succ f ih =>
    intro f2 n h1 h2
    cases f2 with
    | zero => omega
    | succ g =>
      unfold natDigitsAux
      by_cases h10 : n < 10
      · simp [h10]
      · simp only [h10, if_false]
        have hlt : n / 10 < f := by omega
        have hlt2 : n / 10 < g := by omega
        rw [natDigitsAux_append f _ _ hlt, natDigitsAux_append g _ _ hlt2, ih g (n / 10) hlt hlt2]

theorem natDigits_lt_ten (n : Nat) (h : n < 10) : natDigits n = [digitChar n] := by
  unfold natDigits natDigitsAux
  simp [h]

theorem natDigits_step (n : Nat) (h : 10 ≤ n) :
    natDigits n = natDigits (n / 10) ++ [digitChar (n % 10)] := by
  have h10 : ¬ n < 10 := by omega
  have e : natDigits n = natDigitsAux n (n / 10) [digitChar (n % 10)] := by
    show natDigitsAux (n + 1) n [] = _
    rw [natDigitsAux]
    simp [h10]
  rw [e, natDigitsAux_append n _ _ (by omega)]
  congr 1
  exact natDigitsAux_fuel n (n / 10 + 1) (n / 10) (by omega) (by omega)

theorem digitChar_toNat (d : Nat) : (digitChar d).toNat = 48 + d % 10 := by
  unfold digitChar
  have h : d % 10 < 10 := Nat.mod_lt _ (by decide)
  generalize d % 10 = k at h
  interval_cases k <;> rfl

theorem isDigit_digitChar (d : Nat) : isDigit (digitChar d) = true := by
  have h : d % 10 < 10 := Nat.mod_lt _ (by decide)
  simp [isDigit, digitChar_toNat]
  omega

theorem radixDigit_digitChar (d : Nat) : radixDigit 10 (digitChar d) = some (d % 10) := by
  have h : d % 10 < 10 := Nat.mod_lt _ (by decide)
  simp [radixDigit, digitChar_toNat]
  split
  · rename_i d' hd
    split at hd
    · simp at hd; subst hd; simp [h]
    · omega
  · rename_i hd
    split at hd
    · simp at hd
    · omega

theorem radixDigit_ten_isSome (c : Char) : (radixDigit 10 c).isSome = isDigit c := by
  unfold radixDigit isDigit
  by_cases h : 48 ≤ c.toNat ∧ c.toNat ≤ 57
  · have h2 : c.toNat - 48 < 10 := by omega
    simp [h, h2]
  · simp only [h, if_false]
    by_cases h3 : 97 ≤ c.toNat ∧ c.toNat ≤ 122
    · have : ¬ (c.toNat - 87 < 10) := by omega
      simp [h3, this]
      intro h4; omega
    · by_cases h5 : 65 ≤ c.toNat ∧ c.toNat ≤ 90
      · have : ¬ (c.toNat - 55 < 10) := by omega
        simp [h3, h5, this]
        intro h4; omega
      · simp [h3, h5]
        intro h4; omega

theorem digitsValue_append (radix : Nat) (l₁ l₂ : List Char) :
    digitsValue radix (l₁ ++ l₂) =
      l₂.foldl (fun acc c => acc * radix + (radixDigit radix c).getD 0) (digitsValue radix l₁) := by
  simp [digitsValue, List.foldl_append]

theorem digitsValue_snoc (l : List Char) (c : Char) :
    digitsValue 10 (l ++ [c]) = digitsValue 10 l * 10 + (radixDigit 10 c).getD 0 := by
  simp [digitsValue_append]

theorem natDigits_all_digits (n : Nat) : ∀ c ∈ natDigits n, isDigit c = true := by
  induction n using Nat.strong_induction_on with
  | _ n ih =>
    by_cases h : n < 10
    · rw [natDigits_lt_ten n h]
      intro c hc
      simp at hc
      subst hc
      exact isDigit_digitChar n
    · rw [natDigits_step n (by omega)]
      intro c hc
      simp at hc
      rcases hc with hc | hc
      · exact ih (n / 10) (by omega) c hc
      · subst hc
        exact isDigit_digitChar _

theorem digitsValue_natDigits (n : Nat) : digitsValue 10 (natDigits n) = n := by
  induction n using Nat.strong_induction_on with
  | _ n ih =>
    by_cases h : n < 10
    · rw [natDigits_lt_ten n h]
      simp [digitsValue, radixDigit_digitChar]
      omega
    · rw [natDigits_step n (by omega), digitsValue_snoc, ih (n / 10) (by omega),
        radixDigit_digitChar]
      simp
      omega

theorem natDigits_ne_nil (n : Nat) : natDigits n ≠ [] := by
  by_cases h : n < 10
  · rw [natDigits_lt_ten n h]; simp
  · rw [natDigits_step n (by omega)]; simp

theorem natDigits_length_le (k : Nat) : ∀ n : Nat, n < 10 ^ (k + 1) →
    (natDigits n).length ≤ k + 1 := by
  induction k with
  | zero =>
    intro n h
    rw [natDigits_lt_ten n (by simpa using h)]
    simp
  | succ k ih =>
    intro n h
    by_cases h10 : n < 10
    · rw [natDigits_lt_ten n h10]; simp
    · rw [natDigits_step n (by omega)]
      have : n / 10 < 10 ^ (k + 1) := by
        rw [Nat.div_lt_iff_lt_mul (by decide)]
        rw [pow_succ] at h
        exact h
      have := ih (n / 10) this
      simp
      omega

theorem stripTrailingZeros_length_le (l : List Char) :
    (stripTrailingZeros l).length ≤ l.length := by
  unfold stripTrailingZeros
  have h := congrArg List.length (List.takeWhile_append_dropWhile (fun c => c == '0') l.reverse)
  rw [List.length_append, List.length_reverse] at h
  rw [List.length_reverse]
  omega

theorem stripTrailingZeros_append_zeros (l : List Char) :
    stripTrailingZeros l ++ List.replicate (l.length - (stripTrailingZeros l).length) '0' = l := by
  unfold stripTrailingZeros
  have h := List.takeWhile_append_dropWhile (fun c => c == '0') l.reverse
  have hz : l.reverse.takeWhile (fun c => c == '0') =
      List.replicate (l.reverse.takeWhile (fun c => c == '0')).length '0' := by
    rw [List.eq_replicate_iff]
    refine ⟨rfl, ?_⟩
    intro b hb
    have := List.mem_takeWhile_imp hb
    simpa using this
  have hlen : l.length - (l.reverse.dropWhile (fun c => c == '0')).reverse.length =
      (l.reverse.takeWhile (fun c => c == '0')).length := by
    have h' := congrArg List.length h
    rw [List.length_append, List.length_reverse] at h'
    rw [List.length_reverse]
    omega
  rw [hlen]
  have h2 := congrArg List.reverse h
  simp only [List.reverse_append, List.reverse_reverse] at h2
  rw [hz, List.reverse_replicate] at h2
  exact h2

theorem posToString_int (m : Nat) (h : m < 10 ^ 21) :
    JSNum.posToString m 0 = natDigits m := by
  unfold JSNum.posToString JSNum.renderDigits
  have h1 := natDigits_length_le 20 m h
  have h2 := stripTrailingZeros_length_le (natDigits m)
  have h3 := stripTrailingZeros_append_zeros (natDigits m)
  simp only
  rw [if_pos (by constructor <;> omega)]
  have : (((natDigits m).length : Int) - ((0 : Nat) : Int) -
      ((stripTrailingZeros (natDigits m)).length : Int)).toNat =
      (natDigits m).length - (stripTrailingZeros (natDigits m)).length := by omega
  rw [this]
  exact h3

theorem isDigit_not_ws (c : Char) (h : isDigit c = true) : isJsWhiteSpace c = false := by
  simp [isDigit] at h
  simp [isJsWhiteSpace]
  omega

theorem isDigit_ne (c d : Char) (h : isDigit c = true) (hd : isDigit d = false) : c ≠ d := by
  intro e; subst e; rw [h] at hd; exact Bool.noConfusion hd

theorem takeWhile_all {α : Type} (p : α → Bool) (l : List α) (h : ∀ c ∈ l, p c = true) :
    l.takeWhile p = l := by
  rw [List.takeWhile_eq_self_iff]
  exact h

theorem dropWhile_all {α : Type} (p : α → Bool) (l : List α) (h : ∀ c ∈ l, p c = true) :
    l.dropWhile p = [] := by
  rw [List.dropWhile_eq_nil_iff]
  exact h

theorem no_hex_prefix (d : Char) (t : List Char) (hall : ∀ c ∈ t, isDigit c = true) :
    ¬ (d = '0' ∧ List.take 1 t = ['x'] ∨ d = '0' ∧ List.take 1 t = ['X']) := by
  cases t with
  | nil => simp
  | cons a t' =>
    have ha := hall a (by simp)
    have h1 : a ≠ 'x' := isDigit_ne a 'x' ha (by decide)
    have h2 : a ≠ 'X' := isDigit_ne a 'X' ha (by decide)
    simp [h1, h2]

theorem parseIntChars_digits (ds : List Char) (hne : ds ≠ [])
    (hall : ∀ c ∈ ds, isDigit c = true) :
    parseIntChars ds = JSNum.fin (digitsValue 10 ds : Int) 0 := by
  cases ds with
  | nil => exact absurd rfl hne
  | cons d t =>
    have hd := hall d (by simp)
    have hws := isDigit_not_ws d hd
    have h1 : d ≠ '-' := isDigit_ne d '-' hd (by decide)
    have h2 : d ≠ '+' := isDigit_ne d '+' hd (by decide)
    have h3 := no_hex_prefix d t (fun c hc => hall c (by simp [hc]))
    have h5 : (d :: t).takeWhile (fun c => (radixDigit 10 c).isSome) = d :: t :=
      takeWhile_all _ _ (fun c hc => by rw [radixDigit_ten_isSome]; exact hall c hc)
    unfold parseIntChars trimStart
    simp [List.dropWhile, hws, h1, h2, h3, h5]

theorem parseIntChars_neg_digits (ds : List Char) (hne : ds ≠ [])
    (hall : ∀ c ∈ ds, isDigit c = true) :
    parseIntChars ('-' :: ds) = JSNum.fin (-(digitsValue 10 ds : Int)) 0 := by
  cases ds with
  | nil => exact absurd rfl hne
  | cons d t =>
    have hd := hall d (by simp)
    have hws : isJsWhiteSpace '-' = false := by decide
    have h3 := no_hex_prefix d t (fun c hc => hall c (by simp [hc]))
    have h5 : (d :: t).takeWhile (fun c => (radixDigit 10 c).isSome) = d :: t :=
      takeWhile_all _ _ (fun c hc => by rw [radixDigit_ten_isSome]; exact hall c hc)
    unfold parseIntChars trimStart
    simp [List.dropWhile, hws, h3, h5]

theorem scanUnsignedDecimal_digits (ds : List Char) (hne : ds ≠ [])
    (hall : ∀ c ∈ ds, isDigit c = true) :
    scanUnsignedDecimal ds = some (JSNum.fin (digitsValue 10 ds : Int) 0, []) := by
  have h1 : ds.take 8 ≠ "Infinity".data := by
    cases ds with
    | nil => exact absurd rfl hne
    | cons d t =>
      intro e
      have hd := hall d (by simp)
      have : d = 'I' := by
        have := congrArg List.head? e
        simpa using this
      rw [this] at hd
      exact absurd hd (by decide)
  have h2 := takeWhile_all isDigit ds hall
  have h3 := dropWhile_all isDigit ds hall
  have h4 : ds.isEmpty = false := by
    cases ds with
    | nil => exact absurd rfl hne
    | cons d t => rfl
  unfold scanUnsignedDecimal
  simp [h1, h2, h3, h4, scanExponent, scaled]

theorem parseFloatChars_digits (ds : List Char) (hne : ds ≠ [])
    (hall : ∀ c ∈ ds, isDigit c = true) :
    parseFloatChars ds = JSNum.fin (digitsValue 10 ds : Int) 0 := by
  cases ds with
  | nil => exact absurd rfl hne
  | cons d t =>
    have hd := hall d (by simp)
    have hws := isDigit_not_ws d hd
    have h1 : d ≠ '-' := isDigit_ne d '-' hd (by decide)
    have h2 : d ≠ '+' := isDigit_ne d '+' hd (by decide)
    unfold parseFloatChars trimStart scanDecimal
    simp [List.dropWhile, hws, h1, h2, scanUnsignedDecimal_digits (d :: t) hne hall]

theorem parseFloatChars_neg_digits (ds : List Char) (hne : ds ≠ [])
    (hall : ∀ c ∈ ds, isDigit c = true) :
    parseFloatChars ('-' :: ds) = JSNum.fin (-(digitsValue 10 ds : Int)) 0 := by
  have hws : isJsWhiteSpace '-' = false := by decide
  unfold parseFloatChars trimStart scanDecimal
  simp [List.dropWhile, hws, scanUnsignedDecimal_digits ds hne hall, JSNum.neg]

theorem toString_int (z : Int) (h : z.natAbs < 10 ^ 21) :
    (JSNum.fin z 0).toString =
      if z < 0 then '-' :: natDigits z.natAbs else natDigits z.natAbs := by
  unfold JSNum.toString
  by_cases h0 : z = 0
  · subst h0; simp; rfl
  · simp only [h0, if_false]
    rw [posToString_int _ h]

theorem parseInt_int (z : Int) (h : z.natAbs < 10 ^ 21) :
    parseInt (jsInt z) = JSNum.fin z 0 := by
  show parseIntChars (JSNum.fin z 0).toString = _
  rw [toString_int z h]
  by_cases hz : z < 0
  · rw [if_pos hz, parseIntChars_neg_digits _ (natDigits_ne_nil _) (natDigits_all_digits _),
      digitsValue_natDigits]
    congr 1
    omega
  · rw [if_neg hz, parseIntChars_digits _ (natDigits_ne_nil _) (natDigits_all_digits _),
      digitsValue_natDigits]
    congr 1
    omega

theorem parseFloat_int (z : Int) (h : z.natAbs < 10 ^ 21) :
    parseFloat (jsInt z) = JSNum.fin z 0 := by
  show parseFloatChars (JSNum.fin z 0).toString = _
  rw [toString_int z h]
  by_cases hz : z < 0
  · rw [if_pos hz, parseFloatChars_neg_digits _ (natDigits_ne_nil _) (natDigits_all_digits _),
      digitsValue_natDigits]
    congr 1
    omega
  · rw [if_neg hz, parseFloatChars_digits _ (natDigits_ne_nil _) (natDigits_all_digits _),
      digitsValue_natDigits]
    congr 1
    omega

theorem validateQty_int (z : Int) (h : z.natAbs < 10 ^ 21) :
    validateQty (jsInt z) = jsInt z := by
  unfold validateQty
  rw [parseFloat_int z h, parseInt_int z h]
  simp [JSNum.eq, isNaN, jsInt, JSValue.toNumber, JSNum.ofInt, JSNum.isNaN]

theorem cartStepperQty_decrement (text : List Char) (q : Int)
    (hq : parseIntChars text = JSNum.ofInt q) (hb : q.natAbs < 2 ^ 53) :
    cartStepperQty text false = jsInt (max (q - 1) 0) := by
  have hb' : q.natAbs < 10 ^ 21 := lt_trans hb (by norm_num)
  have hv := validateQty_int q hb'
  unfold cartStepperQty
  simp only [parseInt, JSValue.toStr, hq]
  change (if jsLeNum (validateQty (jsInt q)) (JSNum.ofInt 0) then jsInt 0
    else jsSub (validateQty (jsInt q)) (jsInt 1)) = _
  rw [hv]
  by_cases h0 : q ≤ 0
  · simp [jsLeNum, jsInt, JSValue.toNumber, JSNum.ofInt, JSNum.le, h0]
    omega
  · simp [jsLeNum, jsInt, JSValue.toNumber, JSNum.ofInt, JSNum.le, h0, jsSub, JSNum.sub,
      JSNum.add, JSNum.neg]
    omega

theorem standaloneStepperQty_decrement (text : List Char) (q qtyMin : Int)
    (hq : parseIntChars text = JSNum.ofInt q) (hb : q.natAbs < 2 ^ 53) :
    standaloneStepperQty text false qtyMin = jsInt (max (q - 1) qtyMin) := by
  have hb' : q.natAbs < 10 ^ 21 := lt_trans hb (by norm_num)
  have hv := validateQty_int q hb'
  unfold standaloneStepperQty
  simp only [parseInt, JSValue.toStr, hq]
  change (if jsLeNum (validateQty (jsInt q)) (JSNum.ofInt qtyMin) then jsInt qtyMin
    else jsSub (validateQty (jsInt q)) (jsInt 1)) = _
  rw [hv]
  by_cases h0 : q ≤ qtyMin
  · simp [jsLeNum, jsInt, JSValue.toNumber, JSNum.ofInt, JSNum.le, h0]
    omega
  · simp [jsLeNum, jsInt, JSValue.toNumber, JSNum.ofInt, JSNum.le, h0, jsSub, JSNum.sub,
      JSNum.add, JSNum.neg]
    omega

/-! # Lemmas about the event loop -/

theorem length_filter_eraseIdx {α : Type} (p : α → Bool) :
    ∀ (l : List α) (k : Nat) (t : α), l.get? k = some t →
      (l.filter p).length = ((l.eraseIdx k).filter p).length + (if p t then 1 else 0) := by
  intro l
  induction l with
  | nil => intro k t h; simp at h
  | cons a l ih =>
    intro k t h
    cases k with
    | zero =>
      simp at h
      subst h
      by_cases hp : p a <;> simp [List.filter, hp]
    | succ k =>
      simp at h
      have := ih k t (by simpa using h)
      by_cases hp : p a
      · simp [List.filter, hp, this]
        omega
      · simp [List.filter, hp, this]

theorem busyInv_send (c : Nat) (s : State) (r : Request) (hr : r.isChangeItem = false)
    (h : BusyInv c s) : BusyInv c (send r s) := by
  unfold BusyInv changeItemCalls changeItemTimers send at *
  simp [List.filter_append, hr]
  exact h

theorem busyInv_outcome_buildCart (c : Nat) (env : Env) (cart : Cart) (s : State)
    (h : BusyInv c s) : BusyInv c (outcome (buildCart env cart s)) := by
  unfold BusyInv changeItemCalls changeItemTimers at *
  unfold buildCart
  dsimp only
  repeat' split
  all_goals simp [outcome, sizeModal, sizeDrawer, toggleCallback, send, cartTemplate,
    loadCartImages, Request.isChangeItem]
  all_goals (repeat' split)
  all_goals simp_all

theorem busyInv_outcome_updateCountPrice (c : Nat) (env : Env) (cart : Cart) (s : State)
    (h : BusyInv c s) : BusyInv c (outcome (updateCountPrice env cart s)) := by
  unfold BusyInv changeItemCalls changeItemTimers at *
  unfold updateCountPrice
  dsimp only
  split <;> simp [outcome] <;> exact h

theorem busyInv_outcome_cartUpdateCallback (c : Nat) (env : Env) (cart : Cart) (s : State)
    (h : BusyInv c s) : BusyInv c (outcome (cartUpdateCallback env cart s)) := by
  have h1 := busyInv_outcome_updateCountPrice c env cart s h
  unfold cartUpdateCallback
  cases hu : updateCountPrice env cart s with
  | error s1 => simpa [outcome, hu] using h1
  | ok s1 =>
    have h1' : BusyInv c s1 := by simpa [outcome, hu] using h1
    have h2 := busyInv_outcome_buildCart c env cart s1 h1'
    dsimp only
    cases hm : env.settings.method with
    | flip =>
      unfold BusyInv changeItemCalls changeItemTimers at *
      simpa [outcome] using h1'
    | modal => simpa using h2
    | drawer =>
      cases hb : buildCart env cart s1 with
      | error s2 => simpa [outcome, hb] using h2
      | ok s2 =>
        have h2' : BusyInv c s2 := by simpa [outcome, hb] using h2
        unfold BusyInv changeItemCalls changeItemTimers at *
        simp only [outcome]
        split
        · simp [showDrawer, hm, toggleCallback]
          repeat' split
          all_goals simp_all [send, sizeDrawer, Request.isChangeItem]
        · exact h2'

theorem busyInv_outcome_adjustCartCallback (c : Nat) (env : Env) (cart : Cart) (s : State)
    (h : BusyInv c s) : BusyInv c (outcome (adjustCartCallback env cart s)) := by
  have h1 := busyInv_outcome_updateCountPrice c env cart s h
  unfold adjustCartCallback
  cases hu : updateCountPrice env cart s with
  | error s1 => simpa [outcome, hu] using h1
  | ok s1 =>
    have h1' : BusyInv c s1 := by simpa [outcome, hu] using h1
    unfold BusyInv changeItemCalls changeItemTimers at *
    simp only [outcome]
    repeat' split
    all_goals simp_all [hideDrawer, toggleCallback, List.filter_append, Timer.isChangeItem]
    all_goals (repeat' split)
    all_goals simp_all

theorem busyInv_deliver (c : Nat) (env : Env) (req : Request) (r : Response) (s : State)
    (h : BusyInv c s) : BusyInv c (deliver env req r s) := by
  unfold deliver
  split
  · exact busyInv_outcome_cartUpdateCallback c env _ s h
  · exact busyInv_outcome_buildCart c env _ s h
  · exact busyInv_outcome_buildCart c env _ s h
  · exact busyInv_outcome_adjustCartCallback c env _ s h
  · unfold BusyInv changeItemCalls changeItemTimers onError at *
    repeat' split
    all_goals simp_all
  · unfold BusyInv changeItemCalls changeItemTimers itemAddedCallback at *
    dsimp only
    repeat' split
    all_goals simp_all [send, List.filter_append, Timer.isChangeItem, Request.isChangeItem]
  · unfold BusyInv changeItemCalls changeItemTimers itemErrorCallback at *
    dsimp only
    repeat' split
    all_goals simp_all
  · unfold BusyInv changeItemCalls changeItemTimers onError at *
    repeat' split
    all_goals simp_all
  · unfold BusyInv changeItemCalls changeItemTimers cartLoaded at *
    dsimp only
    repeat' split
    all_goals simp_all [loadCartImages, sizeDrawer]
  · exact h

theorem busyInv_step (c : Nat) (env : Env) (s : State) (e : Event)
    (h : BusyInv c s) (hw : inBusyWindow s e = true) : BusyInv c (step env s e) := by
  cases e with
  | qtyAdjustClick i add => simp [step, qtyAdjustClick, h.1]; exact h
  | qtyInputChange i text =>
    unfold BusyInv changeItemCalls changeItemTimers at *
    simp only [step, qtyInputChange]
    split
    · exact h
    · simp [h.1]; exact h.2
  | removeClick i => simp [inBusyWindow] at hw
  | jsQtyAdjusterClick i add =>
    unfold BusyInv changeItemCalls changeItemTimers at *
    simp only [step, jsQtyAdjusterClick]
    split <;> simp_all
  | formSubmit =>
    unfold BusyInv changeItemCalls changeItemTimers at *
    simp only [step, formSubmit]
    repeat' split
    all_goals simp_all [send, List.filter_append, Request.isChangeItem]
  | toggleClick =>
    unfold BusyInv changeItemCalls changeItemTimers at *
    simp only [step, toggleClick]
    repeat' split
    all_goals try simp [hideModal, showModal, hideDrawer, showDrawer, sizeModal, sizeDrawer,
      toggleCallback, send]
    all_goals (repeat' split)
    all_goals simp_all [List.filter_append, Request.isChangeItem]
  | flipCartClick =>
    unfold BusyInv changeItemCalls changeItemTimers at *
    simp only [step]
    repeat' split
    all_goals try simp [showDrawer, sizeDrawer, toggleCallback, send]
    all_goals (repeat' split)
    all_goals simp_all [List.filter_append, Request.isChangeItem]
  | escapeKey =>
    unfold BusyInv changeItemCalls changeItemTimers at *
    simp only [step, escapeKey]
    repeat' split
    all_goals try simp [hideModal, hideDrawer, toggleCallback]
    all_goals (repeat' split)
    all_goals simp_all
  | noteChange note => exact busyInv_send c s _ rfl h
  | imagesLoaded =>
    unfold BusyInv changeItemCalls changeItemTimers at *
    simp only [step, imagesLoaded]
    repeat' split
    all_goals try simp [sizeModal, sizeDrawer, toggleCallback]
    all_goals (repeat' split)
    all_goals simp_all
  | timerFires k =>
    simp only [step]
    cases ht : s.timers.get? k with
    | none => simpa using h
    | some t =>
      have hcount := length_filter_eraseIdx Timer.isChangeItem s.timers k t ht
      unfold BusyInv changeItemCalls changeItemTimers at *
      cases t with
      | changeItem line qty =>
        simp [fireTimer, send, List.filter_append, Request.isChangeItem, h.1]
        simp [Timer.isChangeItem] at hcount
        omega
      | settle =>
        simp only [inBusyWindow, ht] at hw
        exact absurd hw (by decide)
      | flip =>
        simp [fireTimer, h.1]
        simp [Timer.isChangeItem] at hcount
        omega
  | response k r =>
    simp only [step]
    cases hp : s.pending.get? k with
    | none => simpa using h
    | some req =>
      apply busyInv_deliver
      exact h

theorem busyInv_runEvents (c : Nat) (env : Env) : ∀ (es : List Event) (s : State),
    BusyInv c s → windowTrace env s es = true → BusyInv c (runEvents env s es) := by
  intro es
  induction es with
  | nil => intro s h _; exact h
  | cons e es ih =>
    intro s h hw
    simp only [windowTrace, Bool.and_eq_true] at hw
    exact ih (step env s e) (busyInv_step c env s e h hw.1) hw.2

theorem formatMoney_isSome (env : Env) (h : env.moneyFormatOk = true) (c : JSValue) :
    ∃ t, formatMoney env.shopFormat c env.settings.moneyFormat = some t := by
  unfold Env.moneyFormatOk at h
  unfold formatMoney
  dsimp only
  split at h
  · rename_i fs hfs
    rw [hfs]
    dsimp only
    cases hf : findPlaceholder fs with
    | none => simp [hf] at h
    | some p =>
      obtain ⟨pre, name, post⟩ := p
      exact ⟨_, rfl⟩
  · exact absurd h (by decide)

theorem emptiedInv_send (s : State) (r : Request) (hr : r.isMutationFlow = true)
    (h : EmptiedInv s) : EmptiedInv (send r s) := by
  obtain ⟨h1, h2, h3⟩ := h
  refine ⟨h1, h2, ?_⟩
  intro q hq
  simp only [send, List.mem_append, List.mem_singleton] at hq
  rcases hq with hq | rfl
  · exact h3 q hq
  · exact hr

theorem emptiedInv_outcome_updateCountPrice (env : Env) (cart : Cart) (s : State)
    (h : EmptiedInv s) : EmptiedInv (outcome (updateCountPrice env cart s)) := by
  unfold EmptiedInv at *
  unfold updateCountPrice
  dsimp only
  split <;> simp [outcome] <;> exact h

theorem emptiedInv_outcome_buildCart (env : Env) (cart : Cart) (s : State)
    (h : EmptiedInv s) : EmptiedInv (outcome (buildCart env cart s)) := by
  obtain ⟨h1, h2, h3⟩ := h
  unfold buildCart
  dsimp only
  repeat' split
  all_goals simp only [outcome, sizeModal, sizeDrawer, toggleCallback, cartTemplate,
    loadCartImages]
  all_goals (repeat' split)
  all_goals first
    | exact ⟨h1, h2, h3⟩
    | exact ⟨rfl, h2, h3⟩
    | exact emptiedInv_send _ _ rfl ⟨h1, h2, h3⟩

theorem emptiedInv_outcome_adjustCartCallback (env : Env) (cart : Cart) (s : State)
    (h : EmptiedInv s) : EmptiedInv (outcome (adjustCartCallback env cart s)) := by
  have h1 := emptiedInv_outcome_updateCountPrice env cart s h
  unfold adjustCartCallback
  cases hu : updateCountPrice env cart s with
  | error s1 => simpa [outcome, hu] using h1
  | ok s1 =>
    have h1' : EmptiedInv s1 := by simpa [outcome, hu] using h1
    obtain ⟨a, b, c⟩ := h1'
    simp only [outcome, hideDrawer, toggleCallback]
    repeat' split
    all_goals first
      | exact ⟨a, b, c⟩
      | (refine ⟨?_, ?_, ?_⟩ <;> simp_all)

theorem emptiedInv_deliver (env : Env) (req : Request) (r : Response) (s : State)
    (hreq : req.isMutationFlow = true) (h : EmptiedInv s) : EmptiedInv (deliver env req r s) := by
  unfold deliver
  split
  · exact absurd hreq (by decide)
  · exact emptiedInv_outcome_buildCart env _ s h
  · exact emptiedInv_outcome_buildCart env _ s h
  · exact emptiedInv_outcome_adjustCartCallback env _ s h
  · obtain ⟨a, b, c⟩ := h
    unfold onError
    repeat' split
    all_goals exact ⟨a, b, c⟩
  · exact absurd hreq (by decide)
  · exact absurd hreq (by decide)
  · obtain ⟨a, b, c⟩ := h
    unfold onError
    repeat' split
    all_goals exact ⟨a, b, c⟩
  · obtain ⟨a, b, c⟩ := h
    unfold cartLoaded
    simp only [loadCartImages, sizeDrawer]
    repeat' split
    all_goals exact ⟨rfl, b, c⟩
  · exact h

theorem emptiedInv_step (env : Env) (s : State) (e : Event)
    (h : EmptiedInv s) (he : e.isMutationFlow = true) : EmptiedInv (step env s e) := by
  cases e with
  | qtyAdjustClick i add =>
    simp only [step, qtyAdjustClick]
    repeat' split
    all_goals exact h
  | qtyInputChange i text =>
    simp only [step, qtyInputChange]
    repeat' split
    all_goals exact h
  | removeClick i =>
    simp only [step, removeClick]
    repeat' split
    all_goals exact h
  | jsQtyAdjusterClick i add =>
    simp only [step, jsQtyAdjusterClick]
    repeat' split
    all_goals exact h
  | formSubmit => exact absurd he (by decide)
  | toggleClick => exact absurd he (by decide)
  | flipCartClick => exact absurd he (by decide)
  | escapeKey =>
    simp only [step, escapeKey, hideModal, hideDrawer, toggleCallback]
    repeat' split
    all_goals first
      | exact h
      | exact ⟨h.1, rfl, h.2.2⟩
  | noteChange note => exact emptiedInv_send s _ rfl h
  | imagesLoaded =>
    simp only [step, imagesLoaded, sizeModal, sizeDrawer, toggleCallback]
    repeat' split
    all_goals exact h
  | timerFires k =>
    simp only [step]
    split
    · exact h
    · rename_i t ht
      cases t with
      | changeItem line qty =>
        exact emptiedInv_send _ _ rfl ⟨h.1, h.2.1, h.2.2⟩
      | settle =>
        exact emptiedInv_send _ _ rfl ⟨h.1, h.2.1, h.2.2⟩
      | flip => exact ⟨h.1, h.2.1, h.2.2⟩
  | response k r =>
    simp only [step]
    split
    · exact h
    · rename_i req hreq
      apply emptiedInv_deliver
      · exact h.2.2 req (List.get?_mem hreq)
      · refine ⟨h.1, h.2.1, ?_⟩
        intro q hq
        exact h.2.2 q (List.mem_of_mem_eraseIdx hq)

theorem emptiedInv_runEvents (env : Env) : ∀ (es : List Event) (s : State),
    EmptiedInv s → (∀ e ∈ es, e.isMutationFlow = true) → EmptiedInv (runEvents env s es) := by
  intro es
  induction es with
  | nil => intro s h _; exact h
  | cons e es ih =>
    intro s h hw
    exact ih (step env s e) (emptiedInv_step env s e h (hw e (by simp)))
      (fun e' he' => hw e' (by simp [he']))

/-! # The cart properties -/

/-! ## Busy exclusion -/

/-- C1. Busy exclusion: from an idle page with no change request waiting, a click on a
line-aware cart stepper followed by any events of the busy window (further stepper clicks,
the pre-request timer, responses, anything but a remove click and the settle timer) leaves
exactly one `Shopify.changeItem` call made or about to be made, and every further stepper
click is a no-op. -/
theorem busy_exclusion (env : Env) (s : State) (i : Nat) (add : Bool) (r : Row) (line : Nat)
    (es : List Event)
    (hidle : s.isUpdating = false) (hquiet : changeItemTimers s = 0)
    (hrow : s.rows.get? i = some r) (hline : truthyLine r.line = some line)
    (hwin : windowTrace env (step env s (Event.qtyAdjustClick i add)) es = true) :
    changeItemCalls (runEvents env (step env s (Event.qtyAdjustClick i add)) es)
        + changeItemTimers (runEvents env (step env s (Event.qtyAdjustClick i add)) es)
      = changeItemCalls s + 1 ∧
    ∀ (j : Nat) (b : Bool),
      step env (runEvents env (step env s (Event.qtyAdjustClick i add)) es)
          (Event.qtyAdjustClick j b)
        = runEvents env (step env s (Event.qtyAdjustClick i add)) es := by
  have hs : step env s (Event.qtyAdjustClick i add)
      = updateQuantity env line (cartStepperQty r.value add) s := by
    rw [List.get?_eq_getElem?] at hrow
    simp [step, qtyAdjustClick, hidle, hrow, hline]
  have h1 : BusyInv (changeItemCalls s + 1) (step env s (Event.qtyAdjustClick i add)) := by
    rw [hs]
    unfold changeItemTimers at hquiet
    unfold BusyInv changeItemCalls changeItemTimers updateQuantity
    simp [List.filter_append, Timer.isChangeItem, hquiet]
  have h2 := busyInv_runEvents _ env es _ h1 hwin
  generalize runEvents env (step env s (Event.qtyAdjustClick i add)) es = t at h2 ⊢
  refine ⟨h2.2, ?_⟩
  intro j b
  simp [step, qtyAdjustClick, h2.1]

/-- Witness for C1 on the sample page: three clicks around the pre-request timer and the
response. -/
theorem busy_exclusion_witness :
    demoOpen.isUpdating = false ∧
    changeItemCalls (runEvents demoEnv (step demoEnv demoOpen (Event.qtyAdjustClick 0 true))
        [Event.qtyAdjustClick 0 true, Event.timerFires 0, Event.qtyAdjustClick 0 false,
          Event.response 0 (Response.cart demoCart), Event.qtyAdjustClick 0 true])
      + changeItemTimers (runEvents demoEnv (step demoEnv demoOpen (Event.qtyAdjustClick 0 true))
        [Event.qtyAdjustClick 0 true, Event.timerFires 0, Event.qtyAdjustClick 0 false,
          Event.response 0 (Response.cart demoCart), Event.qtyAdjustClick 0 true])
      = changeItemCalls demoOpen + 1 :=
  ⟨by decide,
    (busy_exclusion demoEnv demoOpen 0 true
      { kind := RowKind.ajaxifyRow, line := some 1, value := "2".data, isLoading := false,
        isRemoved := false } 1
      [Event.qtyAdjustClick 0 true, Event.timerFires 0, Event.qtyAdjustClick 0 false,
        Event.response 0 (Response.cart demoCart), Event.qtyAdjustClick 0 true]
      (by decide) (by decide) (by decide) (by decide) (by decide)).1⟩

/-! ## Empty-cart convergence -/

theorem adjustCartCallback_empty (env : Env) (cart : Cart) (s : State)
    (hmethod : env.settings.method ≠ Method.modal) (hfmt : env.moneyFormatOk = true)
    (hc : cart.item_count = 0) (hinit : s.cartInit = true)
    (hpend : ∀ r ∈ s.pending, r.isMutationFlow = true) :
    EmptiedInv (outcome (adjustCartCallback env cart s)) := by
  obtain ⟨t, ht⟩ := formatMoney_isSome env hfmt (jsInt cart.total_price)
  unfold EmptiedInv adjustCartCallback updateCountPrice
  simp only [ht, hc]
  cases hm : env.settings.method with
  | modal => exact absurd hm hmethod
  | drawer =>
    simp only [outcome, hideDrawer, toggleCallback, if_true]
    split <;> exact ⟨hinit, rfl, hpend⟩
  | flip =>
    simp only [outcome, hideDrawer, toggleCallback, if_true]
    split <;> exact ⟨hinit, rfl, hpend⟩

theorem buildCart_empty (env : Env) (cart : Cart) (s : State)
    (hmethod : env.settings.method ≠ Method.modal) (hc : cart.item_count = 0)
    (hinit : s.cartInit = true) (hvis : s.drawerVisible = false) :
    (outcome (buildCart env cart s)).cartContent = [CartNode.emptyMessage] ∧
      (outcome (buildCart env cart s)).drawerHeight = some 0 := by
  unfold buildCart
  cases hm : env.settings.method with
  | modal => exact absurd hm hmethod
  | drawer => simp [outcome, hc, sizeDrawer, hinit, hvis]
  | flip => simp [outcome, hc, sizeDrawer, hinit, hvis]

/-! ## Rows exist only once the cart has been built -/

theorem builtInv_send (s : State) (r : Request) (hr : r.isChangeItem = false)
    (h : BuiltInv s) : BuiltInv (send r s) := by
  rcases h with h | ⟨h1, h2, h3⟩
  · exact Or.inl h
  · refine Or.inr ⟨h1, h2, ?_⟩
    intro q hq
    simp only [send, List.mem_append, List.mem_singleton] at hq
    rcases hq with hq | rfl
    · exact h3 q hq
    · exact hr

theorem builtInv_outcome_updateCountPrice (env : Env) (cart : Cart) (s : State)
    (h : BuiltInv s) : BuiltInv (outcome (updateCountPrice env cart s)) := by
  unfold updateCountPrice
  dsimp only
  split <;> exact h

theorem builtInv_outcome_buildCart (env : Env) (cart : Cart) (s : State)
    (h : BuiltInv s) : BuiltInv (outcome (buildCart env cart s)) := by
  have hempty : BuiltInv { s with cartContent := [], rows := [] } := by
    rcases h with h | ⟨h1, h2, h3⟩
    · exact Or.inl h
    · exact Or.inr ⟨rfl, h2, h3⟩
  have hmsg : ∀ c, BuiltInv { s with cartContent := c, rows := [] } := by
    intro c
    rcases h with h | ⟨h1, h2, h3⟩
    · exact Or.inl h
    · exact Or.inr ⟨rfl, h2, h3⟩
  unfold buildCart
  dsimp only
  repeat' split
  all_goals simp only [outcome, sizeModal, sizeDrawer, toggleCallback, cartTemplate,
    loadCartImages]
  all_goals (repeat' split)
  all_goals first
    | exact Or.inl rfl
    | exact h
    | exact hempty
    | exact hmsg _
    | exact builtInv_send _ _ rfl h
    | exact builtInv_send _ _ rfl hempty

theorem builtInv_frame (s t : State) (h : BuiltInv s) (hc : t.cartInit = s.cartInit)
    (hr : t.rows = s.rows) (ht : t.timers = s.timers) (hp : t.pending = s.pending) :
    BuiltInv t := by
  unfold BuiltInv at *
  rw [hc, hr, ht, hp]
  exact h

theorem builtInv_of (s t : State) (h : BuiltInv s) (hc : t.cartInit = s.cartInit)
    (hr : t.rows = s.rows)
    (ht : ∀ x ∈ t.timers, x ∈ s.timers ∨ x.isChangeItem = false)
    (hp : ∀ r ∈ t.pending, r ∈ s.pending ∨ r.isChangeItem = false) : BuiltInv t := by
  rcases h with h | ⟨a, b, c⟩
  · exact Or.inl (hc.trans h)
  · refine Or.inr ⟨hr.trans a, ?_, ?_⟩
    · intro x hx
      rcases ht x hx with h1 | h1
      · exact b x h1
      · exact h1
    · intro x hx
      rcases hp x hx with h1 | h1
      · exact c x h1
      · exact h1

theorem pending_append_ok (l : List Request) (a : Request) (ha : a.isChangeItem = false) :
    ∀ x ∈ l ++ [a], x ∈ l ∨ x.isChangeItem = false := by
  intro x hx
  simp only [List.mem_append, List.mem_singleton] at hx
  rcases hx with hx | rfl
  · exact Or.inl hx
  · exact Or.inr ha

theorem timers_append_ok (l : List Timer) (a : Timer) (ha : a.isChangeItem = false) :
    ∀ x ∈ l ++ [a], x ∈ l ∨ x.isChangeItem = false := by
  intro x hx
  simp only [List.mem_append, List.mem_singleton] at hx
  rcases hx with hx | rfl
  · exact Or.inl hx
  · exact Or.inr ha

theorem builtInv_outcome_cartUpdateCallback (env : Env) (cart : Cart) (s : State)
    (h : BuiltInv s) : BuiltInv (outcome (cartUpdateCallback env cart s)) := by
  have h1 := builtInv_outcome_updateCountPrice env cart s h
  unfold cartUpdateCallback
  cases hu : updateCountPrice env cart s with
  | error s1 => simpa [outcome, hu] using h1
  | ok s1 =>
    have h1' : BuiltInv s1 := by simpa [outcome, hu] using h1
    have h2 := builtInv_outcome_buildCart env cart s1 h1'
    dsimp only
    cases hm : env.settings.method with
    | flip => exact builtInv_frame s1 _ h1' rfl rfl rfl rfl
    | modal => simpa using h2
    | drawer =>
      cases hb : buildCart env cart s1 with
      | error s2 => simpa [outcome, hb] using h2
      | ok s2 =>
        have h2' : BuiltInv s2 := by simpa [outcome, hb] using h2
        simp only [outcome, showDrawer, hm, toggleCallback, sizeDrawer, send]
        repeat' split
        all_goals refine builtInv_of s2 _ h2' rfl rfl ?_ ?_
        all_goals first
          | exact fun x hx => Or.inl hx
          | exact pending_append_ok _ _ rfl

theorem builtInv_outcome_adjustCartCallback (env : Env) (cart : Cart) (s : State)
    (h : BuiltInv s) : BuiltInv (outcome (adjustCartCallback env cart s)) := by
  have h1 := builtInv_outcome_updateCountPrice env cart s h
  unfold adjustCartCallback
  cases hu : updateCountPrice env cart s with
  | error s1 => simpa [outcome, hu] using h1
  | ok s1 =>
    have h1' : BuiltInv s1 := by simpa [outcome, hu] using h1
    simp only [outcome, hideDrawer, toggleCallback]
    repeat' split
    all_goals refine builtInv_of s1 _ h1' rfl rfl ?_ ?_
    all_goals first
      | exact fun x hx => Or.inl hx
      | exact timers_append_ok _ _ rfl

theorem builtInv_erase_pending (s : State) (k : Nat) (h : BuiltInv s) :
    BuiltInv { s with pending := s.pending.eraseIdx k } := by
  rcases h with h | ⟨a, b, c⟩
  · exact Or.inl h
  · exact Or.inr ⟨a, b, fun r hr => c r (List.mem_of_mem_eraseIdx hr)⟩

theorem builtInv_erase_timers (s : State) (k : Nat) (h : BuiltInv s) :
    BuiltInv { s with timers := s.timers.eraseIdx k } := by
  rcases h with h | ⟨a, b, c⟩
  · exact Or.inl h
  · exact Or.inr ⟨a, fun x hx => b x (List.mem_of_mem_eraseIdx hx), c⟩

theorem builtInv_deliver (env : Env) (req : Request) (r : Response) (s : State)
    (h : BuiltInv s) : BuiltInv (deliver env req r s) := by
  unfold deliver
  split
  · exact builtInv_outcome_cartUpdateCallback env _ s h
  · exact builtInv_outcome_buildCart env _ s h
  · exact builtInv_outcome_buildCart env _ s h
  · exact builtInv_outcome_adjustCartCallback env _ s h
  · unfold onError
    repeat' split
    all_goals exact builtInv_frame s _ h rfl rfl rfl rfl
  · simp only [itemAddedCallback, send]
    repeat' split
    all_goals refine builtInv_of s _ h rfl rfl ?_ ?_
    all_goals first
      | exact fun x hx => Or.inl hx
      | exact pending_append_ok _ _ rfl
      | exact timers_append_ok _ _ rfl
  · simp only [itemErrorCallback]
    repeat' split
    all_goals exact builtInv_frame s _ h rfl rfl rfl rfl
  · unfold onError
    repeat' split
    all_goals exact builtInv_frame s _ h rfl rfl rfl rfl
  · simp only [cartLoaded, loadCartImages, sizeDrawer]
    repeat' split
    all_goals exact Or.inl rfl
  · exact h

theorem builtInv_row (s : State) (i : Nat) (r : Row) (h : BuiltInv s)
    (hrow : s.rows.get? i = some r) : s.cartInit = true := by
  rcases h with h | ⟨a, _, _⟩
  · exact h
  · rw [a] at hrow
    simp at hrow

theorem builtInv_step (env : Env) (s : State) (e : Event) (h : BuiltInv s) :
    BuiltInv (step env s e) := by
  cases e with
  | qtyAdjustClick i add =>
    simp only [step, qtyAdjustClick]
    split
    · exact h
    · split
      · exact h
      · rename_i r hrow
        exact Or.inl (by
          have := builtInv_row s i r h hrow
          split <;> exact this)
  | qtyInputChange i text =>
    simp only [step, qtyInputChange]
    split
    · exact h
    · rename_i r hrow
      exact Or.inl (by
        have := builtInv_row s i r h hrow
        repeat' split
        all_goals exact this)
  | removeClick i =>
    simp only [step, removeClick]
    split
    · exact h
    · rename_i r hrow
      have := builtInv_row s i r h hrow
      split
      · exact h
      · exact Or.inl this
  | jsQtyAdjusterClick i add =>
    simp only [step, jsQtyAdjusterClick]
    split
    · exact h
    · exact builtInv_frame s _ h rfl rfl rfl rfl
  | formSubmit =>
    simp only [step, formSubmit, send]
    repeat' split
    all_goals refine builtInv_of s _ h rfl rfl ?_ ?_
    all_goals first
      | exact fun x hx => Or.inl hx
      | exact pending_append_ok _ _ rfl
  | toggleClick =>
    simp only [step, toggleClick, hideModal, showModal, hideDrawer, showDrawer, sizeModal,
      sizeDrawer, toggleCallback, send]
    repeat' split
    all_goals refine builtInv_of s _ h rfl rfl ?_ ?_
    all_goals first
      | exact fun x hx => Or.inl hx
      | exact pending_append_ok _ _ rfl
  | flipCartClick =>
    simp only [step, showDrawer, sizeDrawer, toggleCallback, send]
    repeat' split
    all_goals refine builtInv_of s _ h rfl rfl ?_ ?_
    all_goals first
      | exact fun x hx => Or.inl hx
      | exact pending_append_ok _ _ rfl
  | escapeKey =>
    simp only [step, escapeKey, hideModal, hideDrawer, toggleCallback]
    repeat' split
    all_goals exact builtInv_frame s _ h rfl rfl rfl rfl
  | noteChange note => exact builtInv_send s _ rfl h
  | imagesLoaded =>
    simp only [step, imagesLoaded, sizeModal, sizeDrawer, toggleCallback]
    repeat' split
    all_goals exact builtInv_frame s _ h rfl rfl rfl rfl
  | timerFires k =>
    simp only [step]
    split
    · exact h
    · rename_i t ht
      have hmem : t ∈ s.timers := List.get?_mem ht
      have herase := builtInv_erase_timers s k h
      cases t with
      | changeItem line qty =>
        rcases h with h | ⟨a, b, c⟩
        · exact Or.inl h
        · exact absurd (b _ hmem) (by simp [Timer.isChangeItem])
      | settle =>
        simp only [fireTimer, send]
        refine builtInv_of _ _ herase rfl rfl ?_ ?_
        all_goals first
          | exact fun x hx => Or.inl hx
          | exact pending_append_ok _ _ rfl
      | flip =>
        simp only [fireTimer]
        exact builtInv_frame _ _ herase rfl rfl rfl rfl
  | response k r =>
    simp only [step]
    split
    · exact h
    · exact builtInv_deliver env _ r _ (builtInv_erase_pending s k h)

theorem builtInv_runEvents (env : Env) : ∀ (es : List Event) (s : State),
    BuiltInv s → BuiltInv (runEvents env s es) := by
  intro es
  induction es with
  | nil => intro s h; exact h
  | cons e es ih => intro s h; exact ih (step env s e) (builtInv_step env s e h)

theorem cartInit_of_change_pending (env : Env) (fields : List (List Char)) (es : List Event)
    (k line : Nat) (qty : JSValue)
    (h : (runEvents env (initialState fields) es).pending.get? k
      = some (Request.changeItem line qty)) :
    (runEvents env (initialState fields) es).cartInit = true := by
  have hinv := builtInv_runEvents env es (initialState fields)
    (Or.inr ⟨rfl, by intro t ht; simp [initialState] at ht,
      by intro r hr; simp [initialState] at hr⟩)
  rcases hinv with hinv | ⟨_, _, c⟩
  · exact hinv
  · exact absurd (c _ (List.get?_mem h)) (by simp [Request.isChangeItem])

/-- C6. Empty-cart convergence in drawer or flip mode, from the loaded page: when a change
request is answered with an empty cart (`adjustCartCallback`), whatever events of cart
mutations follow (stepper clicks, field changes, remove clicks, their timers and
responses), the `buildCart` that runs on a re-fetched empty cart leaves the fixed
empty-cart message as the only content of the cart container and the drawer height at 0. -/
theorem empty_cart_convergence (env : Env) (fields : List (List Char)) (es : List Event)
    (k1 line : Nat) (qty : JSValue) (c1 c2 : Cart) (mid : List Event) (k2 : Nat)
    (hmethod : env.settings.method ≠ Method.modal) (hfmt : env.moneyFormatOk = true)
    (hpend : ∀ r ∈ (runEvents env (initialState fields) es).pending, r.isMutationFlow = true)
    (hreq : (runEvents env (initialState fields) es).pending.get? k1
      = some (Request.changeItem line qty))
    (hc1 : c1.item_count = 0)
    (hmid : ∀ e ∈ mid, e.isMutationFlow = true)
    (hreq2 : (runEvents env (step env (runEvents env (initialState fields) es)
        (Event.response k1 (Response.cart c1))) mid).pending.get? k2
      = some (Request.getCart CartCallback.buildCart))
    (hc2 : c2.item_count = 0) :
    (step env (runEvents env (step env (runEvents env (initialState fields) es)
          (Event.response k1 (Response.cart c1))) mid)
        (Event.response k2 (Response.cart c2))).cartContent = [CartNode.emptyMessage] ∧
    (step env (runEvents env (step env (runEvents env (initialState fields) es)
          (Event.response k1 (Response.cart c1))) mid)
        (Event.response k2 (Response.cart c2))).drawerHeight = some 0 := by
  have hinit := cartInit_of_change_pending env fields es k1 line qty hreq
  generalize runEvents env (initialState fields) es = s at hinit hpend hreq hreq2 ⊢
  have h1 : EmptiedInv (step env s (Event.response k1 (Response.cart c1))) := by
    have hs : step env s (Event.response k1 (Response.cart c1))
        = outcome (adjustCartCallback env c1 { s with pending := s.pending.eraseIdx k1 }) := by
      simp only [step, hreq, deliver]
    rw [hs]
    exact adjustCartCallback_empty env c1 _ hmethod hfmt hc1 hinit
      (fun q hq => hpend q (List.mem_of_mem_eraseIdx hq))
  have h2 := emptiedInv_runEvents env mid _ h1 hmid
  generalize runEvents env (step env s (Event.response k1 (Response.cart c1))) mid = t at h2 hreq2 ⊢
  have hs : step env t (Event.response k2 (Response.cart c2))
      = outcome (buildCart env c2 { t with pending := t.pending.eraseIdx k2 }) := by
    simp only [step, hreq2, deliver]
  rw [hs]
  exact buildCart_empty env c2 _ hmethod hc2 h2.1 h2.2.1

/-- Witness for C6 on the sample page: the cart is opened with one line, the line is
decremented to 0, the server answers with the empty cart, the settle timer fires and the
re-fetched cart is empty. -/
theorem empty_cart_convergence_witness :
    (step demoEnv
      (runEvents demoEnv
        (step demoEnv
          (runEvents demoEnv (initialState ["1".data])
            [Event.toggleClick, Event.response 0 (Response.cart demoCartOne),
              Event.qtyAdjustClick 0 false, Event.timerFires 0])
          (Event.response 0 (Response.cart emptyCart)))
        [Event.timerFires 0])
      (Event.response 0 (Response.cart emptyCart))).cartContent = [CartNode.emptyMessage] ∧
    (step demoEnv
      (runEvents demoEnv
        (step demoEnv
          (runEvents demoEnv (initialState ["1".data])
            [Event.toggleClick, Event.response 0 (Response.cart demoCartOne),
              Event.qtyAdjustClick 0 false, Event.timerFires 0])
          (Event.response 0 (Response.cart emptyCart)))
        [Event.timerFires 0])
      (Event.response 0 (Response.cart emptyCart))).drawerHeight = some 0 :=
  empty_cart_convergence demoEnv ["1".data]
    [Event.toggleClick, Event.response 0 (Response.cart demoCartOne),
      Event.qtyAdjustClick 0 false, Event.timerFires 0]
    0 1 (jsInt 0) emptyCart emptyCart [Event.timerFires 0] 0
    (by decide) (by decide) (by decide) (by decide) (by decide) (by decide)
    (by decide) (by decide)

/-! ## The error path, the remove link and the typed zero -/

theorem changeItem_error_keeps_busy (env : Env) (s : State) (k line : Nat) (qty : JSValue)
    (xhr : Option ErrorData) (hbusy : s.isUpdating = true)
    (hreq : s.pending.get? k = some (Request.changeItem line qty)) :
    (step env s (Event.response k (Response.error xhr))).isUpdating = true ∧
    (step env s (Event.response k (Response.error xhr))).timers = s.timers ∧
    (step env s (Event.response k (Response.error xhr))).pending = s.pending.eraseIdx k := by
  simp only [step, hreq, deliver, onError]
  repeat' split
  all_goals exact ⟨hbusy, rfl, rfl⟩

/-- C7, evaluated on the sample page: after a stepper click, the pre-request timer and an
error response to the change request, the busy flag is still true while no timer and no
request is left that could clear it, the error has only raised an alert, and a further
stepper click changes nothing. -/
theorem changeItem_error_never_returns_to_idle :
    demoAfterError.isUpdating = true ∧ demoAfterError.timers = [] ∧
    demoAfterError.pending = [] ∧
    demoAfterError.alerts
      = [Alert.message "Cart Error(422): All 1 Shirt are in your cart.".data] ∧
    step demoEnv demoAfterError (Event.qtyAdjustClick 0 true) = demoAfterError ∧
    step demoEnv demoAfterError (Event.qtyAdjustClick 0 false) = demoAfterError := by
  decide

theorem removeClick_ignores_busy (env : Env) (s : State) (i : Nat) (r : Row) (line : Nat)
    (hrow : s.rows.get? i = some r) (hline : truthyLine r.line = some line) :
    step env s (Event.removeClick i) = updateQuantity env line (jsInt 0) s := by
  rw [List.get?_eq_getElem?] at hrow
  simp [step, removeClick, hrow, hline]

/-- C8, evaluated on the sample page: a click on the remove link while the synchronizer is
busy queues a second change request, and once both pre-request timers have fired two
`Shopify.changeItem` requests are in flight at the same time. -/
theorem remove_click_while_busy_sends_second_request :
    demoBusy.isUpdating = true ∧ changeItemTimers demoBusy = 1 ∧
    changeItemTimers (step demoEnv demoBusy (Event.removeClick 0)) = 2 ∧
    (runEvents demoEnv demoBusy
        [Event.removeClick 0, Event.timerFires 0, Event.timerFires 0]).pending
      = [Request.changeItem 1 (jsInt 3), Request.changeItem 1 (jsInt 0)] := by
  decide

/-- C9, evaluated on the sample page: committing the text `0` in the quantity field of
line 1 marks the row as loading but not as removed, and the delayed request carries the
string `"0"`; a decrement from 1 and a click on the remove link, which pass the Number 0,
do mark the row as removed. -/
theorem typed_zero_skips_removed_state :
    (step demoEnv demoOpen (Event.qtyInputChange 0 "0".data)).rows
      = [{ kind := RowKind.ajaxifyRow, line := some 1, value := "0".data, isLoading := true,
           isRemoved := false }] ∧
    (step demoEnv demoOpen (Event.qtyInputChange 0 "0".data)).timers
      = [Timer.changeItem 1 (JSValue.str "0".data)] ∧
    (runEvents demoEnv demoOpen [Event.qtyInputChange 0 "0".data, Event.timerFires 0]).pending
      = [Request.changeItem 1 (JSValue.str "0".data)] ∧
    (step demoEnv demoOpenOne (Event.qtyAdjustClick 0 false)).rows
      = [{ kind := RowKind.ajaxifyRow, line := some 1, value := "1".data, isLoading := true,
           isRemoved := true }] ∧
    (step demoEnv demoOpen (Event.removeClick 0)).rows
      = [{ kind := RowKind.ajaxifyRow, line := some 1, value := "2".data, isLoading := true,
           isRemoved := true }] := by
  decide

/-! ## The cart view after an add -/

theorem buildItem_isSome (env : Env) (h : env.moneyFormatOk = true) (index : Nat)
    (item : CartItem) :
    ∃ v, buildItem env.shopFormat env.settings.moneyFormat index item = some v ∧
      v.line = index + 1 ∧ v.itemAdd = item.quantity + 1 ∧ v.itemMinus = item.quantity - 1 ∧
      v.key = item.key ∧ v.url = item.url := by
  obtain ⟨t, ht⟩ := formatMoney_isSome env h (jsInt item.price)
  unfold buildItem
  rw [ht]
  exact ⟨_, rfl, rfl, rfl, rfl, rfl, rfl⟩

theorem buildItems_isSome (env : Env) (h : env.moneyFormatOk = true) :
    ∀ (items : List CartItem) (index : Nat),
      ∃ vs, buildItems env.shopFormat env.settings.moneyFormat index items = some vs ∧
        vs.length = items.length := by
  intro items
  induction items with
  | nil => intro index; exact ⟨[], rfl, rfl⟩
  | cons item rest ih =>
    intro index
    obtain ⟨v, hv, _⟩ := buildItem_isSome env h index item
    obtain ⟨vs, hvs, hlen⟩ := ih (index + 1)
    refine ⟨v :: vs, ?_, by simp [hlen]⟩
    simp [buildItems, hv, hvs]

theorem buildCart_client (env : Env) (cart : Cart) (s : State) (vs : List ItemView)
    (total : List Char) (ht : env.settings.useCartTemplate = false) (hc : 0 < cart.item_count)
    (hvs : buildItems env.shopFormat env.settings.moneyFormat 0 cart.items = some vs)
    (htotal : formatMoney env.shopFormat (jsInt cart.total_price) env.settings.moneyFormat
      = some total) :
    buildCart env cart s = Except.ok { s with
      cartContent := [CartNode.template
        { items := vs, totalPrice := total, btnClass := env.settings.btnClass }]
      rows := env.renderRows
        { items := vs, totalPrice := total, btnClass := env.settings.btnClass }
      awaitingImages := true
      cartInit := true } := by
  have hc0 : cart.item_count ≠ 0 := by omega
  have hb : (cart.item_count == 0) = false := by simpa using hc0
  unfold buildCart
  simp only [ht, hb, hvs, htotal, hc, loadCartImages]
  cases env.settings.method <;> simp

/-- C10. In drawer mode with the client template, after a successful add the cart fetch
answered with `item_count > 0` makes `cartUpdateCallback` replace the cart view by the
template output for the rows that `buildCart` computes, and the drawer is visible
afterwards whether or not it was before; a cart whose only line has quantity 2 gives
exactly one row, with line 1, add target 3 and subtract target 1. -/
theorem add_then_fetch_renders_and_opens (env : Env) (s : State) (k : Nat) (cart : Cart)
    (hm : env.settings.method = Method.drawer) (ht : env.settings.useCartTemplate = false)
    (hfmt : env.moneyFormatOk = true)
    (hreq : s.pending.get? k = some Request.addItemFromForm)
    (hc : 0 < cart.item_count) :
    ∃ data : TemplateData,
      buildItems env.shopFormat env.settings.moneyFormat 0 cart.items = some data.items ∧
      (addThenFetch env s k cart).cartContent = [CartNode.template data] ∧
      (addThenFetch env s k cart).rows = env.renderRows data ∧
      (addThenFetch env s k cart).drawerVisible = true ∧
      (addThenFetch env s k cart).cartInit = true ∧
      data.items.length = cart.items.length ∧
      ∀ item : CartItem, cart.items = [item] → item.quantity = 2 →
        ∃ v : ItemView, data.items = [v] ∧ v.line = 1 ∧ v.itemAdd = 3 ∧ v.itemMinus = 1 := by
  obtain ⟨vs, hvs, hlen⟩ := buildItems_isSome env hfmt cart.items 0
  obtain ⟨total, htotal⟩ := formatMoney_isSome env hfmt (jsInt cart.total_price)
  have hc0 : cart.item_count ≠ 0 := by omega
  have hget : ∀ (l : List Request) (r : Request), (l ++ [r]).get? l.length = some r := by
    intro l r
    simp
  have herase : ∀ (l : List Request) (r : Request), (l ++ [r]).eraseIdx l.length = l := by
    intro l r
    induction l with
    | nil => rfl
    | cons a l ih => simp [List.eraseIdx, ih]
  refine ⟨{ items := vs, totalPrice := total, btnClass := env.settings.btnClass }, hvs, ?_⟩
  have hs : addThenFetch env s k cart
      = outcome (cartUpdateCallback env cart
          { s with
            isAdding := false, isAdded := true
            pending := s.pending.eraseIdx k
            calls := s.calls ++ [Request.getCart CartCallback.cartUpdateCallback] }) := by
    unfold addThenFetch
    simp only [step, hreq, deliver, itemAddedCallback, hm, send, hget, herase]
  rw [hs]
  unfold cartUpdateCallback updateCountPrice
  simp only [htotal, hm, buildCart_client env cart _ vs total ht hc hvs htotal]
  refine ⟨?_, ?_, ?_, ?_, hlen, ?_⟩
  · simp only [outcome]
    split
    · simp [showDrawer, hm, toggleCallback]; split <;> rfl
    · rfl
  · simp only [outcome]
    split
    · simp [showDrawer, hm, toggleCallback]; split <;> rfl
    · rfl
  · simp only [outcome]
    split
    · simp [showDrawer, hm, toggleCallback]; split <;> rfl
    · simp_all
  · simp only [outcome]
    split
    · simp [showDrawer, hm, toggleCallback]; split <;> rfl
    · rfl
  · intro item hitem hq
    obtain ⟨v, hv, hline, hadd, hminus, _⟩ := buildItem_isSome env hfmt 0 item
    rw [hitem] at hvs
    simp [buildItems, hv] at hvs
    subst hvs
    refine ⟨v, rfl, by simpa using hline, ?_, ?_⟩
    · rw [hadd, hq]; rfl
    · rw [hminus, hq]; rfl

/-- Witness for C10 on the sample page: the add-to-cart form is submitted and the cart
comes back with the one sample line of quantity 2. -/
theorem add_then_fetch_renders_and_opens_witness :
    ∃ data : TemplateData,
      buildItems demoEnv.shopFormat demoEnv.settings.moneyFormat 0 demoCart.items
        = some data.items ∧
      (addThenFetch demoEnv demoSubmitted 0 demoCart).cartContent = [CartNode.template data] ∧
      (addThenFetch demoEnv demoSubmitted 0 demoCart).rows = demoEnv.renderRows data ∧
      (addThenFetch demoEnv demoSubmitted 0 demoCart).drawerVisible = true ∧
      (addThenFetch demoEnv demoSubmitted 0 demoCart).cartInit = true ∧
      data.items.length = demoCart.items.length ∧
      ∀ item : CartItem, demoCart.items = [item] → item.quantity = 2 →
        ∃ v : ItemView, data.items = [v] ∧ v.line = 1 ∧ v.itemAdd = 3 ∧ v.itemMinus = 1 :=
  add_then_fetch_renders_and_opens demoEnv demoSubmitted 0 demoCart (by decide) (by decide)
    (by decide) (by decide) (by decide)

/-! ## The minimum of the standalone stepper -/

theorem qtyMin_outcome_updateCountPrice (env : Env) (cart : Cart) (s : State) :
    (outcome (updateCountPrice env cart s)).qtyMin = s.qtyMin := by
  unfold updateCountPrice
  dsimp only
  split <;> rfl

theorem qtyMin_outcome_buildCart (env : Env) (cart : Cart) (s : State) :
    (outcome (buildCart env cart s)).qtyMin = s.qtyMin := by
  unfold buildCart
  dsimp only
  repeat' split
  all_goals simp only [outcome, sizeModal, sizeDrawer, toggleCallback, send, cartTemplate,
    loadCartImages]
  all_goals (repeat' split)
  all_goals rfl

theorem qtyMin_outcome_cartUpdateCallback (env : Env) (cart : Cart) (s : State) :
    (outcome (cartUpdateCallback env cart s)).qtyMin = s.qtyMin := by
  have h1 := qtyMin_outcome_updateCountPrice env cart s
  unfold cartUpdateCallback
  cases hu : updateCountPrice env cart s with
  | error s1 => simpa [outcome, hu] using h1
  | ok s1 =>
    have h1' : s1.qtyMin = s.qtyMin := by simpa [outcome, hu] using h1
    have h2 := qtyMin_outcome_buildCart env cart s1
    dsimp only
    cases hm : env.settings.method with
    | flip => simpa [outcome] using h1'
    | modal => simpa [h1'] using h2
    | drawer =>
      cases hb : buildCart env cart s1 with
      | error s2 => simpa [outcome, hb, h1'] using h2
      | ok s2 =>
        have h2' : s2.qtyMin = s.qtyMin := by simpa [outcome, hb, h1'] using h2
        simp only [outcome, showDrawer, toggleCallback, send, sizeDrawer]
        repeat' split
        all_goals exact h2'

theorem qtyMin_outcome_adjustCartCallback (env : Env) (cart : Cart) (s : State) :
    (outcome (adjustCartCallback env cart s)).qtyMin = s.qtyMin := by
  have h1 := qtyMin_outcome_updateCountPrice env cart s
  unfold adjustCartCallback
  cases hu : updateCountPrice env cart s with
  | error s1 => simpa [outcome, hu] using h1
  | ok s1 =>
    have h1' : s1.qtyMin = s.qtyMin := by simpa [outcome, hu] using h1
    simp only [outcome, hideDrawer, toggleCallback]
    repeat' split
    all_goals exact h1'

theorem qtyMin_deliver (env : Env) (req : Request) (r : Response) (s : State) :
    (deliver env req r s).qtyMin = s.qtyMin := by
  unfold deliver
  split
  · exact qtyMin_outcome_cartUpdateCallback env _ s
  · exact qtyMin_outcome_buildCart env _ s
  · exact qtyMin_outcome_buildCart env _ s
  · exact qtyMin_outcome_adjustCartCallback env _ s
  · unfold onError
    repeat' split
    all_goals rfl
  · simp only [itemAddedCallback, send]
    repeat' split
    all_goals rfl
  · simp only [itemErrorCallback]
    repeat' split
    all_goals rfl
  · unfold onError
    repeat' split
    all_goals rfl
  · simp only [cartLoaded, loadCartImages, sizeDrawer]
    repeat' split
    all_goals rfl
  · rfl

theorem qtyMin_step (env : Env) (s : State) (e : Event)
    (h : env.templateProduct = false → s.qtyMin = 0) :
    env.templateProduct = false → (step env s e).qtyMin = 0 := by
  intro ht
  have h0 := h ht
  cases e with
  | qtyAdjustClick i add =>
    simp only [step, qtyAdjustClick, updateQuantity]
    repeat' split
    all_goals exact h0
  | qtyInputChange i text =>
    simp only [step, qtyInputChange, updateQuantity]
    repeat' split
    all_goals exact h0
  | removeClick i =>
    simp only [step, removeClick, updateQuantity]
    repeat' split
    all_goals exact h0
  | jsQtyAdjusterClick i add =>
    simp only [step, jsQtyAdjusterClick]
    split
    · exact h0
    · simp [ht, h0]
  | formSubmit =>
    simp only [step, formSubmit, send]
    repeat' split
    all_goals exact h0
  | toggleClick =>
    simp only [step, toggleClick, hideModal, showModal, hideDrawer, showDrawer, sizeModal,
      sizeDrawer, toggleCallback, send]
    repeat' split
    all_goals exact h0
  | flipCartClick =>
    simp only [step, showDrawer, sizeDrawer, toggleCallback, send]
    repeat' split
    all_goals exact h0
  | escapeKey =>
    simp only [step, escapeKey, hideModal, hideDrawer, toggleCallback]
    repeat' split
    all_goals exact h0
  | noteChange note => exact h0
  | imagesLoaded =>
    simp only [step, imagesLoaded, sizeModal, sizeDrawer, toggleCallback]
    repeat' split
    all_goals exact h0
  | timerFires k =>
    simp only [step, fireTimer, send]
    repeat' split
    all_goals exact h0
  | response k r =>
    simp only [step]
    split
    · exact h0
    · rw [qtyMin_deliver]
      exact h0

theorem qtyMin_runEvents (env : Env) : ∀ (es : List Event) (s : State),
    (env.templateProduct = false → s.qtyMin = 0) →
      env.templateProduct = false → (runEvents env s es).qtyMin = 0 := by
  intro es
  induction es with
  | nil => intro s h; exact h
  | cons e es ih => intro s h; exact ih (step env s e) (qtyMin_step env s e h)

/-- C3 (amended). For a field that reads as the integer `q` with `|q| < 2 ^ 53`, a
decrement click computes `max (q - 1) m`.  In the click handler of a cart stepper `m = 0`:
the handler passes that quantity to `updateQuantity` when the control has a line and writes
it to the field otherwise.  In the click handler of the standalone stepper, on every page
reached from `init`, `m = 1` when the body has the class `template-product` and `m = 0`
otherwise.  The result is never below `m`. -/
theorem decrement_clamps_to_minimum (env : Env) (text : List Char) (q : Int)
    (hq : parseIntChars text = JSNum.ofInt q) (hb : q.natAbs < 2 ^ 53) :
    cartStepperQty text false = jsInt (max (q - 1) 0) ∧
    (∀ (s : State) (j : Nat) (r : Row), s.isUpdating = false → s.rows.get? j = some r →
      r.value = text →
      step env s (Event.qtyAdjustClick j false)
        = match truthyLine r.line with
          | some line => updateQuantity env line (jsInt (max (q - 1) 0)) s
          | none =>
            { s with rows := s.rows.set j ({ r with value := (jsInt (max (q - 1) 0)).toStr }) }) ∧
    (∀ (fields : List (List Char)) (es : List Event) (i : Nat),
      (runEvents env (initialState fields) es).jsFields.get? i = some text →
      (step env (runEvents env (initialState fields) es)
          (Event.jsQtyAdjusterClick i false)).jsFields.get? i
        = some (jsInt (max (q - 1) (if env.templateProduct then 1 else 0))).toStr) ∧
    (0 : Int) ≤ max (q - 1) 0 ∧
    (if env.templateProduct then (1 : Int) else 0)
      ≤ max (q - 1) (if env.templateProduct then 1 else 0) := by
  refine ⟨cartStepperQty_decrement text q hq hb, ?_, ?_, le_max_right _ _, le_max_right _ _⟩
  · intro s j r hidle hrow hval
    rw [List.get?_eq_getElem?] at hrow
    simp only [step, qtyAdjustClick, hidle, List.get?_eq_getElem?, hrow, hval,
      cartStepperQty_decrement text q hq hb]
    simp
  · intro fields es i hfield
    have hmin := qtyMin_runEvents env es (initialState fields) (fun _ => rfl)
    generalize runEvents env (initialState fields) es = s at hfield hmin
    have hlt : i < s.jsFields.length := by
      rw [List.get?_eq_getElem?] at hfield
      exact (List.getElem?_eq_some_iff.mp hfield).1
    have hm : (if env.templateProduct = true then 1 else s.qtyMin)
        = (if env.templateProduct = true then (1 : Int) else 0) := by
      cases ht : env.templateProduct with
      | true => rfl
      | false => simpa using hmin ht
    simp only [step, jsQtyAdjusterClick, hfield, hm]
    rw [standaloneStepperQty_decrement text q _ hq hb]
    simp [hlt]

/-- Witness for C3: a field that holds `1` on the sample product page. -/
theorem decrement_clamps_to_minimum_witness :
    parseIntChars "1".data = JSNum.ofInt 1 ∧
    cartStepperQty "1".data false = jsInt (max (1 - 1) 0) ∧
    (step demoEnv (runEvents demoEnv (initialState ["1".data]) [])
        (Event.jsQtyAdjusterClick 0 false)).jsFields.get? 0
      = some (jsInt (max (1 - 1) (if demoEnv.templateProduct then 1 else 0))).toStr :=
  ⟨by decide,
    (decrement_clamps_to_minimum demoEnv "1".data 1 (by decide) (by decide)).1,
    (decrement_clamps_to_minimum demoEnv "1".data 1 (by decide) (by decide)).2.2.1
      ["1".data] [] 0 (by decide)⟩

/-- Counterexample to C3 as stated: a cart field that holds the integer `10 ^ 21`.
`parseInt` reads it, `validateQty` turns it into 1 because the number prints as `1e+21`,
and the decrement click computes 0 instead of `10 ^ 21 - 1`. -/
theorem decrement_counterexample :
    parseIntChars "1000000000000000000000".data = JSNum.ofInt (10 ^ 21) ∧
    cartStepperQty "1000000000000000000000".data false = jsInt 0 ∧
    jsInt 0 ≠ jsInt (max (10 ^ 21 - 1) 0) := by
  decide

/-! ## Lemmas about the money format -/

theorem digitChar_congr (a b : Nat) (h : a % 10 = b % 10) : digitChar a = digitChar b := by
  unfold digitChar
  rw [h]

theorem natDigits_thousand (n : Nat) (h : 1000 ≤ n) :
    natDigits n = natDigits (n / 1000) ++ threeDigits n := by
  have h1 : digitChar (n / 10 / 10 % 10) = digitChar (n / 100) :=
    digitChar_congr _ _ (by omega)
  have h2 : digitChar (n / 10 % 10) = digitChar (n / 10) := digitChar_congr _ _ (by omega)
  have h3 : digitChar (n % 10) = digitChar n := digitChar_congr _ _ (by omega)
  have e1 : n / 10 / 10 / 10 = n / 1000 := by omega
  rw [natDigits_step n (by omega), natDigits_step (n / 10) (by omega),
    natDigits_step (n / 10 / 10) (by omega), h1, h2, h3, e1]
  simp [threeDigits]

theorem natDigits_hundred (n : Nat) (h : 100 ≤ n) :
    natDigits n = natDigits (n / 100) ++ twoDigits n := by
  have h2 : digitChar (n / 10 % 10) = digitChar (n / 10) := digitChar_congr _ _ (by omega)
  have h3 : digitChar (n % 10) = digitChar n := digitChar_congr _ _ (by omega)
  have e1 : n / 10 / 10 = n / 100 := by omega
  rw [natDigits_step n (by omega), natDigits_step (n / 10) (by omega), h2, h3, e1]
  simp [twoDigits]

theorem tripletsThenNoDigit_digits : ∀ (n : Nat) (l : List Char), l.length = n →
    (∀ c ∈ l, isDigit c = true) →
    tripletsThenNoDigit l = (decide (l.length ≠ 0) && decide (l.length % 3 = 0)) := by
  intro n
  induction n using Nat.strong_induction_on with
  | _ n ih =>
    intro l hlen hall
    match l, hlen, hall with
    | [], _, _ => rfl
    | [a], _, _ => rfl
    | [a, b], _, _ => rfl
    | a :: b :: c :: rest, hlen, hall =>
      have ha := hall a (by simp)
      have hb := hall b (by simp)
      have hc := hall c (by simp)
      have hrest : ∀ x ∈ rest, isDigit x = true := fun x hx => hall x (by simp [hx])
      have := ih rest.length (by simp at hlen; omega) rest rfl hrest
      unfold tripletsThenNoDigit
      rw [this, ha, hb, hc]
      cases rest with
      | nil => simp
      | cons d rest' =>
        have hd := hall d (by simp)
        simp [hd]
        omega

theorem groupThousands_short (sep : List Char) (l : List Char) (h : l.length ≤ 3) :
    groupThousands sep l = l := by
  match l, h with
  | [], _ => rfl
  | [a], _ => simp [groupThousands, tripletsThenNoDigit]
  | [a, b], _ => simp [groupThousands, tripletsThenNoDigit]
  | [a, b, c], _ => simp [groupThousands, tripletsThenNoDigit]
  | a :: b :: c :: d :: rest, h => simp at h

theorem groupThousands_cons (sep : List Char) (c : Char) (rest : List Char) :
    groupThousands sep (c :: rest) =
      if isDigit c && tripletsThenNoDigit rest then c :: (sep ++ groupThousands sep rest)
      else c :: groupThousands sep rest := by
  rw [groupThousands]

theorem groupThousands_append_three (sep : List Char) (ys : List Char) (hy : ys.length = 3)
    (hys : ∀ c ∈ ys, isDigit c = true) :
    ∀ xs : List Char, xs ≠ [] → (∀ c ∈ xs, isDigit c = true) →
      groupThousands sep (xs ++ ys) = groupThousands sep xs ++ sep ++ ys := by
  intro xs
  induction xs with
  | nil => intro h; exact absurd rfl h
  | cons x xs ih =>
    intro _ hall
    have hx := hall x (by simp)
    have hxs : ∀ c ∈ xs, isDigit c = true := fun c hc => hall c (by simp [hc])
    have hcat : ∀ c ∈ xs ++ ys, isDigit c = true := by
      intro c hc
      rcases List.mem_append.mp hc with h | h
      · exact hxs c h
      · exact hys c h
    have t1 := tripletsThenNoDigit_digits _ (xs ++ ys) rfl hcat
    have t2 := tripletsThenNoDigit_digits _ xs rfl hxs
    rw [List.cons_append, groupThousands_cons, groupThousands_cons sep x xs, t1, t2, hx]
    cases xs with
    | nil =>
      rw [List.nil_append, groupThousands_short sep ys (by omega)]
      simp [hy, groupThousands]
    | cons x' xs' =>
      rw [ih (by simp) hxs]
      have e : (decide ((x' :: xs' ++ ys).length ≠ 0) && decide ((x' :: xs' ++ ys).length % 3 = 0))
          = (decide ((x' :: xs').length ≠ 0) && decide ((x' :: xs').length % 3 = 0)) := by
        simp [hy]
        omega
      rw [e]
      split <;> simp

theorem groupedAux_eq (sep : List Char) : ∀ (fuel n : Nat), n ≤ fuel →
    groupedAux sep fuel n = groupThousands sep (natDigits n) := by
  intro fuel
  induction fuel with
  | zero =>
    intro n h
    have : n = 0 := by omega
    subst this
    rfl
  | succ fuel ih =>
    intro n h
    unfold groupedAux
    by_cases h3 : n < 1000
    · rw [if_pos h3, groupThousands_short]
      exact natDigits_length_le 2 n (by simpa using h3)
    · rw [if_neg h3, ih (n / 1000) (by omega), natDigits_thousand n (by omega),
        groupThousands_append_three sep (threeDigits n) rfl
          (by intro c hc; simp [threeDigits] at hc; rcases hc with h | h | h <;> subst h <;>
            exact isDigit_digitChar _)
          (natDigits (n / 1000)) (natDigits_ne_nil _) (natDigits_all_digits _)]

theorem groupThousands_natDigits (sep : List Char) (n : Nat) :
    groupThousands sep (natDigits n) = grouped sep n :=
  (groupedAux_eq sep n n (le_refl n)).symm

theorem toFixed_two (c : Nat) (h : c < 10 ^ 23) :
    (JSNum.fin (c : Int) 2).toFixed 2 = natDigits (c / 100) ++ '.' :: twoDigits c := by
  have hn : (c * 10 ^ 2 * 2 + 10 ^ 2) / (2 * 10 ^ 2) = c := by omega
  have hcut : ¬ (10 ^ 21 * 10 ^ 2 ≤ c) := by
    have : (10 : Nat) ^ 21 * 10 ^ 2 = 10 ^ 23 := by norm_num
    omega
  unfold JSNum.toFixed
  simp only [Int.natAbs_ofNat, hcut, if_false, hn]
  have hneg : ¬ ((c : Int) < 0) := by omega
  simp only [hneg, if_false]
  by_cases h10 : c < 10
  · have e1 : c / 100 = 0 := by omega
    have e2 : digitChar (c / 10) = '0' := by
      have : c / 10 = 0 := by omega
      rw [this]; rfl
    rw [natDigits_lt_ten c h10, e1, natDigits_lt_ten 0 (by decide)]
    simp [twoDigits, e2]
    rfl
  · by_cases h100 : c < 100
    · have e1 : c / 100 = 0 := by omega
      have e2 : digitChar (c % 10) = digitChar c := digitChar_congr _ _ (by omega)
      rw [natDigits_step c (by omega), natDigits_lt_ten (c / 10) (by omega), e1,
        natDigits_lt_ten 0 (by decide), e2]
      simp [twoDigits]
      rfl
    · rw [natDigits_hundred c (by omega)]
      have hl : 1 ≤ (natDigits (c / 100)).length :=
        List.length_pos.mpr (natDigits_ne_nil _)
      have e3 : (natDigits (c / 100) ++ twoDigits c).length = (natDigits (c / 100)).length + 2 := by
        simp [twoDigits]
      simp only [e3]
      have e4 : 2 + 1 - ((natDigits (c / 100)).length + 2) = 0 := by omega
      simp [e4, twoDigits]

theorem toFixed_zero (c : Nat) (h : c < 10 ^ 23) :
    (JSNum.fin (c : Int) 2).toFixed 0 = natDigits ((c + 50) / 100) := by
  have hn : (c * 10 ^ 0 * 2 + 10 ^ 2) / (2 * 10 ^ 2) = (c + 50) / 100 := by omega
  have hcut : ¬ (10 ^ 21 * 10 ^ 2 ≤ c) := by
    have : (10 : Nat) ^ 21 * 10 ^ 2 = 10 ^ 23 := by norm_num
    omega
  unfold JSNum.toFixed
  simp only [Int.natAbs_ofNat, hcut, if_false, hn]
  have hneg : ¬ ((c : Int) < 0) := by omega
  simp [hneg]

theorem isDigit_ne_dot (c : Char) (h : isDigit c = true) : (c != '.') = true := by
  have := isDigit_ne c '.' h (by decide)
  simpa using this

theorem splitDot_digits (a b : List Char) (ha : ∀ c ∈ a, isDigit c = true)
    (hb : ∀ c ∈ b, isDigit c = true) :
    splitDot (a ++ '.' :: b) = (a, some b) := by
  have h1 : ∀ c ∈ a, (fun c => c != '.') c = true := fun c hc => isDigit_ne_dot c (ha c hc)
  have h2 : ∀ c ∈ b, (fun c => c != '.') c = true := fun c hc => isDigit_ne_dot c (hb c hc)
  unfold splitDot
  rw [List.takeWhile_append_of_pos h1, List.dropWhile_append_of_pos h1]
  simp [List.takeWhile, List.dropWhile, takeWhile_all _ b h2]

theorem splitDot_no_dot (a : List Char) (ha : ∀ c ∈ a, isDigit c = true) :
    splitDot a = (a, none) := by
  have h1 : ∀ c ∈ a, (fun c => c != '.') c = true := fun c hc => isDigit_ne_dot c (ha c hc)
  unfold splitDot
  rw [takeWhile_all _ a h1, dropWhile_all _ a h1]

theorem formatWithDelimiters_two (sep dec : List Char) (c : Nat) (h : c < 10 ^ 23) :
    formatWithDelimiters (jsInt c) 2 sep dec = JSValue.str (amountWithDecimals sep dec c) := by
  have hd : ∀ x ∈ twoDigits c, isDigit x = true := by
    intro x hx
    simp [twoDigits] at hx
    rcases hx with h | h <;> subst h <;> exact isDigit_digitChar _
  unfold formatWithDelimiters
  simp only [isNaN, jsInt, JSValue.toNumber, JSNum.ofInt, JSNum.isNaN, JSNum.div100]
  rw [toFixed_two c h, splitDot_digits _ _ (natDigits_all_digits _) hd,
    groupThousands_natDigits]
  simp [amountWithDecimals, twoDigits]

theorem formatWithDelimiters_zero (sep dec : List Char) (c : Nat) (h : c < 10 ^ 23) :
    formatWithDelimiters (jsInt c) 0 sep dec = JSValue.str (amountNoDecimals sep c) := by
  unfold formatWithDelimiters
  simp only [isNaN, jsInt, JSValue.toNumber, JSNum.ofInt, JSNum.isNaN, JSNum.div100]
  rw [toFixed_zero c h, splitDot_no_dot _ (natDigits_all_digits _), groupThousands_natDigits]
  simp [amountNoDecimals]

theorem isWordChar_not_ws (c : Char) (h : isWordChar c = true) : isJsWhiteSpace c = false := by
  simp [isWordChar, isDigit] at h
  simp [isJsWhiteSpace]
  omega

theorem dropWhile_append_stop {α : Type} (p : α → Bool) (a : α) (rest : List α)
    (ha : p a = false) : ∀ l : List α,
      (l ++ a :: rest).dropWhile p = l.dropWhile p ++ a :: rest := by
  intro l
  induction l with
  | nil => simp [List.dropWhile, ha]
  | cons b l ih =>
    by_cases hb : p b = true
    · simp [List.dropWhile, hb, ih]
    · simp [List.dropWhile, hb]

theorem takeWhile_append_stop {α : Type} (p : α → Bool) (a : α) (rest : List α)
    (ha : p a = false) : ∀ l : List α, (l ++ a :: rest).takeWhile p = l.takeWhile p := by
  intro l
  induction l with
  | nil => simp [List.takeWhile, ha]
  | cons b l ih =>
    by_cases hb : p b = true
    · simp [List.takeWhile, hb, ih]
    · simp [List.takeWhile, hb]

theorem matchPlaceholderHere_exact (name post : List Char) (hne : name ≠ [])
    (hw : ∀ c ∈ name, isWordChar c = true) :
    matchPlaceholderHere ('{' :: '{' :: (name ++ '}' :: '}' :: post)) = some (name, post) := by
  have h1 : (name ++ '}' :: '}' :: post).dropWhile isJsWhiteSpace = name ++ '}' :: '}' :: post := by
    cases name with
    | nil => exact absurd rfl hne
    | cons c t =>
      have := isWordChar_not_ws c (hw c (by simp))
      simp [List.dropWhile, this]
  have h2 : (name ++ '}' :: '}' :: post).takeWhile isWordChar = name := by
    rw [takeWhile_append_stop isWordChar '}' _ (by decide), takeWhile_all _ _ hw]
  have h3 : (name ++ '}' :: '}' :: post).dropWhile isWordChar = '}' :: '}' :: post := by
    rw [dropWhile_append_stop isWordChar '}' _ (by decide), dropWhile_all _ _ hw]
    rfl
  have h4 : ('}' :: '}' :: post).dropWhile isJsWhiteSpace = '}' :: '}' :: post := by
    have : isJsWhiteSpace '}' = false := by decide
    simp [List.dropWhile, this]
  have h5 : name.isEmpty = false := by
    cases name with
    | nil => exact absurd rfl hne
    | cons c t => rfl
  unfold matchPlaceholderHere
  simp only [List.take, List.drop, if_true, h1, h2, h3, h4, h5]
  simp

theorem matchPlaceholderHere_append (rest : List Char) : ∀ t : List Char, t ≠ [] →
    matchPlaceholderHere t = none → matchPlaceholderHere (t ++ '{' :: '{' :: rest) = none := by
  intro t hne hnone
  have hws : isJsWhiteSpace '{' = false := by decide
  have hwc : isWordChar '{' = false := by decide
  match t, hne, hnone with
  | [c], _, _ =>
    unfold matchPlaceholderHere
    by_cases hc : c = '{'
    · subst hc
      simp [List.dropWhile, List.takeWhile, hws, hwc]
    · simp [hc]
  | c :: d :: r, _, hnone =>
    unfold matchPlaceholderHere at hnone ⊢
    by_cases hcd : (c :: d :: r).take 2 = ['{', '{']
    · have hcd' : (c :: d :: r ++ '{' :: '{' :: rest).take 2 = ['{', '{'] := by
        simpa using hcd
      rw [if_pos hcd] at hnone
      rw [if_pos hcd']
      simp only [List.cons_append, List.drop_succ_cons, List.drop_zero] at hnone ⊢
      rw [dropWhile_append_stop isJsWhiteSpace '{' _ hws,
        takeWhile_append_stop isWordChar '{' _ hwc,
        dropWhile_append_stop isWordChar '{' _ hwc,
        dropWhile_append_stop isJsWhiteSpace '{' _ hws]
      generalize (List.dropWhile isJsWhiteSpace r).takeWhile isWordChar = name at hnone ⊢
      generalize ((List.dropWhile isJsWhiteSpace r).dropWhile isWordChar).dropWhile
        isJsWhiteSpace = b at hnone ⊢
      by_cases hn : name.isEmpty = true
      · simp [hn]
      · simp only [hn, if_false] at hnone ⊢
        match b, hnone with
        | [], _ => simp
        | [x], _ => simp
        | x :: y :: b', hnone =>
          simp only [List.cons_append, List.take_succ_cons, List.take_zero] at hnone ⊢
          by_cases hxy : [x, y] = ['}', '}']
          · simp [hxy] at hnone
          · simp [hxy]
    · have hcd' : ¬ (c :: d :: r ++ '{' :: '{' :: rest).take 2 = ['{', '{'] := by
        simpa using hcd
      rw [if_neg hcd']

theorem findPlaceholder_append (name post : List Char) (hne : name ≠ [])
    (hw : ∀ c ∈ name, isWordChar c = true) : ∀ pre : List Char, findPlaceholder pre = none →
      findPlaceholder (pre ++ '{' :: '{' :: (name ++ '}' :: '}' :: post))
        = some (pre, name, post) := by
  intro pre
  induction pre with
  | nil =>
    intro _
    rw [List.nil_append, findPlaceholder, matchPlaceholderHere_exact name post hne hw]
  | cons c pre ih =>
    intro h
    rw [findPlaceholder] at h
    cases hm : matchPlaceholderHere (c :: pre) with
    | some p => rw [hm] at h; exact absurd h (by simp)
    | none =>
      rw [hm] at h
      have hpre : findPlaceholder pre = none := by
        cases hf : findPlaceholder pre with
        | none => rfl
        | some q => rw [hf] at h; exact absurd h (by simp)
      rw [List.cons_append, findPlaceholder]
      have := matchPlaceholderHere_append (name ++ '}' :: '}' :: post) (c :: pre) (by simp) hm
      rw [List.cons_append] at this
      rw [this, ih hpre]

/-! ## Money formatting -/

theorem formatMoney_placeholder (shop : Option (List Char)) (cents : Int)
    (pre name post : List Char) (hne : name ≠ []) (hw : ∀ c ∈ name, isWordChar c = true)
    (hpre : findPlaceholder pre = none) :
    formatMoney shop (jsInt cents) (pre ++ '{' :: '{' :: (name ++ '}' :: '}' :: post)) =
      some (pre ++ (
        if name = "amount".data then formatWithDelimiters (jsInt cents) 2 [','] ['.']
        else if name = "amount_no_decimals".data then
          formatWithDelimiters (jsInt cents) 0 [','] ['.']
        else if name = "amount_with_comma_separator".data then
          formatWithDelimiters (jsInt cents) 2 ['.'] [',']
        else if name = "amount_no_decimals_with_comma_separator".data then
          formatWithDelimiters (jsInt cents) 0 ['.'] [',']
        else JSValue.str []).toStr ++ post) := by
  have hemp : (pre ++ '{' :: '{' :: (name ++ '}' :: '}' :: post)).isEmpty = false := by
    cases pre <;> rfl
  unfold formatMoney
  simp only [hemp, Bool.false_eq_true, if_false,
    findPlaceholder_append name post hne hw pre hpre, jsInt]

/-- C4 (amended). For every cents amount `c` below `100 * 2 ^ 46` and every template
`pre ++ "{{amount}}" ++ post` whose first placeholder is that `{{amount}}`,
`Shopify.formatMoney` returns the template with the placeholder replaced by `c / 100`
written with two decimal digits after a `.` and the whole units grouped in threes with
`,`; the text around the placeholder is unchanged.  In particular
`formatMoney(123456, "${{amount}}")` is `"$1,234.56"`. -/
theorem formatMoney_amount (shop : Option (List Char)) (c : Nat) (pre post : List Char)
    (hc : c < 100 * 2 ^ 46) (hpre : findPlaceholder pre = none) :
    formatMoney shop (jsInt c) (pre ++ "{{amount}}".data ++ post)
      = some (pre ++ amountWithDecimals [','] ['.'] c ++ post) ∧
    formatMoney shop (jsInt 123456) "${{amount}}".data = some "$1,234.56".data := by
  have hgen : ∀ (c : Nat) (pre post : List Char), c < 100 * 2 ^ 46 →
      findPlaceholder pre = none →
      formatMoney shop (jsInt c) (pre ++ "{{amount}}".data ++ post)
        = some (pre ++ amountWithDecimals [','] ['.'] c ++ post) := by
    intro c pre post hc hpre
    have hc' : c < 10 ^ 23 := lt_trans hc (by norm_num)
    have e : pre ++ "{{amount}}".data ++ post
        = pre ++ '{' :: '{' :: ("amount".data ++ '}' :: '}' :: post) := by
      simp
    rw [e, formatMoney_placeholder shop c pre "amount".data post (by decide) (by decide) hpre,
      if_pos rfl, formatWithDelimiters_two _ _ c hc']
    simp [JSValue.toStr]
  refine ⟨hgen c pre post hc hpre, ?_⟩
  have h := hgen 123456 "$".data [] (by decide) (by decide)
  have e2 : "$".data ++ "{{amount}}".data ++ [] = "${{amount}}".data := by decide
  rw [e2] at h
  rw [show (jsInt 123456) = jsInt ((123456 : Nat) : Int) from rfl, h]
  decide

/-- Witness for C4: 5 cents in a template with text on both sides. -/
theorem formatMoney_amount_witness :
    5 < 100 * 2 ^ 46 ∧ findPlaceholder "Total: $".data = none ∧
    formatMoney none (jsInt (5 : Nat)) ("Total: $".data ++ "{{amount}}".data ++ " USD".data)
      = some ("Total: $".data ++ amountWithDecimals [','] ['.'] 5 ++ " USD".data) :=
  ⟨by decide, by decide,
    (formatMoney_amount none 5 "Total: $".data " USD".data (by decide) (by decide)).1⟩

/-- Counterexample to C4 as stated: for `10 ^ 24` cents `toFixed` switches to exponent
notation and the result is `"$1e+22"`, not the amount with two decimals. -/
theorem formatMoney_amount_counterexample :
    formatMoney none (jsInt ((10 ^ 24 : Nat) : Int)) ("$".data ++ "{{amount}}".data ++ [])
      = some "$1e+22".data ∧
    some "$1e+22".data ≠ some ("$".data ++ amountWithDecimals [','] ['.'] (10 ^ 24) ++ []) := by
  decide

/-- C5 (amended). For every cents amount `c` below `2 ^ 53` and every template
`pre ++ "{{amount_no_decimals}}" ++ post` whose first placeholder is that one,
`Shopify.formatMoney` returns the template with the placeholder replaced by `c / 100`
rounded to the nearest whole unit, an exact half rounding up, grouped in threes with `,`
and without decimal mark or decimal digits.  In particular
`formatMoney(100000, "${{amount_no_decimals}}")` is `"$1,000"`. -/
theorem formatMoney_amount_no_decimals (shop : Option (List Char)) (c : Nat)
    (pre post : List Char) (hc : c < 2 ^ 53) (hpre : findPlaceholder pre = none) :
    formatMoney shop (jsInt c) (pre ++ "{{amount_no_decimals}}".data ++ post)
      = some (pre ++ amountNoDecimals [','] c ++ post) ∧
    formatMoney shop (jsInt 100000) "${{amount_no_decimals}}".data = some "$1,000".data := by
  have hgen : ∀ (c : Nat) (pre post : List Char), c < 2 ^ 53 →
      findPlaceholder pre = none →
      formatMoney shop (jsInt c) (pre ++ "{{amount_no_decimals}}".data ++ post)
        = some (pre ++ amountNoDecimals [','] c ++ post) := by
    intro c pre post hc hpre
    have hc' : c < 10 ^ 23 := lt_trans hc (by norm_num)
    have e : pre ++ "{{amount_no_decimals}}".data ++ post
        = pre ++ '{' :: '{' :: ("amount_no_decimals".data ++ '}' :: '}' :: post) := by
      simp
    rw [e, formatMoney_placeholder shop c pre "amount_no_decimals".data post (by decide)
      (by decide) hpre, if_neg (by decide), if_pos rfl, formatWithDelimiters_zero _ _ c hc']
    simp [JSValue.toStr]
  refine ⟨hgen c pre post hc hpre, ?_⟩
  have h := hgen 100000 "$".data [] (by decide) (by decide)
  have e2 : "$".data ++ "{{amount_no_decimals}}".data ++ [] = "${{amount_no_decimals}}".data := by
    decide
  rw [e2] at h
  rw [show (jsInt 100000) = jsInt ((100000 : Nat) : Int) from rfl, h]
  decide

/-- Witness for C5: 150 cents, an exact half, round up to 2. -/
theorem formatMoney_amount_no_decimals_witness :
    150 < 2 ^ 53 ∧ findPlaceholder "$".data = none ∧
    formatMoney none (jsInt (150 : Nat)) ("$".data ++ "{{amount_no_decimals}}".data ++ [])
      = some ("$".data ++ amountNoDecimals [','] 150 ++ []) ∧
    amountNoDecimals [','] 150 = "2".data :=
  ⟨by decide, by decide,
    (formatMoney_amount_no_decimals none 150 "$".data [] (by decide) (by decide)).1,
    by decide⟩

/-- Counterexample to C5 as stated: for `10 ^ 24` cents `toFixed` switches to exponent
notation and the result is `"$1e+22"`, not the grouped whole units. -/
theorem formatMoney_amount_no_decimals_counterexample :
    formatMoney none (jsInt ((10 ^ 24 : Nat) : Int))
        ("$".data ++ "{{amount_no_decimals}}".data ++ [])
      = some "$1e+22".data ∧
    some "$1e+22".data ≠ some ("$".data ++ amountNoDecimals [','] (10 ^ 24) ++ []) := by
  decide

/-! ## Numbers with a fractional part -/

theorem JSNum.eq_neg (a b : JSNum) : (a.neg).eq (b.neg) = a.eq b := by
  cases a <;> cases b <;> simp [JSNum.neg, JSNum.eq]

theorem parseIntChars_minus (d : Char) (t : List Char) (hd : isDigit d = true) :
    parseIntChars ('-' :: d :: t) = (parseIntChars (d :: t)).neg := by
  have hws := isDigit_not_ws d hd
  have hws' : isJsWhiteSpace '-' = false := by decide
  have h1 : d ≠ '-' := isDigit_ne d '-' hd (by decide)
  have h2 : d ≠ '+' := isDigit_ne d '+' hd (by decide)
  unfold parseIntChars trimStart
  simp only [List.dropWhile, hws, hws', List.head?, List.tail]
  simp only [beq_self_eq_true, Bool.true_or, if_true, Option.some_beq_some, beq_iff_eq, h1, h2,
    Bool.or_self, Bool.false_eq_true, if_false]
  simp only [show (d == '-') = false from by simpa using h1,
    show (d == '+') = false from by simpa using h2, Bool.or_self, Bool.false_eq_true, if_false]
  split <;> (split_ifs <;> rfl)

theorem parseFloatChars_minus (d : Char) (t : List Char) (hd : isDigit d = true) :
    parseFloatChars ('-' :: d :: t) = (parseFloatChars (d :: t)).neg := by
  have hws := isDigit_not_ws d hd
  have hws' : isJsWhiteSpace '-' = false := by decide
  have h1 : (d == '-') = false := by simpa using isDigit_ne d '-' hd (by decide)
  have h2 : (d == '+') = false := by simpa using isDigit_ne d '+' hd (by decide)
  unfold parseFloatChars trimStart scanDecimal
  simp only [List.dropWhile, hws, hws', List.head?, List.tail, Option.some_beq_some, h1, h2,
    beq_self_eq_true, if_true, Bool.false_eq_true, if_false]
  cases scanUnsignedDecimal (d :: t) <;> simp [JSNum.neg]

theorem takeWhile_digits_append (ds rest : List Char) (hds : ∀ c ∈ ds, isDigit c = true)
    (hrest : ∀ c r, rest = c :: r → isDigit c = false) :
    (ds ++ rest).takeWhile isDigit = ds := by
  rw [List.takeWhile_append_of_pos hds]
  cases rest with
  | nil => simp
  | cons c r => simp [List.takeWhile, hrest c r rfl]

theorem dropWhile_digits_append (ds rest : List Char) (hds : ∀ c ∈ ds, isDigit c = true)
    (hrest : ∀ c r, rest = c :: r → isDigit c = false) :
    (ds ++ rest).dropWhile isDigit = rest := by
  rw [List.dropWhile_append_of_pos hds]
  cases rest with
  | nil => simp
  | cons c r => simp [List.dropWhile, hrest c r rfl]

theorem parseIntChars_digits_then (ds : List Char) (c : Char) (rest : List Char)
    (hne : ds ≠ []) (hall : ∀ x ∈ ds, isDigit x = true) (hc : isDigit c = false)
    (hx : c ≠ 'x') (hX : c ≠ 'X') :
    parseIntChars (ds ++ c :: rest) = JSNum.fin (digitsValue 10 ds : Int) 0 := by
  cases ds with
  | nil => exact absurd rfl hne
  | cons d t =>
    have hd := hall d (by simp)
    have hws := isDigit_not_ws d hd
    have h1 : d ≠ '-' := isDigit_ne d '-' hd (by decide)
    have h2 : d ≠ '+' := isDigit_ne d '+' hd (by decide)
    have h3 : ¬ (d = '0' ∧ List.take 1 (t ++ c :: rest) = ['x'] ∨
        d = '0' ∧ List.take 1 (t ++ c :: rest) = ['X']) := by
      cases t with
      | nil => simp [hx, hX]
      | cons a t' =>
        have ha := hall a (by simp)
        have e1 : a ≠ 'x' := isDigit_ne a 'x' ha (by decide)
        have e2 : a ≠ 'X' := isDigit_ne a 'X' ha (by decide)
        simp [e1, e2]
    have h5 : (d :: t ++ c :: rest).takeWhile (fun c => (radixDigit 10 c).isSome) = d :: t := by
      rw [takeWhile_append_stop _ c rest (by rw [radixDigit_ten_isSome]; exact hc)]
      exact takeWhile_all _ _ (fun x hx' => by rw [radixDigit_ten_isSome]; exact hall x hx')
    have h5' : (d :: (t ++ c :: rest)).takeWhile (fun c => (radixDigit 10 c).isSome) = d :: t := h5
    unfold parseIntChars trimStart
    simp [List.dropWhile, hws, h1, h2, h3, h5']

theorem scanExponent_nil : scanExponent [] = (0, []) := by
  rfl

theorem scanExponent_exponentPart (e : Int) :
    scanExponent (JSNum.exponentPart e) = (e, []) := by
  have h1 := takeWhile_all isDigit _ (natDigits_all_digits e.natAbs)
  have h2 := dropWhile_all isDigit _ (natDigits_all_digits e.natAbs)
  have h3 : (natDigits e.natAbs).isEmpty = false := by
    cases h : natDigits e.natAbs with
    | nil => exact absurd h (natDigits_ne_nil _)
    | cons a b => rfl
  unfold scanExponent JSNum.exponentPart
  by_cases he : e < 0
  · have ha := abs_of_neg he
    simp [he, h1, h2, h3, digitsValue_natDigits]
    omega
  · have ha := abs_of_nonneg (not_lt.mp he)
    simp [he, h1, h2, h3, digitsValue_natDigits]
    omega

theorem not_infinity_of_digit (d : Char) (t : List Char) (hd : isDigit d = true) :
    (d :: t).take 8 ≠ "Infinity".data := by
  intro e
  have : d = 'I' := by
    have := congrArg List.head? e
    simpa using this
  rw [this] at hd
  exact absurd hd (by decide)

theorem scanUnsignedDecimal_dot (ip fp rest : List Char) (hne : ip ≠ [])
    (hip : ∀ c ∈ ip, isDigit c = true) (hfp : ∀ c ∈ fp, isDigit c = true)
    (hrest : ∀ c r, rest = c :: r → isDigit c = false) :
    scanUnsignedDecimal (ip ++ '.' :: (fp ++ rest)) =
      some (scaled (digitsValue 10 (ip ++ fp)) fp.length (scanExponent rest).1,
        (scanExponent rest).2) := by
  have hdot : isDigit '.' = false := by decide
  have h1 : (ip ++ '.' :: (fp ++ rest)).take 8 ≠ "Infinity".data := by
    cases ip with
    | nil => exact absurd rfl hne
    | cons d t => exact not_infinity_of_digit d _ (hip d (by simp))
  have h2 : (ip ++ '.' :: (fp ++ rest)).takeWhile isDigit = ip :=
    takeWhile_digits_append ip _ hip (fun c r h => by cases h; exact hdot)
  have h3 : (ip ++ '.' :: (fp ++ rest)).dropWhile isDigit = '.' :: (fp ++ rest) :=
    dropWhile_digits_append ip _ hip (fun c r h => by cases h; exact hdot)
  have h4 := takeWhile_digits_append fp rest hfp hrest
  have h5 := dropWhile_digits_append fp rest hfp hrest
  have h6 : ip.isEmpty = false := by
    cases ip with
    | nil => exact absurd rfl hne
    | cons d t => rfl
  unfold scanUnsignedDecimal
  simp [h1, h2, h3, h4, h5, h6]

theorem scanUnsignedDecimal_nodot (ip : List Char) (c : Char) (rest : List Char) (hne : ip ≠ [])
    (hip : ∀ x ∈ ip, isDigit x = true) (hc : isDigit c = false) (hdot : c ≠ '.') :
    scanUnsignedDecimal (ip ++ c :: rest) =
      some (scaled (digitsValue 10 ip) 0 (scanExponent (c :: rest)).1,
        (scanExponent (c :: rest)).2) := by
  have h1 : (ip ++ c :: rest).take 8 ≠ "Infinity".data := by
    cases ip with
    | nil => exact absurd rfl hne
    | cons d t => exact not_infinity_of_digit d _ (hip d (by simp))
  have h2 : (ip ++ c :: rest).takeWhile isDigit = ip :=
    takeWhile_digits_append ip _ hip (fun x r h => by cases h; exact hc)
  have h3 : (ip ++ c :: rest).dropWhile isDigit = c :: rest :=
    dropWhile_digits_append ip _ hip (fun x r h => by cases h; exact hc)
  have h6 : ip.isEmpty = false := by
    cases ip with
    | nil => exact absurd rfl hne
    | cons d t => rfl
  unfold scanUnsignedDecimal
  simp [h1, h2, h3, h6, hdot]

theorem parseFloatChars_digit_head (d : Char) (t : List Char) (hd : isDigit d = true) :
    parseFloatChars (d :: t) =
      match scanUnsignedDecimal (d :: t) with
      | some p => p.1
      | none => JSNum.nan := by
  have hws := isDigit_not_ws d hd
  have h1 : (d == '-') = false := by simpa using isDigit_ne d '-' hd (by decide)
  have h2 : (d == '+') = false := by simpa using isDigit_ne d '+' hd (by decide)
  unfold parseFloatChars trimStart scanDecimal
  simp only [List.dropWhile, hws, List.head?, Option.some_beq_some, h1, h2,
    Bool.false_eq_true, if_false]

theorem digitsValue_fold (l : List Char) : ∀ acc : Nat,
    l.foldl (fun acc c => acc * 10 + (radixDigit 10 c).getD 0) acc
      = acc * 10 ^ l.length + digitsValue 10 l := by
  induction l with
  | nil => intro acc; simp [digitsValue]
  | cons c t ih =>
    intro acc
    simp only [List.foldl_cons, digitsValue, List.length_cons]
    rw [ih, ih (0 * 10 + (radixDigit 10 c).getD 0)]
    simp only [digitsValue]
    ring

theorem digitsValue_append_pow (a b : List Char) :
    digitsValue 10 (a ++ b) = digitsValue 10 a * 10 ^ b.length + digitsValue 10 b := by
  rw [digitsValue_append, digitsValue_fold]

theorem radixDigit_le_nine (c : Char) : (radixDigit 10 c).getD 0 ≤ 9 := by
  unfold radixDigit
  simp only
  split
  · rename_i d hd
    split
    · simp; omega
    · simp
  · simp

theorem digitsValue_lt_pow (l : List Char) : digitsValue 10 l < 10 ^ l.length := by
  induction l using List.reverseRecOn with
  | nil => simp [digitsValue]
  | append_singleton t c ih =>
    rw [digitsValue_snoc, List.length_append, List.length_singleton, pow_succ]
    have := radixDigit_le_nine c
    omega

theorem digitsValue_zeros (z : Nat) : digitsValue 10 (List.replicate z '0') = 0 := by
  induction z with
  | zero => rfl
  | succ z ih =>
    rw [List.replicate_succ', digitsValue_snoc, ih]
    rfl

theorem digit_pos_of_ne_zero (d : Char) (hd : isDigit d = true) (h0 : d ≠ '0') :
    1 ≤ (radixDigit 10 d).getD 0 := by
  have hne : d.toNat ≠ 48 := by
    intro e
    apply h0
    have h := Char.ofNat_toNat d
    rw [e] at h
    exact h.symm
  simp [isDigit] at hd
  unfold radixDigit
  have h1 : 48 ≤ d.toNat ∧ d.toNat ≤ 57 := hd
  have h2 : d.toNat - 48 < 10 := by omega
  simp [h1, h2]
  omega

theorem strip_decompose (M : Nat) (hM : 0 < M) :
    ∃ (S' : List Char) (d : Char),
      stripTrailingZeros (natDigits M) = S' ++ [d] ∧ isDigit d = true ∧ d ≠ '0' := by
  have hall := natDigits_all_digits M
  have happ := stripTrailingZeros_append_zeros (natDigits M)
  cases hR : (natDigits M).reverse.dropWhile (fun c => c == '0') with
  | nil =>
    have hS : stripTrailingZeros (natDigits M) = [] := by
      unfold stripTrailingZeros; rw [hR]; rfl
    rw [hS] at happ
    have hv := digitsValue_natDigits M
    rw [← happ] at hv
    simp [digitsValue_zeros] at hv
    omega
  | cons d R' =>
    refine ⟨R'.reverse, d, ?_, ?_, ?_⟩
    · unfold stripTrailingZeros; rw [hR]; simp
    · have hmem : d ∈ (natDigits M).reverse.dropWhile (fun c => c == '0') := by
        rw [hR]; simp
      have := (List.dropWhile_sublist (fun c => c == '0')).subset hmem
      exact hall d (by simpa using this)
    · have := List.head_dropWhile_not (fun c => c == '0') (natDigits M).reverse
        (by rw [hR]; simp)
      simp only [hR, List.head_cons] at this
      simpa using this

theorem scaled_dot_zero (v t : Nat) : scaled v t 0 = JSNum.fin ((v : Int) * 10 ^ 0) t := by
  simp [scaled]

/-- Parsing the digit string of a positive number with a fractional part: `parseFloat`
and `parseInt` read different values. -/
theorem renderDigits_fraction (S' : List Char) (d : Char) (n : Int)
    (hS' : ∀ c ∈ S', isDigit c = true) (hd : isDigit d = true) (hd0 : d ≠ '0')
    (hkn : n < ((S' ++ [d]).length : Int)) :
    (parseFloatChars (JSNum.renderDigits (S' ++ [d]) n)).eq
        (parseIntChars (JSNum.renderDigits (S' ++ [d]) n)) = false ∧
    ∃ c t, JSNum.renderDigits (S' ++ [d]) n = c :: t ∧ isDigit c = true := by
  have hS : ∀ c ∈ S' ++ [d], isDigit c = true := by
    intro c hc
    rcases List.mem_append.mp hc with h | h
    · exact hS' c h
    · simp at h; subst h; exact hd
  have hdig := digit_pos_of_ne_zero d hd hd0
  have hdot : isDigit '.' = false := by decide
  have hlast : ∀ j : Nat, j ≤ S'.length → 1 ≤ digitsValue 10 ((S' ++ [d]).drop j) := by
    intro j hj
    rw [List.drop_append_of_le_length hj, digitsValue_snoc]
    omega
  have hlen : (S' ++ [d]).length = S'.length + 1 := by simp
  have hvpos : 1 ≤ digitsValue 10 (S' ++ [d]) := by
    have := hlast 0 (Nat.zero_le _)
    simpa using this
  have hvlt := digitsValue_lt_pow (S' ++ [d])
  generalize hSd : S' ++ [d] = S at *
  have hA : ¬ (((S.length : Int)) ≤ n ∧ n ≤ 21) := by omega
  unfold JSNum.renderDigits
  simp only [hA, if_false]
  by_cases hB : 0 < n ∧ n ≤ 21
  · -- a decimal point inside the digits
    simp only [hB, and_self, if_true]
    obtain ⟨j, hj⟩ : ∃ j : Nat, n = j := ⟨n.toNat, by omega⟩
    subst hj
    simp only [Int.toNat_ofNat]
    have hj1 : 1 ≤ j := by omega
    have hjk : j ≤ S'.length := by omega
    have hip : ∀ c ∈ S.take j, isDigit c = true :=
      fun c hc => hS c (List.mem_of_mem_take hc)
    have hfp : ∀ c ∈ S.drop j, isDigit c = true :=
      fun c hc => hS c (List.mem_of_mem_drop hc)
    have hipne : S.take j ≠ [] := by
      intro e
      have h1 : (S.take j).length = 0 := by rw [e]; rfl
      rw [List.length_take] at h1
      omega
    have hsplit := digitsValue_append_pow (S.take j) (S.drop j)
    rw [List.take_append_drop] at hsplit
    have hfpos := hlast j hjk
    obtain ⟨c0, t0, hct⟩ : ∃ c0 t0, S.take j = c0 :: t0 := by
      cases h : S.take j with
      | nil => exact absurd h hipne
      | cons a b => exact ⟨a, b, rfl⟩
    have hc0 : isDigit c0 = true := hip c0 (by rw [hct]; simp)
    refine ⟨?_, c0, t0 ++ '.' :: S.drop j, by rw [hct]; rfl, hc0⟩
    rw [parseIntChars_digits_then _ '.' _ hipne hip hdot (by decide) (by decide)]
    have hpf : parseFloatChars (S.take j ++ '.' :: S.drop j)
        = JSNum.fin ((digitsValue 10 S : Int) * 10 ^ 0) (S.drop j).length := by
      have h1 := scanUnsignedDecimal_dot (S.take j) (S.drop j) [] hipne hip hfp
        (fun c r h => by cases h)
      rw [List.append_nil, List.take_append_drop, scanExponent_nil] at h1
      rw [hct] at h1 ⊢
      rw [List.cons_append, parseFloatChars_digit_head c0 _ hc0]
      rw [List.cons_append] at h1
      rw [h1]
      exact scaled_dot_zero _ _
    rw [hpf]
    simp only [JSNum.eq, pow_zero, mul_one, decide_eq_false_iff_not]
    intro e
    have e' : digitsValue 10 S = digitsValue 10 (S.take j) * 10 ^ (S.drop j).length := by
      exact_mod_cast e
    omega
  · simp only [hB, if_false]
    have hzero : isDigit '0' = true := by decide
    by_cases hC : -6 < n ∧ n ≤ 0
    · -- leading zeros after the decimal point
      simp only [hC, and_self, if_true]
      generalize (-n).toNat = z
      have hfp : ∀ c ∈ List.replicate z '0' ++ S, isDigit c = true := by
        intro c hc
        rcases List.mem_append.mp hc with h | h
        · rw [(List.mem_replicate.mp h).2]; exact hzero
        · exact hS c h
      refine ⟨?_, '0', '.' :: (List.replicate z '0' ++ S), rfl, hzero⟩
      have hpi := parseIntChars_digits_then ['0'] '.' (List.replicate z '0' ++ S) (by simp)
        (by intro x hx; simp at hx; subst hx; exact hzero) hdot (by decide) (by decide)
      have hpf : parseFloatChars ('0' :: '.' :: (List.replicate z '0' ++ S))
          = JSNum.fin ((digitsValue 10 S : Int) * 10 ^ 0) (List.replicate z '0' ++ S).length := by
        have h1 := scanUnsignedDecimal_dot ['0'] (List.replicate z '0' ++ S) [] (by simp)
          (by intro x hx; simp at hx; subst hx; exact hzero) hfp (fun c r h => by cases h)
        rw [List.append_nil, scanExponent_nil] at h1
        have hv : digitsValue 10 (['0'] ++ (List.replicate z '0' ++ S)) = digitsValue 10 S := by
          rw [← List.append_assoc, digitsValue_append_pow]
          have : ['0'] ++ List.replicate z '0' = List.replicate (z + 1) '0' := by
            simp [List.replicate_succ]
          rw [this, digitsValue_zeros]
          simp
        rw [hv] at h1
        rw [parseFloatChars_digit_head '0' _ hzero]
        have h1' : scanUnsignedDecimal ('0' :: '.' :: (List.replicate z '0' ++ S)) = _ := h1
        rw [h1']
        exact scaled_dot_zero _ _
      have hpi' : parseIntChars ('0' :: '.' :: (List.replicate z '0' ++ S)) = _ := hpi
      rw [hpi', hpf]
      simp only [JSNum.eq, pow_zero, mul_one, decide_eq_false_iff_not]
      intro e
      have hz : digitsValue 10 ['0'] = 0 := by decide
      rw [hz] at e
      simp at e
      omega
    · -- exponent notation
      simp only [hC, if_false]
      have hexp : ∀ x : Int, ∃ r, JSNum.exponentPart x = 'e' :: r := fun x => ⟨_, rfl⟩
      have he : isDigit 'e' = false := by decide
      cases S' with
      | nil =>
        -- one significant digit
        simp only [List.nil_append] at hSd
        subst hSd
        simp only [List.length_singleton, Nat.cast_one, if_true]
        obtain ⟨r, hr⟩ := hexp (n - 1)
        refine ⟨?_, d, JSNum.exponentPart (n - 1), rfl, hd⟩
        have hpi := parseIntChars_digits_then [d] 'e' r (by simp)
          (by intro x hx; simp at hx; subst hx; exact hd) he (by decide) (by decide)
        have hpf : parseFloatChars ([d] ++ JSNum.exponentPart (n - 1))
            = scaled (digitsValue 10 [d]) 0 (n - 1) := by
          have h1 := scanUnsignedDecimal_nodot [d] 'e' r (by simp)
            (by intro x hx; simp at hx; subst hx; exact hd) he (by decide)
          rw [← hr, scanExponent_exponentPart] at h1
          have h2 := parseFloatChars_digit_head d (JSNum.exponentPart (n - 1)) hd
          have h1' : scanUnsignedDecimal (d :: JSNum.exponentPart (n - 1)) = _ := h1
          rw [h1'] at h2
          exact h2
        rw [hr] at hpf ⊢
        rw [hpi, hpf]
        have hneg : ¬ (0 ≤ n - 1) := by
          simp only [List.length_singleton, Nat.cast_one] at hkn
          omega
        simp only [scaled, hneg, if_false, JSNum.eq, pow_zero, mul_one, zero_add,
          decide_eq_false_iff_not]
        intro e
        have hT : 1 ≤ (-(n - 1)).toNat := by omega
        have hpow : (10 : Int) ^ (-(n - 1)).toNat ≥ 10 := by
          calc (10 : Int) ^ (-(n - 1)).toNat ≥ 10 ^ 1 :=
                pow_le_pow_right₀ (by norm_num) hT
            _ = 10 := by norm_num
        have hv1 : (1 : Int) ≤ digitsValue 10 [d] := by exact_mod_cast hvpos
        nlinarith
      | cons c0 S'' =>
        -- several significant digits
        have hk1 : ¬ ((S.length : Int) = 1) := by
          rw [hlen]
          simp only [List.length_cons]
          omega
        simp only [hk1, if_false]
        obtain ⟨r, hr⟩ := hexp (n - 1)
        have hc0 : isDigit c0 = true := hS' c0 (by simp)
        have htake : S.take 1 = [c0] := by rw [← hSd]; rfl
        have hdrop : S.drop 1 = S'' ++ [d] := by rw [← hSd]; rfl
        have hfp : ∀ c ∈ S.drop 1, isDigit c = true :=
          fun c hc => hS c (List.mem_of_mem_drop hc)
        have hsplit := digitsValue_append_pow (S.take 1) (S.drop 1)
        rw [List.take_append_drop] at hsplit
        have hfpos := hlast 1 (by simp)
        have hdl : (S.drop 1).length = S''.length + 1 := by rw [hdrop]; simp
        have hSl : S.length = S''.length + 2 := by rw [hlen]; simp
        refine ⟨?_, c0, '.' :: (S.drop 1 ++ JSNum.exponentPart (n - 1)), by rw [htake]; rfl, hc0⟩
        have hpi := parseIntChars_digits_then (S.take 1) '.'
          (S.drop 1 ++ JSNum.exponentPart (n - 1)) (by rw [htake]; simp)
          (by rw [htake]; intro x hx; simp at hx; subst hx; exact hc0) hdot (by decide)
          (by decide)
        have hpf : parseFloatChars (S.take 1 ++ '.' :: (S.drop 1 ++ JSNum.exponentPart (n - 1)))
            = scaled (digitsValue 10 S) (S.drop 1).length (n - 1) := by
          have h1 := scanUnsignedDecimal_dot (S.take 1) (S.drop 1) (JSNum.exponentPart (n - 1))
            (by rw [htake]; simp)
            (by rw [htake]; intro x hx; simp at hx; subst hx; exact hc0) hfp
            (by intro c r h; rw [hr] at h; cases h; exact he)
          rw [List.take_append_drop, scanExponent_exponentPart] at h1
          rw [htake] at h1 ⊢
          have h2 := parseFloatChars_digit_head c0
            ('.' :: (S.drop 1 ++ JSNum.exponentPart (n - 1))) hc0
          have h1' : scanUnsignedDecimal (c0 :: '.' :: (S.drop 1 ++ JSNum.exponentPart (n - 1)))
              = _ := h1
          rw [h1'] at h2
          exact h2
        rw [hpi, hpf]
        have hI : digitsValue 10 (S.take 1) ≤ 9 := by
          rw [htake]
          have := radixDigit_le_nine c0
          simpa [digitsValue] using this
        by_cases hpos : 0 ≤ n - 1
        · simp only [scaled, hpos, if_true, JSNum.eq, pow_zero, mul_one,
            decide_eq_false_iff_not]
          intro e
          have hpow : (1 : Int) ≤ 10 ^ (n - 1).toNat := one_le_pow₀ (by norm_num)
          have h1 : (digitsValue 10 S : Int)
              = (digitsValue 10 (S.take 1) : Int) * 10 ^ (S.drop 1).length
                + (digitsValue 10 (S.drop 1) : Int) := by exact_mod_cast hsplit
          have h2 : (1 : Int) ≤ digitsValue 10 (S.drop 1) := by exact_mod_cast hfpos
          have h3 : (0 : Int) ≤ (digitsValue 10 (S.take 1) : Int) * 10 ^ (S.drop 1).length := by
            positivity
          nlinarith
        · simp only [scaled, hpos, if_false, JSNum.eq, pow_zero, mul_one,
            decide_eq_false_iff_not]
          intro e
          have e' : digitsValue 10 S
              = digitsValue 10 (S.take 1) * 10 ^ ((S.drop 1).length + (-(n - 1)).toNat) := by
            exact_mod_cast e
          have hT : 7 ≤ (-(n - 1)).toNat := by omega
          have hI0 : digitsValue 10 (S.take 1) ≠ 0 := by
            intro h0
            rw [h0] at e'
            omega
          have hbig : 10 ^ S.length ≤ 10 ^ ((S.drop 1).length + (-(n - 1)).toNat) :=
            Nat.pow_le_pow_right (by norm_num) (by omega)
          have : 10 ^ ((S.drop 1).length + (-(n - 1)).toNat)
              ≤ digitsValue 10 (S.take 1) * 10 ^ ((S.drop 1).length + (-(n - 1)).toNat) :=
            Nat.le_mul_of_pos_left _ (Nat.pos_of_ne_zero hI0)
          omega

theorem posToString_fraction (M s : Nat) (hM : 0 < M) (hdiv : ¬ 10 ^ s ∣ M) :
    (parseFloatChars (JSNum.posToString M s)).eq (parseIntChars (JSNum.posToString M s)) = false ∧
    ∃ c t, JSNum.posToString M s = c :: t ∧ isDigit c = true := by
  obtain ⟨S', d, hS, hd, hd0⟩ := strip_decompose M hM
  have hall := natDigits_all_digits M
  have happ := stripTrailingZeros_append_zeros (natDigits M)
  have hle := stripTrailingZeros_length_le (natDigits M)
  have hS' : ∀ c ∈ S', isDigit c = true := by
    intro c hc
    apply hall c
    rw [← happ, hS]
    simp [hc]
  have hval : M = digitsValue 10 (S' ++ [d])
      * 10 ^ ((natDigits M).length - (S' ++ [d]).length) := by
    have hv := digitsValue_natDigits M
    rw [← happ, digitsValue_append_pow, digitsValue_zeros, hS] at hv
    simp only [List.length_replicate, Nat.add_zero] at hv
    exact hv.symm
  have hkn : ((natDigits M).length : Int) - (s : Int) < ((S' ++ [d]).length : Int) := by
    by_contra hcon
    apply hdiv
    have hs : s ≤ (natDigits M).length - (S' ++ [d]).length := by
      rw [hS] at hle
      omega
    rw [hval]
    exact Dvd.dvd.mul_left (pow_dvd_pow 10 hs) _
  unfold JSNum.posToString
  rw [hS]
  exact renderDigits_fraction S' d _ hS' hd hd0 hkn

theorem validateQty_fraction (m : Int) (s : Nat) (h : ¬ (10 ^ s : Int) ∣ m) :
    validateQty (JSValue.num (JSNum.fin m s)) = jsInt 1 := by
  have hm0 : m ≠ 0 := by
    intro e
    rw [e] at h
    exact h (dvd_zero _)
  have hM : 0 < m.natAbs := Int.natAbs_pos.mpr hm0
  have hdiv : ¬ 10 ^ s ∣ m.natAbs := by
    intro hd
    apply h
    have := Int.natCast_dvd_natCast.mpr hd
    rw [Int.natCast_natAbs, dvd_abs] at this
    exact_mod_cast this
  obtain ⟨hne, c, t, hct, hc⟩ := posToString_fraction m.natAbs s hM hdiv
  have hstr : (JSValue.num (JSNum.fin m s)).toStr
      = if m < 0 then '-' :: JSNum.posToString m.natAbs s else JSNum.posToString m.natAbs s := by
    show (JSNum.fin m s).toString = _
    unfold JSNum.toString
    simp only [hm0, if_false]
  have hfalse : (parseFloat (JSValue.num (JSNum.fin m s))).eq
      (parseInt (JSValue.num (JSNum.fin m s))) = false := by
    unfold parseFloat parseInt
    rw [hstr]
    by_cases hneg : m < 0
    · simp only [hneg, if_true]
      rw [hct, parseFloatChars_minus c t hc, parseIntChars_minus c t hc, JSNum.eq_neg, ← hct]
      exact hne
    · simp only [hneg, if_false]
      exact hne
  unfold validateQty
  rw [hfalse]
  rfl

/-! ## Quantity validation -/

/-- C2 (amended). Both definitions of `validateQty` return `q` itself when `q` is an
integer Number with `|q| < 10 ^ 21`, and return 1 when `q` is `NaN`, an infinity, a Number
with a fractional part, the empty string, or a string that does not read as a number. -/
theorem validateQty_spec (q : JSValue) :
    (∀ z : Int, q = jsInt z → z.natAbs < 10 ^ 21 →
      validateQty q = q ∧ productValidateQty q = q) ∧
    ((q = JSValue.num JSNum.nan ∨ (∃ b, q = JSValue.num (JSNum.inf b)) ∨
        (∃ m s, q = JSValue.num (JSNum.fin m s) ∧ ¬ (10 ^ s : Int) ∣ m) ∨
        (∃ cs, q = JSValue.str cs ∧ (cs = [] ∨ isNaN (JSValue.str cs) = true))) →
      validateQty q = jsInt 1 ∧ productValidateQty q = jsInt 1) := by
  have hsame : ∀ v, productValidateQty v = validateQty v := fun _ => rfl
  constructor
  · intro z hz hb
    subst hz
    rw [hsame]
    exact ⟨validateQty_int z hb, validateQty_int z hb⟩
  · intro h
    rw [hsame]
    refine ⟨?_, ?_⟩ <;>
    · rcases h with h | ⟨b, h⟩ | ⟨m, s, h, hdiv⟩ | ⟨cs, h, hcs⟩
      · subst h; decide
      · subst h; cases b <;> decide
      · subst h; exact validateQty_fraction m s hdiv
      · subst h
        rcases hcs with hcs | hcs
        · subst hcs; decide
        · unfold validateQty
          rw [hcs]
          simp

/-- Witness for C2: the integer 7 comes back unchanged, the text `abc` gives 1. -/
theorem validateQty_spec_witness :
    validateQty (jsInt 7) = jsInt 7 ∧ validateQty (JSValue.str "abc".data) = jsInt 1 :=
  ⟨((validateQty_spec (jsInt 7)).1 7 rfl (by decide)).1,
    ((validateQty_spec (JSValue.str "abc".data)).2
      (Or.inr (Or.inr (Or.inr ⟨"abc".data, rfl, Or.inr (by decide)⟩)))).1⟩

/-- Counterexample to C2 as stated: the finite integer `10 ^ 21` is not returned
unchanged.  It prints as `1e+21`, which `parseInt` reads as 1 and `parseFloat` as
`10 ^ 21`, so both definitions return 1. -/
theorem validateQty_counterexample :
    (JSValue.num (JSNum.ofInt (10 ^ 21))).toStr = "1e+21".data ∧
    validateQty (jsInt (10 ^ 21)) = jsInt 1 ∧
    productValidateQty (jsInt (10 ^ 21)) = jsInt 1 ∧
    jsInt 1 ≠ jsInt (10 ^ 21) := by
  decide

/-! ## The view model of `buildCart` -/

theorem buildItem_fields (sf : Option (List Char)) (mf : List Char) (index : Nat)
    (item : CartItem) (v : ItemView) (h : buildItem sf mf index item = some v) :
    v.key = item.key ∧ v.line = index + 1 ∧ v.url = item.url ∧
      v.img = prodImg item.image ∧ v.name = prodName item.title ∧
      v.variation = prodVariation item.title ∧ v.itemAdd = item.quantity + 1 ∧
      v.itemMinus = item.quantity - 1 := by
  unfold buildItem at h
  split at h
  · exact absurd h (by simp)
  · simp only [Option.some.injEq] at h
    subst h
    exact ⟨rfl, rfl, rfl, rfl, rfl, rfl, rfl, rfl⟩

theorem buildItems_get? (sf : Option (List Char)) (mf : List Char) :
    ∀ (items : List CartItem) (index : Nat) (vs : List ItemView),
      buildItems sf mf index items = some vs →
      vs.length = items.length ∧
      ∀ (i : Nat) (item : CartItem), items.get? i = some item →
        ∃ v, vs.get? i = some v ∧ buildItem sf mf (index + i) item = some v := by
  intro items
  induction items with
  | nil =>
    intro index vs h
    simp only [buildItems, Option.some.injEq] at h
    subst h
    exact ⟨rfl, fun i item hi => by simp at hi⟩
  | cons x rest ih =>
    intro index vs h
    simp only [buildItems] at h
    cases hx : buildItem sf mf index x with
    | none => simp [hx] at h
    | some v =>
      cases hr : buildItems sf mf (index + 1) rest with
      | none => simp [hx, hr] at h
      | some ws =>
        simp only [hx, hr, Option.some.injEq] at h
        subst h
        obtain ⟨hlen, hget⟩ := ih (index + 1) ws hr
        refine ⟨by simp [hlen], ?_⟩
        intro i item hi
        cases i with
        | zero =>
          simp only [List.get?_cons_zero, Option.some.injEq] at hi
          subst hi
          exact ⟨v, rfl, hx⟩
        | succ j =>
          simp only [List.get?_cons_succ] at hi
          obtain ⟨w, hw, hb⟩ := hget j item hi
          refine ⟨w, by simpa using hw, ?_⟩
          rw [← hb]
          congr 1
          omega

theorem buildCart_template (env : Env) (cart : Cart) (s : State)
    (ht : env.settings.useCartTemplate = false) (hc : 0 < cart.item_count)
    (hfmt : env.moneyFormatOk = true) :
    ∃ data : TemplateData,
      buildItems env.shopFormat env.settings.moneyFormat 0 cart.items = some data.items ∧
      (outcome (buildCart env cart s)).cartContent = [CartNode.template data] ∧
      (outcome (buildCart env cart s)).cartInit = true := by
  obtain ⟨vs, hvs, _⟩ := buildItems_isSome env hfmt cart.items 0
  obtain ⟨total, htotal⟩ := formatMoney_isSome env hfmt (jsInt cart.total_price)
  refine ⟨{ items := vs, totalPrice := total, btnClass := env.settings.btnClass }, hvs, ?_⟩
  rw [buildCart_client env cart s vs total ht hc hvs htotal]
  exact ⟨rfl, rfl⟩

/-- C12. With the client template and a money format that has a placeholder, `buildCart`
on a cart of `n` line items that counts at least one item (so `n ≥ 1` for a cart whose
count is the sum of its quantities) returns normally and renders the template on exactly
`n` rows in the order of `cart.items`; the row of the item at index `i` has `line = i + 1`
and that item's `key` and `url`. -/
theorem view_model_rows (env : Env) (cart : Cart) (s : State)
    (ht : env.settings.useCartTemplate = false) (hc : 0 < cart.item_count)
    (hfmt : env.moneyFormatOk = true) :
    ∃ data : TemplateData,
      buildCart env cart s = Except.ok (outcome (buildCart env cart s)) ∧
      (outcome (buildCart env cart s)).cartContent = [CartNode.template data] ∧
      data.items.length = cart.items.length ∧
      ∀ (i : Nat) (item : CartItem), cart.items.get? i = some item →
        ∃ v, data.items.get? i = some v ∧ v.line = i + 1 ∧ v.key = item.key ∧
          v.url = item.url := by
  obtain ⟨data, hitems, hcontent, _⟩ := buildCart_template env cart s ht hc hfmt
  have hg := buildItems_get? env.shopFormat env.settings.moneyFormat cart.items 0 data.items hitems
  refine ⟨data, ?_, hcontent, hg.1, ?_⟩
  · obtain ⟨total, htotal⟩ := formatMoney_isSome env hfmt (jsInt cart.total_price)
    rw [buildCart_client env cart s data.items total ht hc hitems htotal]
    rfl
  · intro i item hi
    obtain ⟨v, hv, hb⟩ := hg.2 i item hi
    obtain ⟨hkey, hline, hurl, _⟩ := buildItem_fields _ _ _ _ _ hb
    exact ⟨v, hv, by simpa using hline, hkey, hurl⟩

/-- Witness for C12 on the sample page with the cart of two lines. -/
theorem view_model_rows_witness :
    ∃ data : TemplateData,
      buildCart demoEnv demoCartZeroLine (initialState [])
        = Except.ok (outcome (buildCart demoEnv demoCartZeroLine (initialState []))) ∧
      (outcome (buildCart demoEnv demoCartZeroLine (initialState []))).cartContent
        = [CartNode.template data] ∧
      data.items.length = demoCartZeroLine.items.length ∧
      ∀ (i : Nat) (item : CartItem), demoCartZeroLine.items.get? i = some item →
        ∃ v, data.items.get? i = some v ∧ v.line = i + 1 ∧ v.key = item.key ∧
          v.url = item.url :=
  view_model_rows demoEnv demoCartZeroLine (initialState []) (by decide) (by decide)
    (by decide)

/-! ## Name, variation and thumbnail -/

theorem replaceLastSegment_last (sep : Char) (f : List Char → List Char) :
    ∀ (a b : List Char), (∀ c ∈ b, c ≠ sep) →
      replaceLastSegment sep f (a ++ sep :: b) = a ++ f (sep :: b) := by
  intro a b hb
  induction a with
  | nil =>
    have hall : (b.all fun d => d != sep) = true := by
      simp only [List.all_eq_true, bne_iff_ne]
      exact hb
    simp [replaceLastSegment, hall]
  | cons x xs ih =>
    have hnot : ((xs ++ sep :: b).all fun d => d != sep) = false := by
      simp [List.all_eq_false] 
    simp [replaceLastSegment, hnot, ih]

theorem prodName_before_last_dash (a b : List Char) (hb : ∀ c ∈ b, c ≠ '-') :
    prodName (a ++ '-' :: b) = a := by
  unfold prodName
  rw [replaceLastSegment_last '-' _ a b hb]
  simp

theorem prodVariation_after_first_dash (a b : List Char) (ha : ∀ c ∈ a, c ≠ '-') :
    prodVariation (a ++ '-' :: b) = b := by
  unfold prodVariation
  have h : (a ++ '-' :: b).dropWhile (fun c => c != '-') = '-' :: b := by
    rw [List.dropWhile_append_of_pos]
    · simp [List.dropWhile]
    · intro c hc
      simpa using ha c hc
  rw [h]
  simp

/-- C13, evaluated on the title `T-Shirt - Red`: the name is the text before the last dash,
`T-Shirt `, but the variation is the text after the first dash, `Shirt - Red`, not the
trailing segment ` Red`; name, dash and variation no longer make up the title.  On a title
with one dash, `Shirt - Blue`, the two agree with the convention. -/
theorem variation_keeps_text_after_first_dash :
    prodName "T-Shirt - Red".data = "T-Shirt ".data ∧
    prodVariation "T-Shirt - Red".data = "Shirt - Red".data ∧
    prodVariation "T-Shirt - Red".data ≠ " Red".data ∧
    prodName "Shirt - Blue".data = "Shirt ".data ∧
    prodVariation "Shirt - Blue".data = " Blue".data := by
  decide

/-- C14, evaluated on an image URL with the `https:` scheme: `_small` is inserted before
the extension, but the scheme stays, so the thumbnail URL is not scheme-relative; only
`http:` is removed. -/
theorem thumbnail_keeps_https_scheme :
    prodImg "https://cdn.shop/files/shirt.png".data
      = "https://cdn.shop/files/shirt_small.png".data ∧
    prodImg "https://cdn.shop/files/shirt.png".data ≠ "//cdn.shop/files/shirt_small.png".data ∧
    prodImg "http://cdn.shop/files/shirt.png".data = "//cdn.shop/files/shirt_small.png".data := by
  decide

/-! ## The empty cart and the toggle button -/

/-- C15. For every cart with `item_count = 0`, in every mode and for either template
setting, `buildCart` returns normally with the empty-cart block as the only content of the
cart container and with no cart row, and it has sent nothing (no cart page is loaded),
whatever `cart.items` holds and whatever the container held before. -/
theorem buildCart_empty_block (env : Env) (cart : Cart) (s : State)
    (hc : cart.item_count = 0) :
    ∃ t, buildCart env cart s = Except.ok t ∧
      t.cartContent = [CartNode.emptyMessage] ∧ t.rows = [] ∧
      t.pending = s.pending ∧ t.calls = s.calls := by
  unfold buildCart
  simp only [hc, beq_self_eq_true, Bool.or_true, if_true, List.nil_append]
  cases env.settings.method <;>
    simp only [sizeModal, sizeDrawer, toggleCallback] <;>
    (repeat' split) <;>
    exact ⟨_, rfl, rfl, rfl, rfl, rfl⟩

/-- Witness for C15 on the sample page with the rendered cart: a cart that reports no item
replaces the rendered line by the empty-cart block. -/
theorem buildCart_empty_block_witness :
    demoCartCountZero.item_count = 0 ∧ demoOpen.cartContent ≠ [] ∧
    ∃ t, buildCart demoEnv demoCartCountZero demoOpen = Except.ok t ∧
      t.cartContent = [CartNode.emptyMessage] ∧ t.rows = [] ∧
      t.pending = demoOpen.pending ∧ t.calls = demoOpen.calls :=
  ⟨by decide, by decide, buildCart_empty_block demoEnv demoCartCountZero demoOpen (by decide)⟩

/-- C16. In drawer and flip mode a click on the toggle button runs `hideDrawer` when the
drawer has the visibility class and `showDrawer(true)` otherwise; the visibility after the
click is the negation of the visibility before, and a second click right after restores
it. -/
theorem toggle_click_flips_visibility (env : Env) (s : State)
    (hm : env.settings.method ≠ Method.modal) :
    (s.drawerVisible = true → step env s Event.toggleClick = hideDrawer env s) ∧
    (s.drawerVisible = false → step env s Event.toggleClick = showDrawer env true s) ∧
    (step env s Event.toggleClick).drawerVisible = !s.drawerVisible ∧
    (step env (step env s Event.toggleClick) Event.toggleClick).drawerVisible
      = s.drawerVisible := by
  have hstep : ∀ t : State, step env t Event.toggleClick
      = if t.drawerVisible then hideDrawer env t else showDrawer env true t := by
    intro t
    cases hmeth : env.settings.method with
    | modal => exact absurd hmeth hm
    | drawer => simp only [step, toggleClick, hmeth]
    | flip => simp only [step, toggleClick, hmeth]
  have hhide : ∀ t : State, (hideDrawer env t).drawerVisible = false := by
    intro t
    simp only [hideDrawer, toggleCallback]
    split <;> rfl
  have hshow : ∀ t : State, (showDrawer env true t).drawerVisible = true := by
    intro t
    simp only [showDrawer, toggleCallback]
    split <;> rfl
  have hneg : ∀ t : State, (step env t Event.toggleClick).drawerVisible = !t.drawerVisible := by
    intro t
    rw [hstep t]
    cases hv : t.drawerVisible with
    | true => simpa using hhide t
    | false => simpa using hshow t
  refine ⟨fun hv => by rw [hstep s, hv]; rfl, fun hv => by rw [hstep s, hv]; rfl, hneg s, ?_⟩
  rw [hneg, hneg]
  simp

/-- Witness for C16 on the sample page with the open drawer. -/
theorem toggle_click_flips_visibility_witness :
    (demoOpen.drawerVisible = true →
      step demoEnv demoOpen Event.toggleClick = hideDrawer demoEnv demoOpen) ∧
    (demoOpen.drawerVisible = false →
      step demoEnv demoOpen Event.toggleClick = showDrawer demoEnv true demoOpen) ∧
    (step demoEnv demoOpen Event.toggleClick).drawerVisible = !demoOpen.drawerVisible ∧
    (step demoEnv (step demoEnv demoOpen Event.toggleClick) Event.toggleClick).drawerVisible
      = demoOpen.drawerVisible :=
  toggle_click_flips_visibility demoEnv demoOpen (by decide)

theorem toggleCallback_frame (env : Env) (b : Bool) (s : State) :
    (toggleCallback env b s).calls = s.calls ∧ (toggleCallback env b s).pending = s.pending ∧
    (toggleCallback env b s).timers = s.timers ∧
    (toggleCallback env b s).drawerVisible = s.drawerVisible ∧
    (toggleCallback env b s).drawerHeight = s.drawerHeight ∧
    (toggleCallback env b s).cartContent = s.cartContent ∧
    (toggleCallback env b s).rows = s.rows ∧
    (toggleCallback env b s).isUpdating = s.isUpdating := by
  unfold toggleCallback
  split <;> exact ⟨rfl, rfl, rfl, rfl, rfl, rfl, rfl, rfl⟩

/-- C17 (amended). A click on the toggle button while the drawer is closed opens it.  In
drawer mode the click sends one `getCart` request (callback `cartUpdateCallback`) when the
cart has not been built yet, and once the cart has been built it sends nothing and only
sets the drawer height to the height of the cart container and shows the drawer.  In flip
mode every such click sends one `getCart` request (callback `flipCartUpdateCallback`),
whether or not the cart has been built. -/
theorem toggle_open_requests (env : Env) (s : State) (hclosed : s.drawerVisible = false) :
    (env.settings.method = Method.drawer → s.cartInit = false →
      (step env s Event.toggleClick).calls
        = s.calls ++ [Request.getCart CartCallback.cartUpdateCallback] ∧
      (step env s Event.toggleClick).pending
        = s.pending ++ [Request.getCart CartCallback.cartUpdateCallback] ∧
      (step env s Event.toggleClick).drawerVisible = true) ∧
    (env.settings.method = Method.drawer → s.cartInit = true →
      (step env s Event.toggleClick).calls = s.calls ∧
      (step env s Event.toggleClick).pending = s.pending ∧
      (step env s Event.toggleClick).timers = s.timers ∧
      (step env s Event.toggleClick).cartContent = s.cartContent ∧
      (step env s Event.toggleClick).rows = s.rows ∧
      (step env s Event.toggleClick).drawerHeight = some (env.outerHeight s.cartContent) ∧
      (step env s Event.toggleClick).drawerVisible = true) ∧
    (env.settings.method = Method.flip →
      (step env s Event.toggleClick).calls
        = s.calls ++ [Request.getCart CartCallback.flipCartUpdateCallback] ∧
      (step env s Event.toggleClick).pending
        = s.pending ++ [Request.getCart CartCallback.flipCartUpdateCallback] ∧
      (step env s Event.toggleClick).drawerVisible = true) := by
  refine ⟨?_, ?_, ?_⟩
  · intro hm hinit
    have hs : step env s Event.toggleClick = toggleCallback env true
        { send (Request.getCart CartCallback.cartUpdateCallback) s with
          drawerVisible := true } := by
      simp [step, toggleClick, hm, hclosed, showDrawer, hinit]
    rw [hs]
    obtain ⟨h1, h2, _, h4, _⟩ := toggleCallback_frame env true
      { send (Request.getCart CartCallback.cartUpdateCallback) s with drawerVisible := true }
    exact ⟨h1, h2, h4⟩
  · intro hm hinit
    have hs : step env s Event.toggleClick = toggleCallback env true
        { sizeDrawer env false s with drawerVisible := true } := by
      simp [step, toggleClick, hm, hclosed, showDrawer, hinit]
    rw [hs]
    obtain ⟨h1, h2, h3, h4, h5, h6, h7, _⟩ := toggleCallback_frame env true
      { sizeDrawer env false s with drawerVisible := true }
    exact ⟨h1, h2, h3, h6, h7, h5, h4⟩
  · intro hm
    have hs : step env s Event.toggleClick = toggleCallback env true
        { send (Request.getCart CartCallback.flipCartUpdateCallback) s with
          drawerVisible := true } := by
      simp [step, toggleClick, hm, hclosed, showDrawer]
    rw [hs]
    obtain ⟨h1, h2, _, h4, _⟩ := toggleCallback_frame env true
      { send (Request.getCart CartCallback.flipCartUpdateCallback) s with
        drawerVisible := true }
    exact ⟨h1, h2, h4⟩

/-- Witness for C17: the first toggle click of the drawer page fetches the cart, and a
toggle click on the closed drawer of the rendered cart sends nothing and sizes the drawer
to the 40 pixels of its one child. -/
theorem toggle_open_requests_witness :
    (step demoEnv (initialState []) Event.toggleClick).calls
      = [Request.getCart CartCallback.cartUpdateCallback] ∧
    (step demoEnv (step demoEnv demoOpen Event.toggleClick) Event.toggleClick).calls
      = demoOpen.calls ∧
    (step demoEnv (step demoEnv demoOpen Event.toggleClick) Event.toggleClick).drawerHeight
      = some 40 :=
  ⟨((toggle_open_requests demoEnv (initialState []) (by decide)).1 (by decide) (by decide)).1,
    ((toggle_open_requests demoEnv (step demoEnv demoOpen Event.toggleClick)
      (by decide)).2.1 (by decide) (by decide)).1,
    ((toggle_open_requests demoEnv (step demoEnv demoOpen Event.toggleClick)
      (by decide)).2.1 (by decide) (by decide)).2.2.2.2.2.1⟩

/-- Counterexample to C17 as stated: in flip mode, with the cart built and the drawer
closed, a toggle click sends another `getCart` request. -/
theorem toggle_open_requests_counterexample :
    demoFlipEnv.settings.method = Method.flip ∧
    demoFlipClosed.cartInit = true ∧ demoFlipClosed.drawerVisible = false ∧
    demoFlipClosed.calls = [Request.getCart CartCallback.flipCartUpdateCallback] ∧
    (step demoFlipEnv demoFlipClosed Event.toggleClick).calls
      = [Request.getCart CartCallback.flipCartUpdateCallback,
          Request.getCart CartCallback.flipCartUpdateCallback] ∧
    (step demoFlipEnv demoFlipClosed Event.toggleClick).pending
      = [Request.getCart CartCallback.flipCartUpdateCallback] := by
  decide

/-! ## Stepper clicks -/

theorem updateQuantity_values (env : Env) (line : Nat) (qty : JSValue) (s : State) :
    (updateQuantity env line qty s).rows.map Row.value = s.rows.map Row.value := by
  unfold updateQuantity
  simp only [List.map_map]
  apply List.map_congr_left
  intro r _
  simp only [Function.comp]
  repeat' split
  all_goals rfl

/-- C18 (amended). A click on a cart stepper that has a line identity, with the
synchronizer idle, runs `updateQuantity` with that line and the new quantity: the busy flag
is set, the text of every quantity field stays as it was (the handler does not write the
field), and when the timer of `updateQuantity` fires, `Shopify.changeItem` is called with
that line and that quantity. -/
theorem line_click_invokes_change_path (env : Env) (s : State) (i : Nat) (add : Bool)
    (r : Row) (line : Nat)
    (hidle : s.isUpdating = false) (hrow : s.rows.get? i = some r)
    (hline : truthyLine r.line = some line) :
    step env s (Event.qtyAdjustClick i add)
      = updateQuantity env line (cartStepperQty r.value add) s ∧
    (step env s (Event.qtyAdjustClick i add)).isUpdating = true ∧
    (step env s (Event.qtyAdjustClick i add)).rows.map Row.value = s.rows.map Row.value ∧
    (step env s (Event.qtyAdjustClick i add)).timers
      = s.timers ++ [Timer.changeItem line (cartStepperQty r.value add)] ∧
    (step env (step env s (Event.qtyAdjustClick i add)) (Event.timerFires s.timers.length)).calls
      = s.calls ++ [Request.changeItem line (cartStepperQty r.value add)] := by
  have hs : step env s (Event.qtyAdjustClick i add)
      = updateQuantity env line (cartStepperQty r.value add) s := by
    rw [List.get?_eq_getElem?] at hrow
    simp [step, qtyAdjustClick, hidle, hrow, hline]
  refine ⟨hs, ?_, ?_, ?_, ?_⟩
  · rw [hs]
    rfl
  · rw [hs]
    exact updateQuantity_values env line _ s
  · rw [hs]
    rfl
  · rw [hs]
    have ht : (updateQuantity env line (cartStepperQty r.value add) s).timers
        = s.timers ++ [Timer.changeItem line (cartStepperQty r.value add)] := rfl
    simp only [step, ht]
    have hget : (s.timers ++ [Timer.changeItem line (cartStepperQty r.value add)]).get?
        s.timers.length = some (Timer.changeItem line (cartStepperQty r.value add)) := by
      simp
    rw [hget]
    simp only [fireTimer, send]
    rfl

/-- Witness for C18 on the sample page: the increment control of line 1, whose field
holds 2. -/
theorem line_click_invokes_change_path_witness :
    step demoEnv demoOpen (Event.qtyAdjustClick 0 true)
      = updateQuantity demoEnv 1 (jsInt 3) demoOpen ∧
    (step demoEnv (step demoEnv demoOpen (Event.qtyAdjustClick 0 true))
        (Event.timerFires 0)).calls
      = demoOpen.calls ++ [Request.changeItem 1 (jsInt 3)] :=
  ⟨(line_click_invokes_change_path demoEnv demoOpen 0 true
      { kind := RowKind.ajaxifyRow, line := some 1, value := "2".data, isLoading := false,
        isRemoved := false } 1 (by decide) (by decide) (by decide)).1,
    (line_click_invokes_change_path demoEnv demoOpen 0 true
      { kind := RowKind.ajaxifyRow, line := some 1, value := "2".data, isLoading := false,
        isRemoved := false } 1 (by decide) (by decide) (by decide)).2.2.2.2⟩

/-- Counterexample to C18 as stated: on the sample page the field of line 1 holds 2; after
the click on its increment control the new quantity 3 is on its way to `changeItem`, but
the field still holds 2. -/
theorem line_click_counterexample :
    demoOpen.isUpdating = false ∧
    demoOpen.rows.map (fun r => (r.line, r.value)) = [(some 1, "2".data)] ∧
    (step demoEnv demoOpen (Event.qtyAdjustClick 0 true)).timers
      = [Timer.changeItem 1 (jsInt 3)] ∧
    (step demoEnv demoOpen (Event.qtyAdjustClick 0 true)).rows.map (fun r => (r.line, r.value))
      = [(some 1, "2".data)] ∧
    "2".data ≠ (jsInt 3).toStr := by
  decide

theorem parseIntChars_shape (cs : List Char) :
    parseIntChars cs = JSNum.nan ∨ ∃ z : Int, parseIntChars cs = JSNum.ofInt z := by
  have aux : ∀ (b : Bool) (z : Int),
      (if b then JSNum.nan else JSNum.fin z 0) = JSNum.nan ∨
        ∃ y : Int, (if b then JSNum.nan else JSNum.fin z 0) = JSNum.ofInt y := by
    intro b z
    cases b
    · exact Or.inr ⟨z, rfl⟩
    · exact Or.inl rfl
  unfold parseIntChars
  exact aux _ _

theorem validateQty_nan : validateQty (JSValue.num JSNum.nan) = jsInt 1 := by
  decide

theorem validateQty_shape (v : JSValue) : validateQty v = v ∨ validateQty v = jsInt 1 := by
  unfold validateQty
  split
  · exact Or.inl rfl
  · exact Or.inr rfl

theorem jsAdd_int (a b : Int) : jsAdd (jsInt a) (jsInt b) = jsInt (a + b) := by
  simp [jsAdd, jsInt, JSNum.ofInt, JSValue.toNumber, JSNum.add]

theorem jsSub_int (a b : Int) : jsSub (jsInt a) (jsInt b) = jsInt (a - b) := by
  simp [jsSub, jsInt, JSNum.ofInt, JSValue.toNumber, JSNum.sub, JSNum.add, JSNum.neg]
  omega

theorem jsLeNum_int (a b : Int) : jsLeNum (jsInt a) (JSNum.ofInt b) = decide (a ≤ b) := by
  simp [jsLeNum, jsInt, JSNum.ofInt, JSValue.toNumber, JSNum.le]

/-- The quantity that a stepper computes from a validated integer `q` and a minimum. -/
theorem stepper_from_int (q qtyMin : Int) (add : Bool) :
    (if add then jsAdd (jsInt q) (jsInt 1)
      else if jsLeNum (jsInt q) (JSNum.ofInt qtyMin) then jsInt qtyMin
      else jsSub (jsInt q) (jsInt 1))
      = jsInt (if add then q + 1 else max (q - 1) qtyMin) := by
  cases add with
  | true => simp [jsAdd_int]
  | false =>
    simp only [Bool.false_eq_true, if_false, jsLeNum_int, decide_eq_true_eq, jsSub_int]
    split
    · congr 1
      omega
    · congr 1
      omega

/-- What the validated quantity of a stepper is: the integer read from the field, or 1. -/
theorem validated_field (text : List Char) :
    validateQty (JSValue.num (parseInt (JSValue.str text))) = jsInt 1 ∨
    ∃ q : Int, parseIntChars text = JSNum.ofInt q ∧
      validateQty (JSValue.num (parseInt (JSValue.str text))) = jsInt q := by
  have hp : parseInt (JSValue.str text) = parseIntChars text := rfl
  rw [hp]
  rcases parseIntChars_shape text with h | ⟨z, h⟩
  · rw [h]
    exact Or.inl validateQty_nan
  · rw [h]
    rcases validateQty_shape (JSValue.num (JSNum.ofInt z)) with hv | hv
    · exact Or.inr ⟨z, rfl, hv⟩
    · exact Or.inl hv

theorem standaloneStepperQty_shape (text : List Char) (add : Bool) (qtyMin : Int)
    (hmin : 0 ≤ qtyMin) :
    ∃ z : Int, standaloneStepperQty text add qtyMin = jsInt z ∧
      (add = false → 0 ≤ z) ∧
      ((∀ q : Int, parseIntChars text = JSNum.ofInt q → -1 ≤ q) → 0 ≤ z) := by
  unfold standaloneStepperQty
  dsimp only
  rcases validated_field text with hv | ⟨q, hq, hv⟩
  · rw [hv, stepper_from_int]
    refine ⟨_, rfl, ?_, ?_⟩
    · intro ha
      simp [ha, hmin]
    · intro _
      cases add <;> simp [hmin]
  · rw [hv, stepper_from_int]
    refine ⟨_, rfl, ?_, ?_⟩
    · intro ha
      simp [ha, hmin]
    · intro h
      have := h q hq
      cases add
      · simp [hmin]
      · simp only [if_true]
        omega

theorem cartStepperQty_eq_standalone (text : List Char) (add : Bool) :
    cartStepperQty text add = standaloneStepperQty text add 0 := rfl

theorem effective_qtyMin_nonneg (env : Env) (fields : List (List Char)) (es : List Event) :
    0 ≤ (if env.templateProduct then (1 : Int)
      else (runEvents env (initialState fields) es).qtyMin) := by
  cases h : env.templateProduct with
  | true => simp
  | false =>
    have := qtyMin_runEvents env es (initialState fields) (fun _ => rfl) h
    simp [this]

/-! ## The add-to-cart form and the busy flag -/

theorem formSubmit_frame (env : Env) (s : State) :
    (step env s Event.formSubmit).isUpdating = s.isUpdating ∧
    (step env s Event.formSubmit).rows = s.rows ∧
    (step env s Event.formSubmit).timers = s.timers ∧
    (step env s Event.formSubmit).isAdding = true ∧
    (step env s Event.formSubmit).qtyErrors = [] ∧
    (step env s Event.formSubmit).calls = s.calls ++ [Request.addItemFromForm] ∧
    (step env s Event.formSubmit).pending = s.pending ++ [Request.addItemFromForm] := by
  simp only [step, formSubmit, send]
  cases env.settings.method <;> exact ⟨rfl, rfl, rfl, rfl, rfl, rfl, rfl⟩

/-- Counterexample to C24 as stated: on the sample page the flag is false after the submit
handler has run; a second submit puts a second add request in flight, and a stepper click
in that window is not ignored but queues the change of line 1 to quantity 3. -/
theorem submit_counterexample :
    (step demoEnv demoOpen Event.formSubmit).isUpdating = false ∧
    (step demoEnv demoOpen Event.formSubmit).pending = [Request.addItemFromForm] ∧
    (runEvents demoEnv demoOpen [Event.formSubmit, Event.formSubmit]).pending
      = [Request.addItemFromForm, Request.addItemFromForm] ∧
    (runEvents demoEnv demoOpen [Event.formSubmit, Event.qtyAdjustClick 0 true]).timers
      = [Timer.changeItem 1 (jsInt 3)] := by
  decide

theorem isUpdating_outcome_updateCountPrice (env : Env) (cart : Cart) (s : State) :
    (outcome (updateCountPrice env cart s)).isUpdating = s.isUpdating := by
  unfold updateCountPrice
  dsimp only
  split <;> rfl

theorem isUpdating_outcome_buildCart (env : Env) (cart : Cart) (s : State) :
    (outcome (buildCart env cart s)).isUpdating = s.isUpdating := by
  unfold buildCart
  dsimp only
  repeat' split
  all_goals simp only [outcome, sizeModal, sizeDrawer, toggleCallback, cartTemplate,
    loadCartImages, send]
  all_goals (repeat' split)
  all_goals rfl

theorem isUpdating_outcome_cartUpdateCallback (env : Env) (cart : Cart) (s : State) :
    (outcome (cartUpdateCallback env cart s)).isUpdating = s.isUpdating := by
  have h1 := isUpdating_outcome_updateCountPrice env cart s
  unfold cartUpdateCallback
  cases hu : updateCountPrice env cart s with
  | error s1 => simpa [outcome, hu] using h1
  | ok s1 =>
    have h1' : s1.isUpdating = s.isUpdating := by simpa [outcome, hu] using h1
    have h2 := isUpdating_outcome_buildCart env cart s1
    dsimp only
    cases hm : env.settings.method with
    | flip => exact h1'
    | modal => simpa [h1'] using h2
    | drawer =>
      cases hb : buildCart env cart s1 with
      | error s2 => simpa [outcome, hb, h1'] using h2
      | ok s2 =>
        have h2' : s2.isUpdating = s.isUpdating := by simpa [outcome, hb, h1'] using h2
        simp only [outcome, showDrawer, hm, toggleCallback, sizeDrawer, send]
        repeat' split
        all_goals exact h2'

theorem isUpdating_outcome_adjustCartCallback (env : Env) (cart : Cart) (s : State) :
    (outcome (adjustCartCallback env cart s)).isUpdating = s.isUpdating := by
  have h1 := isUpdating_outcome_updateCountPrice env cart s
  unfold adjustCartCallback
  cases hu : updateCountPrice env cart s with
  | error s1 => simpa [outcome, hu] using h1
  | ok s1 =>
    have h1' : s1.isUpdating = s.isUpdating := by simpa [outcome, hu] using h1
    simp only [outcome, hideDrawer, toggleCallback]
    repeat' split
    all_goals exact h1'

theorem isUpdating_deliver (env : Env) (req : Request) (r : Response) (s : State) :
    (deliver env req r s).isUpdating = s.isUpdating := by
  unfold deliver
  split
  · exact isUpdating_outcome_cartUpdateCallback env _ s
  · exact isUpdating_outcome_buildCart env _ s
  · exact isUpdating_outcome_buildCart env _ s
  · exact isUpdating_outcome_adjustCartCallback env _ s
  · unfold onError
    repeat' split
    all_goals rfl
  · simp only [itemAddedCallback, send]
    repeat' split
    all_goals rfl
  · simp only [itemErrorCallback]
    repeat' split
    all_goals rfl
  · unfold onError
    repeat' split
    all_goals rfl
  · simp only [cartLoaded, loadCartImages, sizeDrawer]
    repeat' split
    all_goals rfl
  · rfl

theorem busy_step (env : Env) (s : State) (e : Event) (h : s.isUpdating = true)
    (hw : firesSettle s e = false) : (step env s e).isUpdating = true := by
  cases e with
  | qtyAdjustClick i add => simp [step, qtyAdjustClick, h]
  | qtyInputChange i text =>
    simp only [step, qtyInputChange]
    split
    · exact h
    · simp [h]
  | removeClick i =>
    simp only [step, removeClick]
    repeat' split
    all_goals first | exact h | rfl
  | jsQtyAdjusterClick i add =>
    simp only [step, jsQtyAdjusterClick]
    split <;> exact h
  | formSubmit => rw [(formSubmit_frame env s).1, h]
  | toggleClick =>
    simp only [step, toggleClick, hideModal, showModal, hideDrawer, showDrawer, sizeModal,
      sizeDrawer, toggleCallback, send]
    repeat' split
    all_goals exact h
  | flipCartClick =>
    simp only [step, showDrawer, sizeDrawer, toggleCallback, send]
    repeat' split
    all_goals exact h
  | escapeKey =>
    simp only [step, escapeKey, hideModal, hideDrawer, toggleCallback]
    repeat' split
    all_goals exact h
  | noteChange note => exact h
  | imagesLoaded =>
    simp only [step, imagesLoaded, sizeModal, sizeDrawer, toggleCallback]
    repeat' split
    all_goals exact h
  | timerFires k =>
    simp only [step]
    cases ht : s.timers.get? k with
    | none => exact h
    | some t =>
      cases t with
      | changeItem line qty => exact h
      | settle =>
        simp only [firesSettle, ht] at hw
        exact absurd hw (by decide)
      | flip => exact h
  | response k r =>
    simp only [step]
    cases hp : s.pending.get? k with
    | none => exact h
    | some req =>
      simp only []
      rw [isUpdating_deliver]
      exact h

theorem busy_runEvents (env : Env) : ∀ (es : List Event) (s : State),
    s.isUpdating = true → settleFreeTrace env s es = true →
      (runEvents env s es).isUpdating = true := by
  intro es
  induction es with
  | nil => intro s h _; exact h
  | cons e es ih =>
    intro s h hw
    simp only [settleFreeTrace, Bool.and_eq_true, Bool.not_eq_true'] at hw
    exact ih (step env s e) (busy_step env s e h hw.1) hw.2

theorem adjustCartCallback_timers (env : Env) (cart : Cart) (s : State)
    (hfmt : env.moneyFormatOk = true) :
    (outcome (adjustCartCallback env cart s)).timers = s.timers ++ [Timer.settle] := by
  obtain ⟨total, htotal⟩ := formatMoney_isSome env hfmt (jsInt cart.total_price)
  unfold adjustCartCallback updateCountPrice
  simp only [htotal, outcome, hideDrawer, toggleCallback]
  repeat' split
  all_goals rfl

/-- C25. With a money format that has a placeholder, for every cart and every mode: after
the answer to a `changeItem` request of a busy page has been handled the flag is still
true and one settle timer has been added; the flag stays true through all events in which
no settle timer fires; and when a settle timer fires, the flag becomes false and exactly
one request is sent, a `getCart` whose answer is handed to `buildCart`. -/
theorem settle_returns_to_idle (env : Env) (s : State) (k line : Nat) (qty : JSValue)
    (c : Cart) (mid : List Event) (j : Nat)
    (hfmt : env.moneyFormatOk = true) (hbusy : s.isUpdating = true)
    (hreq : s.pending.get? k = some (Request.changeItem line qty))
    (hmid : settleFreeTrace env (step env s (Event.response k (Response.cart c))) mid = true)
    (hj : (runEvents env (step env s (Event.response k (Response.cart c))) mid).timers.get? j
      = some Timer.settle) :
    (step env s (Event.response k (Response.cart c))).isUpdating = true ∧
    (step env s (Event.response k (Response.cart c))).timers = s.timers ++ [Timer.settle] ∧
    (runEvents env (step env s (Event.response k (Response.cart c))) mid).isUpdating = true ∧
    (step env (runEvents env (step env s (Event.response k (Response.cart c))) mid)
      (Event.timerFires j)).isUpdating = false ∧
    (step env (runEvents env (step env s (Event.response k (Response.cart c))) mid)
      (Event.timerFires j)).calls
      = (runEvents env (step env s (Event.response k (Response.cart c))) mid).calls
        ++ [Request.getCart CartCallback.buildCart] ∧
    (step env (runEvents env (step env s (Event.response k (Response.cart c))) mid)
      (Event.timerFires j)).pending
      = (runEvents env (step env s (Event.response k (Response.cart c))) mid).pending
        ++ [Request.getCart CartCallback.buildCart] ∧
    ∀ (c2 : Cart) (u : State),
      deliver env (Request.getCart CartCallback.buildCart) (Response.cart c2) u
        = outcome (buildCart env c2 u) := by
  have hs : step env s (Event.response k (Response.cart c))
      = outcome (adjustCartCallback env c { s with pending := s.pending.eraseIdx k }) := by
    simp only [step, hreq, deliver]
  have h1 : (step env s (Event.response k (Response.cart c))).isUpdating = true := by
    rw [hs, isUpdating_outcome_adjustCartCallback]
    exact hbusy
  have h2 : (step env s (Event.response k (Response.cart c))).timers
      = s.timers ++ [Timer.settle] := by
    rw [hs, adjustCartCallback_timers env c _ hfmt]
  have h3 := busy_runEvents env mid _ h1 hmid
  refine ⟨h1, h2, h3, ?_, ?_, ?_, fun c2 u => rfl⟩
  all_goals
    generalize runEvents env (step env s (Event.response k (Response.cart c))) mid = t at hj h3 ⊢
    simp only [step, hj, fireTimer, send]

/-- Witness for C25 on the sample page: the change of line 1 to quantity 3 is answered
with a key press between the answer and the settle timer. -/
theorem settle_returns_to_idle_witness :
    (step demoEnv
      (runEvents demoEnv demoOpen [Event.qtyAdjustClick 0 true, Event.timerFires 0])
      (Event.response 0 (Response.cart demoCart))).isUpdating = true ∧
    (step demoEnv
      (runEvents demoEnv
        (step demoEnv
          (runEvents demoEnv demoOpen [Event.qtyAdjustClick 0 true, Event.timerFires 0])
          (Event.response 0 (Response.cart demoCart)))
        [Event.escapeKey])
      (Event.timerFires 0)).isUpdating = false ∧
    (step demoEnv
      (runEvents demoEnv
        (step demoEnv
          (runEvents demoEnv demoOpen [Event.qtyAdjustClick 0 true, Event.timerFires 0])
          (Event.response 0 (Response.cart demoCart)))
        [Event.escapeKey])
      (Event.timerFires 0)).pending = [Request.getCart CartCallback.buildCart] :=
  ⟨(settle_returns_to_idle demoEnv
      (runEvents demoEnv demoOpen [Event.qtyAdjustClick 0 true, Event.timerFires 0])
      0 1 (jsInt 3) demoCart [Event.escapeKey] 0
      (by decide) (by decide) (by decide) (by decide) (by decide)).1,
    (settle_returns_to_idle demoEnv
      (runEvents demoEnv demoOpen [Event.qtyAdjustClick 0 true, Event.timerFires 0])
      0 1 (jsInt 3) demoCart [Event.escapeKey] 0
      (by decide) (by decide) (by decide) (by decide) (by decide)).2.2.2.1,
    (settle_returns_to_idle demoEnv
      (runEvents demoEnv demoOpen [Event.qtyAdjustClick 0 true, Event.timerFires 0])
      0 1 (jsInt 3) demoCart [Event.escapeKey] 0
      (by decide) (by decide) (by decide) (by decide) (by decide)).2.2.2.2.2.1⟩

/-! ## Error blocks of the add-to-cart form -/

theorem errInv_of (s t : State) (h : ErrorBlockInv s) (hq : t.qtyErrors = s.qtyErrors)
    (hp : addPending t = addPending s) : ErrorBlockInv t := by
  unfold ErrorBlockInv at *
  rw [hq, hp]
  exact h

theorem addPending_send (r : Request) (s : State) (hr : r.isAdd = false) :
    addPending (send r s) = addPending s := by
  simp [addPending, send, List.filter_append, hr]

theorem errFrame_updateCountPrice (env : Env) (cart : Cart) (s : State) :
    (outcome (updateCountPrice env cart s)).qtyErrors = s.qtyErrors ∧
    addPending (outcome (updateCountPrice env cart s)) = addPending s := by
  unfold updateCountPrice
  dsimp only
  split <;> exact ⟨rfl, rfl⟩

theorem errFrame_buildCart (env : Env) (cart : Cart) (s : State) :
    (outcome (buildCart env cart s)).qtyErrors = s.qtyErrors ∧
    addPending (outcome (buildCart env cart s)) = addPending s := by
  unfold buildCart
  dsimp only
  repeat' split
  all_goals simp [outcome, sizeModal, sizeDrawer, toggleCallback, cartTemplate,
    loadCartImages, addPending, send, List.filter_append, Request.isAdd]
  all_goals (repeat' split)
  all_goals simp_all

theorem errFrame_cartUpdateCallback (env : Env) (cart : Cart) (s : State) :
    (outcome (cartUpdateCallback env cart s)).qtyErrors = s.qtyErrors ∧
    addPending (outcome (cartUpdateCallback env cart s)) = addPending s := by
  have h1 := errFrame_updateCountPrice env cart s
  unfold cartUpdateCallback
  cases hu : updateCountPrice env cart s with
  | error s1 => simpa [outcome, hu] using h1
  | ok s1 =>
    have h1' : s1.qtyErrors = s.qtyErrors ∧ addPending s1 = addPending s := by
      simpa [outcome, hu] using h1
    have h2 := errFrame_buildCart env cart s1
    dsimp only
    cases hm : env.settings.method with
    | flip => exact h1'
    | modal => exact ⟨h2.1.trans h1'.1, h2.2.trans h1'.2⟩
    | drawer =>
      cases hb : buildCart env cart s1 with
      | error s2 =>
        rw [hb] at h2
        exact ⟨h2.1.trans h1'.1, h2.2.trans h1'.2⟩
      | ok s2 =>
        rw [hb] at h2
        have h2' : s2.qtyErrors = s.qtyErrors ∧ addPending s2 = addPending s :=
          ⟨h2.1.trans h1'.1, h2.2.trans h1'.2⟩
        unfold addPending at *
        simp only [outcome]
        split
        · simp [showDrawer, hm, toggleCallback]
          repeat' split
          all_goals simp_all [send, sizeDrawer, List.filter_append, Request.isAdd]
        · exact h2'

theorem errFrame_adjustCartCallback (env : Env) (cart : Cart) (s : State) :
    (outcome (adjustCartCallback env cart s)).qtyErrors = s.qtyErrors ∧
    addPending (outcome (adjustCartCallback env cart s)) = addPending s := by
  have h1 := errFrame_updateCountPrice env cart s
  unfold adjustCartCallback
  cases hu : updateCountPrice env cart s with
  | error s1 => simpa [outcome, hu] using h1
  | ok s1 =>
    have h1' : s1.qtyErrors = s.qtyErrors ∧ addPending s1 = addPending s := by
      simpa [outcome, hu] using h1
    simp only [outcome, hideDrawer, toggleCallback]
    repeat' split
    all_goals exact h1'

theorem errFrame_deliver (env : Env) (req : Request) (r : Response) (s : State)
    (hreq : req.isAdd = false) :
    (deliver env req r s).qtyErrors = s.qtyErrors ∧
    addPending (deliver env req r s) = addPending s := by
  unfold deliver
  split
  · exact errFrame_cartUpdateCallback env _ s
  · exact errFrame_buildCart env _ s
  · exact errFrame_buildCart env _ s
  · exact errFrame_adjustCartCallback env _ s
  · unfold onError
    repeat' split
    all_goals exact ⟨rfl, rfl⟩
  · exact absurd hreq (by decide)
  · exact absurd hreq (by decide)
  · unfold onError
    repeat' split
    all_goals exact ⟨rfl, rfl⟩
  · simp only [cartLoaded, loadCartImages, sizeDrawer]
    repeat' split
    all_goals exact ⟨rfl, rfl⟩
  · exact ⟨rfl, rfl⟩

theorem errGrow_deliver_add (env : Env) (r : Response) (s : State) :
    (deliver env Request.addItemFromForm r s).qtyErrors.length ≤ s.qtyErrors.length + 1 ∧
    addPending (deliver env Request.addItemFromForm r s) = addPending s := by
  cases r with
  | cart c => exact ⟨Nat.le_succ _, rfl⟩
  | lineItem =>
    simp only [deliver, itemAddedCallback]
    cases env.settings.method <;>
      simp [addPending, send, List.filter_append, Request.isAdd]
  | fragment rows => exact ⟨Nat.le_succ _, rfl⟩
  | error xhr =>
    simp only [deliver, itemErrorCallback]
    cases env.settings.method <;> cases xhr <;> simp [addPending] <;> split <;> simp

theorem errInv_step (env : Env) (s : State) (e : Event) (h : ErrorBlockInv s)
    (hw : e = Event.formSubmit → addPending s = 0) : ErrorBlockInv (step env s e) := by
  cases e with
  | qtyAdjustClick i add =>
    simp only [step, qtyAdjustClick, updateQuantity]
    repeat' split
    all_goals exact errInv_of s _ h rfl rfl
  | qtyInputChange i text =>
    simp only [step, qtyInputChange, updateQuantity]
    repeat' split
    all_goals exact errInv_of s _ h rfl rfl
  | removeClick i =>
    simp only [step, removeClick, updateQuantity]
    repeat' split
    all_goals exact errInv_of s _ h rfl rfl
  | jsQtyAdjusterClick i add =>
    simp only [step, jsQtyAdjusterClick]
    repeat' split
    all_goals exact errInv_of s _ h rfl rfl
  | formSubmit =>
    have h0 := hw rfl
    obtain ⟨_, _, _, _, hq, _, hp⟩ := formSubmit_frame env s
    unfold ErrorBlockInv addPending at *
    rw [hq, hp]
    simp [List.filter_append, Request.isAdd, h0]
  | toggleClick =>
    unfold ErrorBlockInv addPending at *
    simp only [step, toggleClick]
    repeat' split
    all_goals try simp [hideModal, showModal, hideDrawer, showDrawer, sizeModal, sizeDrawer,
      toggleCallback, send]
    all_goals (repeat' split)
    all_goals simp_all [List.filter_append, Request.isAdd]
  | flipCartClick =>
    unfold ErrorBlockInv addPending at *
    simp only [step]
    repeat' split
    all_goals try simp [showDrawer, sizeDrawer, toggleCallback, send]
    all_goals (repeat' split)
    all_goals simp_all [List.filter_append, Request.isAdd]
  | escapeKey =>
    simp only [step, escapeKey, hideModal, hideDrawer, toggleCallback]
    repeat' split
    all_goals exact errInv_of s _ h rfl rfl
  | noteChange note => exact errInv_of s _ h rfl (addPending_send _ s rfl)
  | imagesLoaded =>
    simp only [step, imagesLoaded, sizeModal, sizeDrawer, toggleCallback]
    repeat' split
    all_goals exact errInv_of s _ h rfl rfl
  | timerFires k =>
    simp only [step]
    cases ht : s.timers.get? k with
    | none => exact h
    | some t =>
      cases t with
      | changeItem line qty =>
        exact errInv_of s _ h rfl (addPending_send _ _ rfl)
      | settle => exact errInv_of s _ h rfl (addPending_send _ _ rfl)
      | flip => exact errInv_of s _ h rfl rfl
  | response k r =>
    simp only [step]
    cases hp : s.pending.get? k with
    | none => exact h
    | some req =>
      have hcount := length_filter_eraseIdx Request.isAdd s.pending k req hp
      have hc : addPending s
          = addPending { s with pending := s.pending.eraseIdx k }
            + (if req.isAdd then 1 else 0) := hcount
      simp only []
      cases hadd : req.isAdd with
      | false =>
        obtain ⟨hq, hpd⟩ := errFrame_deliver env req r
          { s with pending := s.pending.eraseIdx k } hadd
        rw [hadd] at hc
        apply errInv_of s _ h
        · rw [hq]
        · rw [hpd, hc]
          simp
      | true =>
        have hreq : req = Request.addItemFromForm := by
          cases req <;> first | rfl | exact absurd hadd (by simp [Request.isAdd])
        subst hreq
        obtain ⟨hq, hpd⟩ := errGrow_deliver_add env r
          { s with pending := s.pending.eraseIdx k }
        rw [hadd] at hc
        unfold ErrorBlockInv at *
        rw [hpd]
        have hq' : (deliver env Request.addItemFromForm r
            { s with pending := s.pending.eraseIdx k }).qtyErrors.length
            ≤ s.qtyErrors.length + 1 := hq
        simp only [if_true] at hc
        omega

theorem errInv_runEvents (env : Env) : ∀ (es : List Event) (s : State),
    ErrorBlockInv s → submitsApart env s es = true → ErrorBlockInv (runEvents env s es) := by
  intro es
  induction es with
  | nil => intro s h _; exact h
  | cons e es ih =>
    intro s h hw
    simp only [submitsApart, Bool.and_eq_true] at hw
    refine ih (step env s e) (errInv_step env s e h ?_) hw.2
    intro he
    simpa [he] using hw.1

/-- C22 (amended). From the loaded page, after every sequence of events in which the form
is only submitted while no earlier add request is waiting for its answer, at most one
error block is present.  The submit handler removes every block; the error callback, run
on a validation error (truthy message, status 422) of an add request, appends one block
and removes none. -/
theorem error_blocks_at_most_one (env : Env) (fields : List (List Char)) (es : List Event)
    (hes : submitsApart env (initialState fields) es = true) :
    (runEvents env (initialState fields) es).qtyErrors.length ≤ 1 ∧
    (∀ s : State, (step env s Event.formSubmit).qtyErrors = []) ∧
    (∀ (s : State) (k : Nat) (data : ErrorData),
      s.pending.get? k = some Request.addItemFromForm → data.message.truthy = true →
      jsLooseEqNum data.status (JSNum.ofInt 422) = true →
      (step env s (Event.response k (Response.error (some data)))).qtyErrors
        = s.qtyErrors ++ [data.description.toStr]) := by
  refine ⟨?_, fun s => (formSubmit_frame env s).2.2.2.2.1, ?_⟩
  · have h0 : ErrorBlockInv (initialState fields) := by
      unfold ErrorBlockInv addPending initialState
      simp
    have h := errInv_runEvents env es (initialState fields) h0 hes
    unfold ErrorBlockInv at h
    omega
  · intro s k data hreq hm hst
    simp only [step, hreq, deliver, itemErrorCallback]
    cases env.settings.method <;> simp [hm, hst]

/-- Witness for C22 on the sample page: a rejected add, then a second rejected add. -/
theorem error_blocks_at_most_one_witness :
    (runEvents demoEnv (initialState ["1".data])
      [Event.formSubmit, Event.response 0 (Response.error (some demoError)),
        Event.formSubmit, Event.response 0 (Response.error (some demoError))]).qtyErrors.length
      ≤ 1 :=
  (error_blocks_at_most_one demoEnv ["1".data]
    [Event.formSubmit, Event.response 0 (Response.error (some demoError)),
      Event.formSubmit, Event.response 0 (Response.error (some demoError))] (by decide)).1

/-- Counterexample to C22 as stated: two submits in a row, both answered with the
validation error, leave two error blocks next to the form. -/
theorem error_blocks_counterexample :
    demoTwoErrors.qtyErrors
      = ["All 1 Shirt are in your cart.".data, "All 1 Shirt are in your cart.".data] ∧
    ¬ (demoTwoErrors.qtyErrors.length ≤ 1) := by
  decide

/-! ## Error routes of the cart functions -/

theorem getCart_error_dropped (env : Env) (cb : CartCallback) (xhr : Option ErrorData)
    (s : State) : deliver env (Request.getCart cb) (Response.error xhr) s = s := by
  cases cb <;> rfl

/-- C21, evaluated on the sample page: `getCart` has no error route.  When the cart fetch
that follows a change fails, the request is gone and nothing else has happened, no alert
and no error block, whereas the same failure of a `changeItem` request raises the alert of
`Shopify.onError`. -/
theorem getCart_failure_reaches_no_handler :
    errorRoute ClientCall.getCart = ErrorRoute.nowhere ∧
    errorRoute ClientCall.changeItem = ErrorRoute.onError ∧
    errorRoute (ClientCall.addItemFromForm true) = ErrorRoute.errorCallback ∧
    demoRefetch.pending = [Request.getCart CartCallback.buildCart] ∧
    step demoEnv demoRefetch (Event.response 0 (Response.error (some demoError)))
      = { demoRefetch with pending := [] } ∧
    (step demoEnv demoRefetch (Event.response 0 (Response.error (some demoError)))).alerts
      = [] ∧
    demoAfterError.alerts
      = [Alert.message "Cart Error(422): All 1 Shirt are in your cart.".data] := by
  decide

/-! ## The comma-separator placeholders -/

theorem swapSeparators_append (a b : List Char) :
    swapSeparators (a ++ b) = swapSeparators a ++ swapSeparators b := by
  simp [swapSeparators]

theorem swapSeparators_plain (l : List Char) (h : ∀ c ∈ l, c ≠ ',' ∧ c ≠ '.') :
    swapSeparators l = l := by
  unfold swapSeparators
  conv_rhs => rw [← List.map_id l]
  apply List.map_congr_left
  intro c hc
  simp [(h c hc).1, (h c hc).2]

theorem swap_groupThousands : ∀ l : List Char, (∀ c ∈ l, c ≠ ',' ∧ c ≠ '.') →
    swapSeparators (groupThousands [','] l) = groupThousands ['.'] l := by
  intro l
  induction l with
  | nil => intro _; rfl
  | cons x xs ih =>
    intro h
    have hx := h x (List.mem_cons_self _ _)
    have hxs : ∀ c ∈ xs, c ≠ ',' ∧ c ≠ '.' := fun c hc => h c (List.mem_cons_of_mem _ hc)
    have ih' := ih hxs
    unfold swapSeparators at ih' ⊢
    simp only [groupThousands]
    split
    · simp [hx.1, hx.2, ih']
    · simp [hx.1, hx.2, ih']

theorem mem_stripTrailingZeros (l : List Char) (c : Char)
    (h : c ∈ stripTrailingZeros l) : c ∈ l := by
  unfold stripTrailingZeros at h
  rw [List.mem_reverse] at h
  exact List.mem_reverse.mp ((List.dropWhile_sublist _).subset h)

theorem natDigits_no_comma (n : Nat) : ∀ c ∈ natDigits n, c ≠ ',' :=
  fun c hc => isDigit_ne c ',' (natDigits_all_digits n c hc) (by decide)

theorem exponentPart_no_comma (e : Int) : ∀ c ∈ JSNum.exponentPart e, c ≠ ',' := by
  intro c hc
  unfold JSNum.exponentPart at hc
  simp only [List.mem_cons] at hc
  rcases hc with rfl | hc | hc
  · decide
  · rw [hc]
    split <;> decide
  · exact natDigits_no_comma _ c hc

theorem renderDigits_no_comma (s : List Char) (n : Int) (hs : ∀ c ∈ s, c ≠ ',') :
    ∀ c ∈ JSNum.renderDigits s n, c ≠ ',' := by
  intro c hc
  unfold JSNum.renderDigits at hc
  dsimp only at hc
  have hdot : ('.' : Char) ≠ ',' := by decide
  have hzero : ('0' : Char) ≠ ',' := by decide
  split at hc
  · rcases List.mem_append.mp hc with h | h
    · exact hs c h
    · rw [(List.mem_replicate.mp h).2]; exact hzero
  · split at hc
    · rcases List.mem_append.mp hc with h | h
      · exact hs c (List.mem_of_mem_take h)
      · rcases List.mem_cons.mp h with h | h
        · rw [h]; exact hdot
        · exact hs c (List.mem_of_mem_drop h)
    · split at hc
      · rcases List.mem_cons.mp hc with h | h
        · rw [h]; exact hzero
        · rcases List.mem_cons.mp h with h | h
          · rw [h]; exact hdot
          · rcases List.mem_append.mp h with h | h
            · rw [(List.mem_replicate.mp h).2]; exact hzero
            · exact hs c h
      · split at hc
        · rcases List.mem_append.mp hc with h | h
          · exact hs c h
          · exact exponentPart_no_comma _ c h
        · rcases List.mem_append.mp hc with h | h
          · exact hs c (List.mem_of_mem_take h)
          · rcases List.mem_cons.mp h with h | h
            · rw [h]; exact hdot
            · rcases List.mem_append.mp h with h | h
              · exact hs c (List.mem_of_mem_drop h)
              · exact exponentPart_no_comma _ c h

theorem toString_no_comma (x : JSNum) : ∀ c ∈ x.toString, c ≠ ',' := by
  intro c hc
  cases x with
  | nan => revert c; decide
  | inf neg => cases neg <;> (revert c; decide)
  | fin m scale =>
    have hpos : ∀ c ∈ JSNum.posToString m.natAbs scale, c ≠ ',' := by
      unfold JSNum.posToString
      apply renderDigits_no_comma
      intro d hd
      exact natDigits_no_comma _ d (mem_stripTrailingZeros _ d hd)
    simp only [JSNum.toString] at hc
    split at hc
    · rw [List.mem_singleton.mp hc]; decide
    · split at hc
      · rcases List.mem_cons.mp hc with h | h
        · rw [h]; decide
        · exact hpos c h
      · exact hpos c hc

theorem toFixed_no_comma (x : JSNum) (f : Nat) : ∀ c ∈ x.toFixed f, c ≠ ',' := by
  intro c hc
  have hdot : ('.' : Char) ≠ ',' := by decide
  have hzero : ('0' : Char) ≠ ',' := by decide
  cases x with
  | nan => exact toString_no_comma JSNum.nan c hc
  | inf neg => exact toString_no_comma (JSNum.inf neg) c hc
  | fin m scale =>
    simp only [JSNum.toFixed] at hc
    split at hc
    · exact toString_no_comma _ c hc
    · have hds : ∀ d ∈ (if f = 0 then natDigits
            ((m.natAbs * 10 ^ f * 2 + 10 ^ scale) / (2 * 10 ^ scale))
          else List.replicate (f + 1 - (natDigits
            ((m.natAbs * 10 ^ f * 2 + 10 ^ scale) / (2 * 10 ^ scale))).length) '0' ++
            natDigits ((m.natAbs * 10 ^ f * 2 + 10 ^ scale) / (2 * 10 ^ scale))),
          d ≠ ',' := by
        intro d hd
        split at hd
        · exact natDigits_no_comma _ d hd
        · rcases List.mem_append.mp hd with h | h
          · rw [(List.mem_replicate.mp h).2]; exact hzero
          · exact natDigits_no_comma _ d h
      generalize (if f = 0 then natDigits
            ((m.natAbs * 10 ^ f * 2 + 10 ^ scale) / (2 * 10 ^ scale))
          else List.replicate (f + 1 - (natDigits
            ((m.natAbs * 10 ^ f * 2 + 10 ^ scale) / (2 * 10 ^ scale))).length) '0' ++
            natDigits ((m.natAbs * 10 ^ f * 2 + 10 ^ scale) / (2 * 10 ^ scale))) = ds
        at hc hds
      have hbody : ∀ d ∈ (if f = 0 then ds
          else ds.take (ds.length - f) ++ '.' :: ds.drop (ds.length - f)), d ≠ ',' := by
        intro d hd
        split at hd
        · exact hds d hd
        · rcases List.mem_append.mp hd with h | h
          · exact hds d (List.mem_of_mem_take h)
          · rcases List.mem_cons.mp h with h | h
            · rw [h]; exact hdot
            · exact hds d (List.mem_of_mem_drop h)
      split at hc
      · rcases List.mem_cons.mp hc with h | h
        · rw [h]; decide
        · exact hbody c h
      · exact hbody c hc

theorem splitDot_parts (cs : List Char) :
    (∀ c ∈ (splitDot cs).1, c ∈ cs ∧ c ≠ '.') ∧
    ∀ p, (splitDot cs).2 = some p → ∀ c ∈ p, c ∈ cs ∧ c ≠ '.' := by
  have hhead : ∀ c ∈ cs.takeWhile (fun c => c != '.'), c ∈ cs ∧ c ≠ '.' := by
    intro c hc
    exact ⟨(List.takeWhile_sublist _).subset hc, by simpa using List.mem_takeWhile_imp hc⟩
  unfold splitDot
  dsimp only
  cases hd : cs.dropWhile (fun c => c != '.') with
  | nil =>
    refine ⟨hhead, ?_⟩
    intro p hp
    simp at hp
  | cons d rest =>
    refine ⟨hhead, ?_⟩
    intro p hp
    simp only [Option.some.injEq] at hp
    subst hp
    intro c hc
    refine ⟨?_, by simpa using List.mem_takeWhile_imp hc⟩
    have h1 : c ∈ rest := (List.takeWhile_sublist _).subset hc
    have h2 : c ∈ cs.dropWhile (fun c => c != '.') := by
      rw [hd]
      exact List.mem_cons_of_mem _ h1
    exact (List.dropWhile_sublist _).subset h2

theorem formatWithDelimiters_swap (number : JSValue) (precision : Nat) :
    swapSeparators (formatWithDelimiters number precision [','] ['.']).toStr
      = (formatWithDelimiters number precision ['.'] [',']).toStr := by
  unfold formatWithDelimiters
  split
  · decide
  · dsimp only
    have hno := toFixed_no_comma number.toNumber.div100 precision
    obtain ⟨h1, h2⟩ := splitDot_parts (number.toNumber.div100.toFixed precision)
    generalize splitDot (number.toNumber.div100.toFixed precision) = parts at h1 h2
    obtain ⟨a, ob⟩ := parts
    have ha : ∀ c ∈ a, c ≠ ',' ∧ c ≠ '.' := fun c hc => ⟨hno c (h1 c hc).1, (h1 c hc).2⟩
    simp only [JSValue.toStr, swapSeparators_append, swap_groupThousands a ha]
    congr 1
    cases ob with
    | none => rfl
    | some p =>
      have hp : ∀ c ∈ p, c ≠ ',' ∧ c ≠ '.' :=
        fun c hc => ⟨hno c (h2 p rfl c hc).1, (h2 p rfl c hc).2⟩
      simp only []
      split
      · rfl
      · rw [swapSeparators_append, swapSeparators_plain p hp]
        rfl

theorem mem_groupThousands (t : List Char) : ∀ (l : List Char) (c : Char),
    c ∈ groupThousands t l → c ∈ l ∨ c ∈ t := by
  intro l
  induction l with
  | nil => intro c hc; simp [groupThousands] at hc
  | cons x xs ih =>
    intro c hc
    simp only [groupThousands] at hc
    split at hc
    · rcases List.mem_cons.mp hc with h | h
      · exact Or.inl (h ▸ List.mem_cons_self _ _)
      · rcases List.mem_append.mp h with h | h
        · exact Or.inr h
        · rcases ih c h with h | h
          · exact Or.inl (List.mem_cons_of_mem _ h)
          · exact Or.inr h
    · rcases List.mem_cons.mp hc with h | h
      · exact Or.inl (h ▸ List.mem_cons_self _ _)
      · rcases ih c h with h | h
        · exact Or.inl (List.mem_cons_of_mem _ h)
        · exact Or.inr h

theorem swap_eq_commaToDot (l : List Char) (h : ∀ c ∈ l, c ≠ '.') :
    swapSeparators l = commaToDot l := by
  unfold swapSeparators commaToDot
  apply List.map_congr_left
  intro c hc
  simp [h c hc]

theorem amountNoDecimals_no_dot (c : Nat) : ∀ d ∈ amountNoDecimals [','] c, d ≠ '.' := by
  intro d hd
  unfold amountNoDecimals at hd
  rw [← groupThousands_natDigits] at hd
  rcases mem_groupThousands _ _ d hd with h | h
  · exact isDigit_ne d '.' (natDigits_all_digits _ d h) (by decide)
  · rw [List.mem_singleton.mp h]
    decide

theorem formatMoney_named (shop : Option (List Char)) (c : Nat) (pre name post : List Char)
    (hne : name ≠ []) (hw : ∀ d ∈ name, isWordChar d = true)
    (hpre : findPlaceholder pre = none) :
    formatMoney shop (jsInt c) (pre ++ ('{' :: '{' :: name ++ ['}', '}']) ++ post)
      = some (pre ++ (
        if name = "amount".data then formatWithDelimiters (jsInt c) 2 [','] ['.']
        else if name = "amount_no_decimals".data then
          formatWithDelimiters (jsInt c) 0 [','] ['.']
        else if name = "amount_with_comma_separator".data then
          formatWithDelimiters (jsInt c) 2 ['.'] [',']
        else if name = "amount_no_decimals_with_comma_separator".data then
          formatWithDelimiters (jsInt c) 0 ['.'] [',']
        else JSValue.str []).toStr ++ post) := by
  have e : pre ++ ('{' :: '{' :: name ++ ['}', '}']) ++ post
      = pre ++ '{' :: '{' :: (name ++ '}' :: '}' :: post) := by
    simp
  rw [e]
  exact formatMoney_placeholder shop c pre name post hne hw hpre

/-- C23 (amended). For every cents amount `c` and every template whose first placeholder is
the one named: the value substituted for `{{amount_with_comma_separator}}` is the value
substituted for `{{amount}}` with every `,` and `.` exchanged, and the value substituted
for `{{amount_no_decimals_with_comma_separator}}` is the value substituted for
`{{amount_no_decimals}}` with every `,` and `.` exchanged.  For `c` below `10 ^ 23` the
latter value holds no `.`, so the exchange is the replacement of every `,` by `.`. -/
theorem comma_separator_exchange (shop : Option (List Char)) (c : Nat)
    (pre post : List Char) (hpre : findPlaceholder pre = none) :
    formatMoney shop (jsInt c) (pre ++ "{{amount}}".data ++ post)
      = some (pre ++ (formatWithDelimiters (jsInt c) 2 [','] ['.']).toStr ++ post) ∧
    formatMoney shop (jsInt c) (pre ++ "{{amount_with_comma_separator}}".data ++ post)
      = some (pre ++ swapSeparators (formatWithDelimiters (jsInt c) 2 [','] ['.']).toStr
        ++ post) ∧
    formatMoney shop (jsInt c) (pre ++ "{{amount_no_decimals}}".data ++ post)
      = some (pre ++ (formatWithDelimiters (jsInt c) 0 [','] ['.']).toStr ++ post) ∧
    formatMoney shop (jsInt c)
        (pre ++ "{{amount_no_decimals_with_comma_separator}}".data ++ post)
      = some (pre ++ swapSeparators (formatWithDelimiters (jsInt c) 0 [','] ['.']).toStr
        ++ post) ∧
    (c < 10 ^ 23 →
      swapSeparators (formatWithDelimiters (jsInt c) 0 [','] ['.']).toStr
        = commaToDot (formatWithDelimiters (jsInt c) 0 [','] ['.']).toStr) := by
  refine ⟨?_, ?_, ?_, ?_, ?_⟩
  · exact formatMoney_named shop c pre "amount".data post (by decide) (by decide) hpre
  · rw [formatWithDelimiters_swap]
    exact formatMoney_named shop c pre "amount_with_comma_separator".data post
      (by decide) (by decide) hpre
  · exact formatMoney_named shop c pre "amount_no_decimals".data post
      (by decide) (by decide) hpre
  · rw [formatWithDelimiters_swap]
    exact formatMoney_named shop c pre "amount_no_decimals_with_comma_separator".data post
      (by decide) (by decide) hpre
  · intro hc
    apply swap_eq_commaToDot
    rw [formatWithDelimiters_zero _ _ c hc]
    exact amountNoDecimals_no_dot c

/-- Witness for C23: 123456789 cents in a template with text on both sides. -/
theorem comma_separator_exchange_witness :
    formatMoney none (jsInt (123456789 : Nat))
        ("EUR ".data ++ "{{amount_with_comma_separator}}".data ++ " net".data)
      = some "EUR 1.234.567,89 net".data ∧
    formatMoney none (jsInt (123456789 : Nat))
        ("EUR ".data ++ "{{amount_no_decimals_with_comma_separator}}".data ++ " net".data)
      = some "EUR 1.234.568 net".data :=
  ⟨((comma_separator_exchange none 123456789 "EUR ".data " net".data (by decide)).2.1).trans
      (by decide),
    ((comma_separator_exchange none 123456789 "EUR ".data " net".data
      (by decide)).2.2.2.1).trans (by decide)⟩

/-- Counterexample to C23 as stated: for `15 * 10 ^ 23` cents `toFixed(0)` gives
`1.5e+22`, whose `.` the comma variant turns into `,`; replacing every `,` of the value
for `{{amount_no_decimals}}` by `.` does not give that. -/
theorem comma_separator_counterexample :
    formatMoney none (jsInt ((15 * 10 ^ 23 : Nat) : Int)) "{{amount_no_decimals}}".data
      = some "1.5e+22".data ∧
    formatMoney none (jsInt ((15 * 10 ^ 23 : Nat) : Int))
        "{{amount_no_decimals_with_comma_separator}}".data
      = some "1,5e+22".data ∧
    commaToDot "1.5e+22".data ≠ "1,5e+22".data := by
  decide

/-! ## Templates without a known placeholder -/

theorem ws_not_wordChar (c : Char) (h : isJsWhiteSpace c = true) : isWordChar c = false := by
  cases hw : isWordChar c with
  | false => rfl
  | true => rw [isWordChar_not_ws c hw] at h; exact absurd h (by decide)

theorem takeWhile_stop_at {α : Type} (p : α → Bool) (l rest : List α)
    (hl : ∀ c ∈ l, p c = true) (hr : rest.head?.all (fun c => !p c) = true) :
    (l ++ rest).takeWhile p = l ∧ (l ++ rest).dropWhile p = rest := by
  have h1 : rest.takeWhile p = [] := by
    cases rest with
    | nil => rfl
    | cons a t =>
      have : p a = false := by simpa using hr
      simp [List.takeWhile, this]
  have h2 : rest.dropWhile p = rest := by
    cases rest with
    | nil => rfl
    | cons a t =>
      have : p a = false := by simpa using hr
      simp [List.dropWhile, this]
  constructor
  · rw [List.takeWhile_append_of_pos hl, h1, List.append_nil]
  · rw [List.dropWhile_append_of_pos hl, h2]

theorem matchPlaceholderHere_sound (cs name rest : List Char)
    (h : matchPlaceholderHere cs = some (name, rest)) :
    ∃ ws1 ws2 : List Char, cs = '{' :: '{' :: (ws1 ++ (name ++ (ws2 ++ '}' :: '}' :: rest))) ∧
      (∀ c ∈ ws1, isJsWhiteSpace c = true) ∧ (∀ c ∈ ws2, isJsWhiteSpace c = true) ∧
      name ≠ [] ∧ ∀ c ∈ name, isWordChar c = true := by
  unfold matchPlaceholderHere at h
  split at h
  · rename_i hopen
    dsimp only at h
    split at h
    · exact absurd h (by simp)
    · rename_i hname
      split at h
      · rename_i hclose
        simp only [Option.some.injEq, Prod.mk.injEq] at h
        obtain ⟨h1, h2⟩ := h
        refine ⟨(cs.drop 2).takeWhile isJsWhiteSpace,
          (((cs.drop 2).dropWhile isJsWhiteSpace).dropWhile isWordChar).takeWhile isJsWhiteSpace,
          ?_, ?_, ?_, ?_, ?_⟩
        · have e1 := List.take_append_drop 2 cs
          have e2 := List.takeWhile_append_dropWhile isJsWhiteSpace (cs.drop 2)
          have e3 := List.takeWhile_append_dropWhile isWordChar
            ((cs.drop 2).dropWhile isJsWhiteSpace)
          have e4 := List.takeWhile_append_dropWhile isJsWhiteSpace
            (((cs.drop 2).dropWhile isJsWhiteSpace).dropWhile isWordChar)
          have e5 := List.take_append_drop 2
            ((((cs.drop 2).dropWhile isJsWhiteSpace).dropWhile isWordChar).dropWhile
              isJsWhiteSpace)
          rw [hclose, h2] at e5
          rw [hopen] at e1
          rw [h1] at e3
          rw [← e5] at e4
          rw [← e4] at e3
          rw [← e3] at e2
          rw [← e2] at e1
          exact e1.symm
        · intro c hc
          exact (List.mem_takeWhile_imp hc)
        · intro c hc
          exact (List.mem_takeWhile_imp hc)
        · intro hnil
          rw [← h1] at hnil
          rw [hnil] at hname
          exact hname rfl
        · intro c hc
          rw [← h1] at hc
          exact (List.mem_takeWhile_imp hc)
      · exact absurd h (by simp)
  · exact absurd h (by simp)

theorem matchPlaceholderHere_spaced (ws1 name ws2 post : List Char)
    (h1 : ∀ c ∈ ws1, isJsWhiteSpace c = true) (h2 : ∀ c ∈ ws2, isJsWhiteSpace c = true)
    (hne : name ≠ []) (hw : ∀ c ∈ name, isWordChar c = true) :
    matchPlaceholderHere ('{' :: '{' :: (ws1 ++ (name ++ (ws2 ++ '}' :: '}' :: post))))
      = some (name, post) := by
  have hhead : (name ++ (ws2 ++ '}' :: '}' :: post)).head?.all (fun c => !isJsWhiteSpace c)
      = true := by
    cases name with
    | nil => exact absurd rfl hne
    | cons c t =>
      have := isWordChar_not_ws c (hw c (by simp))
      simp [this]
  have hhead2 : (ws2 ++ '}' :: '}' :: post).head?.all (fun c => !isWordChar c) = true := by
    cases ws2 with
    | nil =>
      have : isWordChar '}' = false := by decide
      simp [this]
    | cons c t =>
      have := ws_not_wordChar c (h2 c (by simp))
      simp [this]
  have hhead3 : ('}' :: '}' :: post).head?.all (fun c => !isJsWhiteSpace c) = true := by
    have : isJsWhiteSpace '}' = false := by decide
    simp [this]
  have a1 := (takeWhile_stop_at isJsWhiteSpace ws1 _ h1 hhead).2
  have a2 := takeWhile_stop_at isWordChar name _ hw hhead2
  have a3 := (takeWhile_stop_at isJsWhiteSpace ws2 _ h2 hhead3).2
  have h5 : name.isEmpty = false := by
    cases name with
    | nil => exact absurd rfl hne
    | cons c t => rfl
  unfold matchPlaceholderHere
  simp only [List.take, List.drop, if_true, a1, a2.1, a2.2, a3, h5]
  simp

theorem findPlaceholder_sound : ∀ (fs pre name post : List Char),
    findPlaceholder fs = some (pre, name, post) →
    ∃ ws1 ws2 : List Char,
      fs = pre ++ '{' :: '{' :: (ws1 ++ (name ++ (ws2 ++ '}' :: '}' :: post))) ∧
      (∀ c ∈ ws1, isJsWhiteSpace c = true) ∧ (∀ c ∈ ws2, isJsWhiteSpace c = true) ∧
      name ≠ [] ∧ ∀ c ∈ name, isWordChar c = true := by
  intro fs
  induction fs with
  | nil => intro pre name post h; simp [findPlaceholder] at h
  | cons c cs ih =>
    intro pre name post h
    unfold findPlaceholder at h
    cases hm : matchPlaceholderHere (c :: cs) with
    | some p =>
      obtain ⟨n, r⟩ := p
      simp only [hm, Option.some.injEq, Prod.mk.injEq] at h
      obtain ⟨hp, hn, hr⟩ := h
      subst hp; subst hn; subst hr
      simpa using matchPlaceholderHere_sound (c :: cs) n r hm
    | none =>
      simp only [hm] at h
      cases hf : findPlaceholder cs with
      | none => simp [hf] at h
      | some q =>
        obtain ⟨p1, n1, r1⟩ := q
        simp only [hf, Option.some.injEq, Prod.mk.injEq] at h
        obtain ⟨hp, hn, hr⟩ := h
        subst hp; subst hn; subst hr
        obtain ⟨ws1, ws2, e, rest⟩ := ih p1 n1 r1 hf
        exact ⟨ws1, ws2, by rw [e]; rfl, rest⟩

theorem findPlaceholder_complete (ws1 name ws2 post : List Char)
    (h1 : ∀ c ∈ ws1, isJsWhiteSpace c = true) (h2 : ∀ c ∈ ws2, isJsWhiteSpace c = true)
    (hne : name ≠ []) (hw : ∀ c ∈ name, isWordChar c = true) : ∀ pre : List Char,
    findPlaceholder (pre ++ '{' :: '{' :: (ws1 ++ (name ++ (ws2 ++ '}' :: '}' :: post))))
      ≠ none := by
  intro pre
  induction pre with
  | nil =>
    simp only [List.nil_append, findPlaceholder,
      matchPlaceholderHere_spaced ws1 name ws2 post h1 h2 hne hw]
    simp
  | cons c t ih =>
    simp only [List.cons_append, findPlaceholder]
    cases hm : matchPlaceholderHere
        (c :: (t ++ '{' :: '{' :: (ws1 ++ (name ++ (ws2 ++ '}' :: '}' :: post))))) with
    | some p => simp
    | none =>
      cases hf : findPlaceholder
          (t ++ '{' :: '{' :: (ws1 ++ (name ++ (ws2 ++ '}' :: '}' :: post)))) with
      | none => exact absurd hf ih
      | some q => simp

theorem formatMoney_of_template (shop : Option (List Char)) (cents : JSValue)
    (format fs : List Char)
    (hfs : (if format.isEmpty then shop else some format) = some fs) :
    (findPlaceholder fs = none → formatMoney shop cents format = none) ∧
    ∀ pre name post, findPlaceholder fs = some (pre, name, post) →
      (∃ v, formatMoney shop cents format = some (pre ++ v ++ post)) ∧
      (name ≠ "amount".data → name ≠ "amount_no_decimals".data →
        name ≠ "amount_with_comma_separator".data →
        name ≠ "amount_no_decimals_with_comma_separator".data →
        formatMoney shop cents format = some (pre ++ post)) := by
  constructor
  · intro h
    unfold formatMoney
    simp only [hfs, h]
  · intro pre name post h
    constructor
    · unfold formatMoney
      simp only [hfs, h]
      exact ⟨_, rfl⟩
    · intro n1 n2 n3 n4
      unfold formatMoney
      simp only [hfs, h, n1, n2, n3, n4, if_false]
      simp [JSValue.toStr]

/-- C28. With a format string at hand (`format`, or the shop format when `format` is
empty), `Shopify.formatMoney` throws exactly when that string has no placeholder, that is
no `{{`, optional white space, a word, optional white space, `}}`.  When the first
placeholder holds a word other than the four recognised names, the result is the string
with that placeholder removed, whatever the amount.  Without any format string the
function throws as well. -/
theorem formatMoney_fails_iff (shop : Option (List Char)) (cents : JSValue)
    (format fs : List Char)
    (hfs : (if format.isEmpty then shop else some format) = some fs) :
    (formatMoney shop cents format = none ↔
      ¬ ∃ pre ws1 name ws2 post : List Char,
        fs = pre ++ '{' :: '{' :: (ws1 ++ (name ++ (ws2 ++ '}' :: '}' :: post))) ∧
        (∀ c ∈ ws1, isJsWhiteSpace c = true) ∧ (∀ c ∈ ws2, isJsWhiteSpace c = true) ∧
        name ≠ [] ∧ ∀ c ∈ name, isWordChar c = true) ∧
    (∀ pre name post : List Char, findPlaceholder fs = some (pre, name, post) →
      name ≠ "amount".data → name ≠ "amount_no_decimals".data →
      name ≠ "amount_with_comma_separator".data →
      name ≠ "amount_no_decimals_with_comma_separator".data →
      formatMoney shop cents format = some (pre ++ post) ∧
      ∃ ws1 ws2 : List Char,
        fs = pre ++ '{' :: '{' :: (ws1 ++ (name ++ (ws2 ++ '}' :: '}' :: post))) ∧
        (∀ c ∈ ws1, isJsWhiteSpace c = true) ∧ (∀ c ∈ ws2, isJsWhiteSpace c = true)) ∧
    formatMoney none cents [] = none := by
  obtain ⟨hnone, hsome⟩ := formatMoney_of_template shop cents format fs hfs
  refine ⟨⟨?_, ?_⟩, ?_, ?_⟩
  · intro hfail
    rintro ⟨pre, ws1, name, ws2, post, e, h1, h2, hne, hw⟩
    cases hf : findPlaceholder fs with
    | none =>
      rw [e] at hf
      exact findPlaceholder_complete ws1 name ws2 post h1 h2 hne hw pre hf
    | some q =>
      obtain ⟨p1, n1, r1⟩ := q
      obtain ⟨v, hv⟩ := (hsome p1 n1 r1 hf).1
      rw [hv] at hfail
      exact absurd hfail (by simp)
  · intro hno
    cases hf : findPlaceholder fs with
    | none => exact hnone hf
    | some q =>
      obtain ⟨p1, n1, r1⟩ := q
      obtain ⟨ws1, ws2, e, h1, h2, hne, hw⟩ := findPlaceholder_sound fs p1 n1 r1 hf
      exact absurd ⟨p1, ws1, n1, ws2, r1, e, h1, h2, hne, hw⟩ hno
  · intro pre name post hf n1 n2 n3 n4
    obtain ⟨ws1, ws2, e, h1, h2, _, _⟩ := findPlaceholder_sound fs pre name post hf
    exact ⟨(hsome pre name post hf).2 n1 n2 n3 n4, ws1, ws2, e, h1, h2⟩
  · rfl

/-- Witness for C28: a template without a placeholder makes the function throw, and the
unknown placeholder of `Total: {{ price }} USD` is replaced by nothing. -/
theorem formatMoney_fails_iff_witness :
    formatMoney none (jsInt 1250) "Total: {amount} USD".data = none ∧
    formatMoney none (jsInt 1250) "Total: {{ price }} USD".data = some "Total:  USD".data :=
  ⟨(formatMoney_fails_iff none (jsInt 1250) "Total: {amount} USD".data
      "Total: {amount} USD".data (by decide)).1.mpr (by
        rintro ⟨pre, ws1, name, ws2, post, e, h1, h2, hne, hw⟩
        have := findPlaceholder_complete ws1 name ws2 post h1 h2 hne hw pre
        rw [← e] at this
        exact this (by decide)),
    ((formatMoney_fails_iff none (jsInt 1250) "Total: {{ price }} USD".data
      "Total: {{ price }} USD".data (by decide)).2.1 "Total: ".data "price".data " USD".data
      (by decide) (by decide) (by decide) (by decide) (by decide)).1⟩

/-! ## The change handler on invalid text -/

theorem parseFloatChars_blank (text : List Char) (h : ∀ c ∈ text, isJsWhiteSpace c = true) :
    parseFloatChars text = JSNum.nan := by
  unfold parseFloatChars trimStart
  rw [dropWhile_all _ _ h]
  rfl

theorem eq_int_of_fraction (m : Int) (sc : Nat) (z : Int) (h : ¬ (10 ^ sc : Int) ∣ m) :
    (JSNum.fin m sc).eq (JSNum.ofInt z) = false := by
  simp only [JSNum.eq, JSNum.ofInt, pow_zero, mul_one, decide_eq_false_iff_not]
  intro he
  exact h ⟨z, by rw [he]; ring⟩

/-- The test of the change handler fails on a text that is blank, that `Number` does not
read, or in which `parseFloat` reads a number with a fractional part. -/
theorem change_test_fails (text : List Char)
    (h : (∀ c ∈ text, isJsWhiteSpace c = true) ∨ isNaN (JSValue.str text) = true ∨
      ∃ (m : Int) (sc : Nat), parseFloatChars text = JSNum.fin m sc ∧ ¬ (10 ^ sc : Int) ∣ m) :
    ((parseFloat (JSValue.str text)).eq (parseInt (JSValue.str text))
      && !isNaN (JSValue.str text)) = false := by
  have hf : parseFloat (JSValue.str text) = parseFloatChars text := rfl
  have hi : parseInt (JSValue.str text) = parseIntChars text := rfl
  rcases h with h | h | ⟨m, sc, hm, hd⟩
  · rw [hf, parseFloatChars_blank text h]
    rfl
  · rw [h]
    simp
  · rw [hf, hi, hm]
    rcases parseIntChars_shape text with hp | ⟨z, hp⟩
    · rw [hp]
      rfl
    · rw [hp, eq_int_of_fraction m sc z hd]
      rfl

theorem scan_append {α : Type} (p : α → Bool) (w : List α)
    (hw : w.head?.all (fun c => !p c) = true) : ∀ u : List α,
    (u ++ w).takeWhile p = u.takeWhile p ∧ (u ++ w).dropWhile p = u.dropWhile p ++ w := by
  intro u
  induction u with
  | nil =>
    cases w with
    | nil => exact ⟨rfl, rfl⟩
    | cons a t =>
      have : p a = false := by simpa using hw
      simp [List.takeWhile, List.dropWhile, this]
  | cons x xs ih =>
    cases hx : p x with
    | true => simp [List.takeWhile, List.dropWhile, hx, ih.1, ih.2]
    | false => simp [List.takeWhile, List.dropWhile, hx]

theorem ws_head (w : List Char) (hw : ∀ c ∈ w, isJsWhiteSpace c = true) (p : Char → Bool)
    (hp : ∀ c, isJsWhiteSpace c = true → p c = false) :
    w.head?.all (fun c => !p c) = true := by
  cases w with
  | nil => rfl
  | cons a t => simp [hp a (hw a (List.mem_cons_self _ _))]

theorem ws_not_digit (c : Char) (h : isJsWhiteSpace c = true) : isDigit c = false := by
  cases hd : isDigit c with
  | false => rfl
  | true => rw [isDigit_not_ws c hd] at h; exact absurd h (by decide)

theorem ws_head_ne (w : List Char) (hw : ∀ c ∈ w, isJsWhiteSpace c = true) (d : Char)
    (hd : isJsWhiteSpace d = false) : (w.head? == some d) = false := by
  cases w with
  | nil => rfl
  | cons a t =>
    have ha := hw a (List.mem_cons_self _ _)
    have : a ≠ d := by
      intro e
      rw [e, hd] at ha
      exact absurd ha (by decide)
    simp [this]

theorem head?_append_ne {α : Type} (u w : List α) (h : u ≠ []) :
    (u ++ w).head? = u.head? ∧ (u ++ w).tail = u.tail ++ w := by
  cases u with
  | nil => exact absurd rfl h
  | cons a t => exact ⟨rfl, rfl⟩

theorem scanExponent_append (r2 w : List Char) (hw : ∀ c ∈ w, isJsWhiteSpace c = true)
    (h : (scanExponent r2).2 = []) :
    scanExponent (r2 ++ w) = ((scanExponent r2).1, w) := by
  have hwd := ws_head w hw isDigit ws_not_digit
  cases r2 with
  | nil =>
    have h1 := ws_head_ne w hw 'e' (by decide)
    have h2 := ws_head_ne w hw 'E' (by decide)
    simp [scanExponent, h1, h2]
  | cons a r =>
    unfold scanExponent at h ⊢
    simp only [List.cons_append, List.head?_cons, List.tail_cons] at h ⊢
    split
    · rename_i he
      rw [if_pos he] at h
      by_cases hr : r = []
      · subst hr
        simp at h
      · obtain ⟨hh, ht⟩ := head?_append_ne r w hr
        rw [hh, ht]
        by_cases hsign : (r.head? == some '-' || r.head? == some '+') = true
        · rw [if_pos hsign] at h ⊢
          obtain ⟨s1, s2⟩ := scan_append isDigit w hwd r.tail
          rw [s1, s2]
          split
          · rename_i hempty
            rw [if_pos hempty] at h
            simp at h
          · rename_i hempty
            rw [if_neg hempty] at h
            simp only at h
            rw [h]
            rfl
        · rw [if_neg hsign] at h ⊢
          obtain ⟨s1, s2⟩ := scan_append isDigit w hwd r
          rw [s1, s2]
          split
          · rename_i hempty
            rw [if_pos hempty] at h
            simp at h
          · rename_i hempty
            rw [if_neg hempty] at h
            simp only at h
            rw [h]
            rfl
    · rename_i he
      rw [if_neg he] at h
      simp at h

theorem scanUnsignedDecimal_append (u w : List Char) (v : JSNum)
    (hw : ∀ c ∈ w, isJsWhiteSpace c = true)
    (h : scanUnsignedDecimal u = some (v, [])) :
    scanUnsignedDecimal (u ++ w) = some (v, w) := by
  have hwd := ws_head w hw isDigit ws_not_digit
  unfold scanUnsignedDecimal at h
  by_cases hinf : u.take 8 = "Infinity".data
  · rw [if_pos hinf] at h
    simp only [Option.some.injEq, Prod.mk.injEq] at h
    have hlen : 8 ≤ u.length := by
      have hl := congrArg List.length hinf
      rw [List.length_take] at hl
      have h8 : "Infinity".data.length = 8 := by decide
      rw [h8] at hl
      omega
    unfold scanUnsignedDecimal
    rw [List.take_append_of_le_length hlen, if_pos hinf, List.drop_append_of_le_length hlen,
      h.2, h.1]
    rfl
  · rw [if_neg hinf] at h
    dsimp only at h
    have hinf2 : ¬ (u ++ w).take 8 = "Infinity".data := by
      intro hcon
      cases u with
      | nil => simp at h
      | cons a t =>
        have ha : a = 'I' := by
          have := congrArg List.head? hcon
          simpa using this
        subst ha
        simp [List.takeWhile, List.dropWhile, show isDigit 'I' = false by decide] at h
    obtain ⟨s1, s2⟩ := scan_append isDigit w hwd u
    unfold scanUnsignedDecimal
    rw [if_neg hinf2]
    dsimp only
    rw [s1, s2]
    by_cases hr : u.dropWhile isDigit = []
    · rw [hr] at h ⊢
      have hdot := ws_head_ne w hw '.' (by decide)
      simp only [List.nil_append, hdot, List.head?_nil] at h ⊢
      simp only [show (none == some '.') = false by rfl, Bool.false_eq_true, if_false] at h ⊢
      split
      · rename_i hempty
        rw [if_pos hempty] at h
        simp at h
      · rename_i hempty
        rw [if_neg hempty] at h
        simp only [Option.some.injEq, Prod.mk.injEq] at h
        have he := scanExponent_append [] w hw h.2
        simp only [List.nil_append] at he
        rw [he, h.1]
    · obtain ⟨hh, ht⟩ := head?_append_ne (u.dropWhile isDigit) w hr
      rw [hh, ht]
      by_cases hdot : (List.head? (u.dropWhile isDigit) == some '.') = true
      · rw [if_pos hdot, if_pos hdot] at h ⊢
        obtain ⟨t1, t2⟩ := scan_append isDigit w hwd (u.dropWhile isDigit).tail
        rw [t1, t2]
        split
        · rename_i hempty
          rw [if_pos hempty] at h
          simp at h
        · rename_i hempty
          rw [if_neg hempty] at h
          simp only [Option.some.injEq, Prod.mk.injEq] at h
          rw [scanExponent_append _ w hw h.2, h.1]
      · rw [if_neg hdot, if_neg hdot] at h ⊢
        split
        · rename_i hempty
          rw [if_pos hempty] at h
          simp at h
        · rename_i hempty
          rw [if_neg hempty] at h
          simp only [Option.some.injEq, Prod.mk.injEq] at h
          rw [scanExponent_append _ w hw h.2, h.1]

theorem scanDecimal_append (u w : List Char) (v : JSNum)
    (hw : ∀ c ∈ w, isJsWhiteSpace c = true) (h : scanDecimal u = some (v, [])) :
    scanDecimal (u ++ w) = some (v, w) := by
  cases u with
  | nil => simp [scanDecimal, scanUnsignedDecimal] at h
  | cons a t =>
    unfold scanDecimal at h ⊢
    simp only [List.cons_append, List.head?_cons, List.tail_cons] at h ⊢
    split
    · rename_i hneg
      rw [if_pos hneg] at h
      cases hs : scanUnsignedDecimal t with
      | none => simp [hs] at h
      | some p =>
        obtain ⟨v1, r1⟩ := p
        simp only [hs, Option.map_some', Option.some.injEq, Prod.mk.injEq] at h
        obtain ⟨hv, hr⟩ := h
        subst hr
        rw [scanUnsignedDecimal_append t w v1 hw hs]
        simp [hv]
    · rename_i hneg
      rw [if_neg hneg] at h
      split
      · rename_i hpos
        rw [if_pos hpos] at h
        exact scanUnsignedDecimal_append t w v hw h
      · rename_i hpos
        rw [if_neg hpos] at h
        exact scanUnsignedDecimal_append (a :: t) w v hw h

theorem trimEnd_split (l : List Char) :
    ∃ w, l = trimEnd l ++ w ∧ ∀ c ∈ w, isJsWhiteSpace c = true := by
  refine ⟨(l.reverse.takeWhile isJsWhiteSpace).reverse, ?_, ?_⟩
  · unfold trimEnd
    rw [← List.reverse_append, List.takeWhile_append_dropWhile, List.reverse_reverse]
  · intro c hc
    exact List.mem_takeWhile_imp (List.mem_reverse.mp hc)

theorem radixLiteral_shape (radix : Nat) (r : List Char) :
    radixLiteral radix r = JSNum.nan ∨ ∃ z : Int, radixLiteral radix r = JSNum.fin z 0 := by
  unfold radixLiteral
  split
  · exact Or.inr ⟨_, rfl⟩
  · exact Or.inl rfl

/-- When `Number` reads the whole text as a value that is not a plain integer, `parseFloat`
reads the same value. -/
theorem parseFloat_of_number (text : List Char) (v : JSNum)
    (h : stringToNumber text = v) (hn : v ≠ JSNum.nan) (hz : ∀ z : Int, v ≠ JSNum.fin z 0) :
    parseFloatChars text = v := by
  obtain ⟨w, hsplit, hws⟩ := trimEnd_split (trimStart text)
  have hrad : ∀ (radix : Nat) (r : List Char), radixLiteral radix r = v → False := by
    intro radix r hr
    rcases radixLiteral_shape radix r with h1 | ⟨z, h1⟩
    · exact hn (hr ▸ h1)
    · exact hz z (hr ▸ h1)
  unfold stringToNumber at h
  dsimp only at h
  generalize trimEnd (trimStart text) = s at h hsplit
  split at h
  · exact absurd h.symm (hz 0)
  · exact absurd h (hrad _ _)
  · exact absurd h (hrad _ _)
  · exact absurd h (hrad _ _)
  · exact absurd h (hrad _ _)
  · exact absurd h (hrad _ _)
  · exact absurd h (hrad _ _)
  · split at h
    · rename_i v1 hscan
      unfold parseFloatChars
      rw [hsplit, scanDecimal_append s w v1 hws hscan, ← h]
    · exact absurd h.symm hn

/-! ## Titles with at most one dash -/

theorem replaceLastSegment_none (sep : Char) (f : List Char → List Char) :
    ∀ l : List Char, (∀ c ∈ l, c ≠ sep) → replaceLastSegment sep f l = l := by
  intro l
  induction l with
  | nil => intro _; rfl
  | cons x xs ih =>
    intro h
    have hx : x ≠ sep := h x (List.mem_cons_self _ _)
    have hxs : ∀ c ∈ xs, c ≠ sep := fun c hc => h c (List.mem_cons_of_mem _ hc)
    simp [replaceLastSegment, hx, ih hxs]

theorem prodVariation_none (title : List Char) (h : ∀ c ∈ title, c ≠ '-') :
    prodVariation title = [] := by
  unfold prodVariation
  have hd : title.dropWhile (fun c => c != '-') = [] := by
    rw [List.dropWhile_eq_nil_iff]
    intro c hc
    simpa using h c hc
  rw [hd]
  rfl

theorem split_at_single (sep : Char) : ∀ l : List Char, l.count sep = 1 →
    ∃ a b, l = a ++ sep :: b ∧ (∀ c ∈ a, c ≠ sep) ∧ (∀ c ∈ b, c ≠ sep) := by
  intro l
  induction l with
  | nil => intro h; simp at h
  | cons x xs ih =>
    intro h
    by_cases hx : x = sep
    · subst hx
      rw [List.count_cons_self] at h
      have h0 : xs.count x = 0 := by omega
      rw [List.count_eq_zero] at h0
      exact ⟨[], xs, rfl, by simp, fun c hc hcx => h0 (hcx ▸ hc)⟩
    · rw [List.count_cons_of_ne (Ne.symm hx)] at h
      obtain ⟨a, b, hl, ha, hb⟩ := ih h
      refine ⟨x :: a, b, by simp [hl], ?_, hb⟩
      intro c hc
      rcases List.mem_cons.mp hc with rfl | hc
      · exact hx
      · exact ha c hc

/-- C27. For a title with at most one dash: without a dash the name is the title and the
variation is empty; with exactly one dash, name, dash and variation make up the title. -/
theorem name_variation_split (title : List Char) (h : title.count '-' ≤ 1) :
    if title.count '-' = 0 then prodName title = title ∧ prodVariation title = []
    else prodName title ++ '-' :: prodVariation title = title := by
  split
  · rename_i h0
    rw [List.count_eq_zero] at h0
    have hno : ∀ c ∈ title, c ≠ '-' := fun c hc hcx => h0 (hcx ▸ hc)
    exact ⟨replaceLastSegment_none '-' _ title hno, prodVariation_none title hno⟩
  · rename_i h0
    have h1 : title.count '-' = 1 := by omega
    obtain ⟨a, b, hl, ha, hb⟩ := split_at_single '-' title h1
    rw [hl, prodName_before_last_dash a b hb, prodVariation_after_first_dash a b ha]

/-- Witness for C27 on a title with one dash and on a title without. -/
theorem name_variation_split_witness :
    (if "Shirt - Blue".data.count '-' = 0 then
        prodName "Shirt - Blue".data = "Shirt - Blue".data ∧
          prodVariation "Shirt - Blue".data = []
      else prodName "Shirt - Blue".data ++ '-' :: prodVariation "Shirt - Blue".data
        = "Shirt - Blue".data) ∧
    (if "Mug".data.count '-' = 0 then
        prodName "Mug".data = "Mug".data ∧ prodVariation "Mug".data = []
      else prodName "Mug".data ++ '-' :: prodVariation "Mug".data = "Mug".data) :=
  ⟨name_variation_split "Shirt - Blue".data (by decide),
    name_variation_split "Mug".data (by decide)⟩

/-! ## Steppers on unreadable text -/

theorem stepper_unreadable (text : List Char) (hnan : parseIntChars text = JSNum.nan)
    (add : Bool) (qtyMin : Int) :
    standaloneStepperQty text add qtyMin
      = jsInt (if add then 2 else max 0 qtyMin) := by
  have hp : parseInt (JSValue.str text) = JSNum.nan := hnan
  unfold standaloneStepperQty
  simp only [hp, validateQty_nan, stepper_from_int]
  cases add
  · simp only [Bool.false_eq_true, if_false]
    congr 1
  · simp

/-- C30. When `parseInt` cannot read the text of a stepper field, `validateQty` falls back
to 1 before the step is applied: the increment control gives 2, never 1, and the decrement
control gives 0 on a cart row and on a standalone stepper off the product page, and 1 on
the standalone stepper of the product page.  This is what the click handlers write to the
field or hand to `updateQuantity` on every page reached from the loaded page. -/
theorem unreadable_field_steps (env : Env) (fields : List (List Char)) (es : List Event)
    (s : State) (text : List Char)
    (hs : s = runEvents env (initialState fields) es)
    (hnan : parseIntChars text = JSNum.nan) :
    cartStepperQty text true = jsInt 2 ∧ cartStepperQty text false = jsInt 0 ∧
    (∀ j : Nat, s.jsFields.get? j = some text →
      (step env s (Event.jsQtyAdjusterClick j true)).jsFields = s.jsFields.set j "2".data ∧
      (step env s (Event.jsQtyAdjusterClick j false)).jsFields
        = s.jsFields.set j (if env.templateProduct then "1".data else "0".data)) ∧
    (∀ (i : Nat) (r : Row), s.isUpdating = false → s.rows.get? i = some r →
      r.value = text →
      step env s (Event.qtyAdjustClick i true)
        = (match truthyLine r.line with
          | some line => updateQuantity env line (jsInt 2) s
          | none => { s with rows := s.rows.set i { r with value := "2".data } }) ∧
      step env s (Event.qtyAdjustClick i false)
        = (match truthyLine r.line with
          | some line => updateQuantity env line (jsInt 0) s
          | none => { s with rows := s.rows.set i { r with value := "0".data } })) := by
  have hcart : ∀ add : Bool, cartStepperQty text add = jsInt (if add then 2 else 0) := by
    intro add
    rw [cartStepperQty_eq_standalone, stepper_unreadable text hnan add 0]
    simp
  refine ⟨hcart true, hcart false, ?_, ?_⟩
  · intro j hj
    rw [List.get?_eq_getElem?] at hj
    constructor
    · simp only [step, jsQtyAdjusterClick, List.get?_eq_getElem?, hj,
        stepper_unreadable text hnan true]
      rfl
    · simp only [step, jsQtyAdjusterClick, List.get?_eq_getElem?, hj,
        stepper_unreadable text hnan false]
      cases hp : env.templateProduct with
      | true => rfl
      | false =>
        have hz : s.qtyMin = 0 := by
          rw [hs]
          exact qtyMin_runEvents env es (initialState fields) (fun _ => rfl) hp
        simp only [hz, Bool.false_eq_true, if_false]
        rfl
  · intro i r hidle hrow hval
    rw [List.get?_eq_getElem?] at hrow
    subst hval
    constructor
    · cases hl : truthyLine r.line with
      | none =>
        simp [step, qtyAdjustClick, hidle, hrow, hcart, hl]
        rfl
      | some line => simp [step, qtyAdjustClick, hidle, hrow, hcart, hl]
    · cases hl : truthyLine r.line with
      | none =>
        simp [step, qtyAdjustClick, hidle, hrow, hcart, hl]
        rfl
      | some line => simp [step, qtyAdjustClick, hidle, hrow, hcart, hl]

/-- Witness for C30: an empty standalone field on the sample product page, and the values
for an empty and for a non-numeric text. -/
theorem unreadable_field_steps_witness :
    (cartStepperQty [] true = jsInt 2 ∧ cartStepperQty [] false = jsInt 0) ∧
    (cartStepperQty "abc".data true = jsInt 2 ∧ cartStepperQty "abc".data false = jsInt 0) ∧
    (step demoEnv (initialState [[]]) (Event.jsQtyAdjusterClick 0 true)).jsFields
      = ["2".data] ∧
    (step demoEnv (initialState [[]]) (Event.jsQtyAdjusterClick 0 false)).jsFields
      = ["1".data] :=
  ⟨⟨(unreadable_field_steps demoEnv [[]] [] (initialState [[]]) [] rfl (by decide)).1,
      (unreadable_field_steps demoEnv [[]] [] (initialState [[]]) [] rfl (by decide)).2.1⟩,
    ⟨(unreadable_field_steps demoEnv [] [] (initialState []) "abc".data rfl (by decide)).1,
      (unreadable_field_steps demoEnv [] [] (initialState []) "abc".data rfl (by decide)).2.1⟩,
    ((unreadable_field_steps demoEnv [[]] [] (initialState [[]]) [] rfl (by decide)).2.2.1 0
      (by decide)).1,
    ((unreadable_field_steps demoEnv [[]] [] (initialState [[]]) [] rfl (by decide)).2.2.1 0
      (by decide)).2⟩

/-! ## Targets of the view model -/

theorem createQtySelector_int (l : Option (List Char)) (q : Int) (h1 : 1 ≤ q)
    (h2 : q < 2 ^ 53) :
    (createQtySelector l (JSNum.ofInt q).toString).itemAdd = jsInt (q + 1) ∧
    (createQtySelector l (JSNum.ofInt q).toString).itemMinus = jsInt (max (q - 1) 0) := by
  have hb : q.natAbs < 10 ^ 21 := by
    have : (q.natAbs : Int) = q := Int.natAbs_of_nonneg (by omega)
    have h3 : (q.natAbs : Int) < 2 ^ 53 := by omega
    have h4 : q.natAbs < 2 ^ 53 := by exact_mod_cast h3
    exact lt_trans h4 (by norm_num)
  have hp : parseInt (JSValue.str (JSNum.ofInt q).toString) = JSNum.fin q 0 :=
    parseInt_int q hb
  have hmax : max (q - 1) 0 = q - 1 := by omega
  unfold createQtySelector
  simp only [hp, hmax]
  exact ⟨jsAdd_int q 1, jsSub_int q 1⟩

/-- C11. With the client template, `buildCart` on a cart whose line items have a quantity
`q` of at least 1 (a line is removed at 0) and below `2 ^ 53` (where a Number holds `q + 1`
exactly) renders the template on a view model in which the row of every line item has the
add target `q + 1` and the subtract target `max (q - 1) 0`.  `createQtySelectors` computes
the same two targets from a number field that holds `q`. -/
theorem view_model_targets (env : Env) (cart : Cart) (s : State)
    (ht : env.settings.useCartTemplate = false) (hc : 0 < cart.item_count)
    (hfmt : env.moneyFormatOk = true)
    (hq : ∀ item ∈ cart.items, 1 ≤ item.quantity ∧ item.quantity < 2 ^ 53) :
    (∃ data : TemplateData,
      (outcome (buildCart env cart s)).cartContent = [CartNode.template data] ∧
      ∀ (i : Nat) (item : CartItem), cart.items.get? i = some item →
        ∃ v, data.items.get? i = some v ∧ v.itemAdd = item.quantity + 1 ∧
          v.itemMinus = max (item.quantity - 1) 0) ∧
    ∀ (l : Option (List Char)) (q : Int), 1 ≤ q → q < 2 ^ 53 →
      (createQtySelector l (JSNum.ofInt q).toString).itemAdd = jsInt (q + 1) ∧
      (createQtySelector l (JSNum.ofInt q).toString).itemMinus = jsInt (max (q - 1) 0) := by
  refine ⟨?_, fun l q h1 h2 => createQtySelector_int l q h1 h2⟩
  obtain ⟨data, hitems, hcontent, _⟩ := buildCart_template env cart s ht hc hfmt
  refine ⟨data, hcontent, ?_⟩
  intro i item hi
  obtain ⟨v, hv, hb⟩ :=
    (buildItems_get? env.shopFormat env.settings.moneyFormat cart.items 0 data.items hitems).2
      i item hi
  obtain ⟨_, _, _, _, _, _, hadd, hminus⟩ := buildItem_fields _ _ _ _ _ hb
  have hpos := (hq item (List.get?_mem hi)).1
  refine ⟨v, hv, hadd, ?_⟩
  rw [hminus]
  omega

/-- Witness for C11 on the sample page: the sample cart, whose line has quantity 2, gives
the targets 3 and 1; a line of quantity 1 gives 2 and 0. -/
theorem view_model_targets_witness :
    (∃ data : TemplateData,
      (outcome (buildCart demoEnv demoCart (initialState []))).cartContent
        = [CartNode.template data] ∧
      ∀ (i : Nat) (item : CartItem), demoCart.items.get? i = some item →
        ∃ v, data.items.get? i = some v ∧ v.itemAdd = item.quantity + 1 ∧
          v.itemMinus = max (item.quantity - 1) 0) ∧
    (∃ data : TemplateData,
      (outcome (buildCart demoEnv demoCartOne (initialState []))).cartContent
        = [CartNode.template data] ∧
      ∀ (i : Nat) (item : CartItem), demoCartOne.items.get? i = some item →
        ∃ v, data.items.get? i = some v ∧ v.itemAdd = item.quantity + 1 ∧
          v.itemMinus = max (item.quantity - 1) 0) :=
  ⟨(view_model_targets demoEnv demoCart (initialState []) (by decide) (by decide) (by decide)
      (by decide)).1,
    (view_model_targets demoEnv demoCartOne (initialState []) (by decide) (by decide)
      (by decide) (by decide)).1⟩

/-! ## Steppers without a line -/

/-- C19. A click on a stepper without a line identity stays local.  On every page, the
standalone stepper writes the new quantity to its own field (and keeps the minimum in
`qtyMin`); a cart stepper whose element has no `data-line` writes the new quantity to its
own field when the synchronizer is idle and does nothing when it is busy.  Neither sends a
request, starts a timer or changes the busy flag. -/
theorem lineless_click_is_local (env : Env) (s : State) (add : Bool) :
    (∀ (j : Nat) (text : List Char), s.jsFields.get? j = some text →
      step env s (Event.jsQtyAdjusterClick j add)
        = { s with
            qtyMin := if env.templateProduct then 1 else s.qtyMin
            jsFields := s.jsFields.set j
              (standaloneStepperQty text add
                (if env.templateProduct then 1 else s.qtyMin)).toStr } ∧
      (step env s (Event.jsQtyAdjusterClick j add)).calls = s.calls ∧
      (step env s (Event.jsQtyAdjusterClick j add)).pending = s.pending ∧
      (step env s (Event.jsQtyAdjusterClick j add)).timers = s.timers ∧
      (step env s (Event.jsQtyAdjusterClick j add)).rows = s.rows ∧
      (step env s (Event.jsQtyAdjusterClick j add)).isUpdating = s.isUpdating) ∧
    (∀ (i : Nat) (r : Row), s.rows.get? i = some r → truthyLine r.line = none →
      step env s (Event.qtyAdjustClick i add)
        = (if s.isUpdating then s
          else { s with
            rows := s.rows.set i { r with value := (cartStepperQty r.value add).toStr } }) ∧
      (step env s (Event.qtyAdjustClick i add)).calls = s.calls ∧
      (step env s (Event.qtyAdjustClick i add)).pending = s.pending ∧
      (step env s (Event.qtyAdjustClick i add)).timers = s.timers ∧
      (step env s (Event.qtyAdjustClick i add)).jsFields = s.jsFields ∧
      (step env s (Event.qtyAdjustClick i add)).isUpdating = s.isUpdating) := by
  constructor
  · intro j text hfield
    have h1 : step env s (Event.jsQtyAdjusterClick j add)
        = { s with
            qtyMin := if env.templateProduct then 1 else s.qtyMin
            jsFields := s.jsFields.set j
              (standaloneStepperQty text add
                (if env.templateProduct then 1 else s.qtyMin)).toStr } := by
      rw [List.get?_eq_getElem?] at hfield
      simp [step, jsQtyAdjusterClick, hfield]
    refine ⟨h1, ?_, ?_, ?_, ?_, ?_⟩
    all_goals rw [h1]
  · intro i r hrow hline
    have h2 : step env s (Event.qtyAdjustClick i add)
        = (if s.isUpdating then s
          else { s with
            rows := s.rows.set i { r with value := (cartStepperQty r.value add).toStr } }) := by
      rw [List.get?_eq_getElem?] at hrow
      simp [step, qtyAdjustClick, hrow, hline]
    refine ⟨h2, ?_, ?_, ?_, ?_, ?_⟩
    all_goals
      rw [h2]
      split <;> rfl

/-- Witness for C19: the standalone field of the sample page as loaded, where there is no
cart row yet, and the cart stepper of the page whose rows carry no `data-line`. -/
theorem lineless_click_is_local_witness :
    (initialState ["1".data]).rows = [] ∧
    step demoEnv (initialState ["1".data]) (Event.jsQtyAdjusterClick 0 true)
      = { initialState ["1".data] with qtyMin := 1, jsFields := ["2".data] } ∧
    (step demoEnv (initialState ["1".data]) (Event.jsQtyAdjusterClick 0 true)).pending = [] ∧
    (step demoLinelessEnv demoLinelessOpen (Event.qtyAdjustClick 0 true)).rows.map Row.value
      = ["3".data] ∧
    (step demoLinelessEnv demoLinelessOpen (Event.qtyAdjustClick 0 true)).calls
      = demoLinelessOpen.calls ∧
    (step demoLinelessEnv demoLinelessOpen (Event.qtyAdjustClick 0 true)).isUpdating
      = demoLinelessOpen.isUpdating :=
  ⟨rfl,
    (((lineless_click_is_local demoEnv (initialState ["1".data]) true).1 0 "1".data
      (by decide)).1).trans (by decide),
    ((lineless_click_is_local demoEnv (initialState ["1".data]) true).1 0 "1".data
      (by decide)).2.2.1,
    by decide,
    ((lineless_click_is_local demoLinelessEnv demoLinelessOpen true).2 0
      { kind := RowKind.ajaxifyRow, line := none, value := "2".data, isLoading := false,
        isRemoved := false } (by decide) (by decide)).2.1,
    ((lineless_click_is_local demoLinelessEnv demoLinelessOpen true).2 0
      { kind := RowKind.ajaxifyRow, line := none, value := "2".data, isLoading := false,
        isRemoved := false } (by decide) (by decide)).2.2.2.2.2⟩

/-! ## Increment on a negative field, and the submit handler -/

/-- C20, evaluated on the sample product page: the increment control of a standalone field
that holds `-5` writes `-4`, a negative quantity, although the decrement control of the
same field clamps at the minimum 1; a cart stepper without a line writes `-4` as well, and
`-4` is what the handler of a line-aware cart stepper would hand to `updateQuantity`. -/
theorem increment_on_negative_field_stays_negative :
    demoEnv.templateProduct = true ∧
    (step demoEnv (initialState ["-5".data]) (Event.jsQtyAdjusterClick 0 true)).jsFields
      = ["-4".data] ∧
    (step demoEnv (initialState ["-5".data]) (Event.jsQtyAdjusterClick 0 false)).jsFields
      = ["1".data] ∧
    (runEvents demoLinelessEnv demoLinelessOpen
      [Event.qtyInputChange 0 "-5".data, Event.qtyAdjustClick 0 true]).rows.map Row.value
      = ["-4".data] ∧
    cartStepperQty "-5".data true = jsInt (-4) ∧
    cartStepperQty "-5".data false = jsInt 0 ∧
    ¬ (0 ≤ (-4 : Int)) := by
  decide

/-- C24 (amended). On every page the submit handler of the add-to-cart form leaves the busy
flag, the cart rows and the timers as they were: it marks the button as adding, removes the
error blocks and sends the add request.  A second submit before the response sends a second
add request, the answer to an add request leaves the flag as it was too, and after a submit
on an idle page a click on a line-aware cart stepper is handled as usual: it sets the flag
and queues its change request. -/
theorem submit_leaves_busy_flag (env : Env) (s : State) :
    (step env s Event.formSubmit).isUpdating = s.isUpdating ∧
    (step env s Event.formSubmit).rows = s.rows ∧
    (step env s Event.formSubmit).timers = s.timers ∧
    (step env s Event.formSubmit).isAdding = true ∧
    (step env s Event.formSubmit).qtyErrors = [] ∧
    (step env s Event.formSubmit).calls = s.calls ++ [Request.addItemFromForm] ∧
    (step env s Event.formSubmit).pending = s.pending ++ [Request.addItemFromForm] ∧
    (step env (step env s Event.formSubmit) Event.formSubmit).pending
      = s.pending ++ [Request.addItemFromForm, Request.addItemFromForm] ∧
    (step env (step env s Event.formSubmit) Event.formSubmit).isUpdating = s.isUpdating ∧
    (∀ (k : Nat) (r : Response),
      (step env s Event.formSubmit).pending.get? k = some Request.addItemFromForm →
      (step env (step env s Event.formSubmit) (Event.response k r)).isUpdating
        = s.isUpdating) ∧
    (∀ (i : Nat) (add : Bool) (r : Row) (line : Nat), s.isUpdating = false →
      s.rows.get? i = some r → truthyLine r.line = some line →
      (step env (step env s Event.formSubmit) (Event.qtyAdjustClick i add)).timers
        = s.timers ++ [Timer.changeItem line (cartStepperQty r.value add)] ∧
      (step env (step env s Event.formSubmit) (Event.qtyAdjustClick i add)).isUpdating
        = true) := by
  obtain ⟨h1, h2, h3, h4, h5, h6, h7⟩ := formSubmit_frame env s
  obtain ⟨g1, _, _, _, _, _, g7⟩ := formSubmit_frame env (step env s Event.formSubmit)
  refine ⟨h1, h2, h3, h4, h5, h6, h7, ?_, by rw [g1, h1], ?_, ?_⟩
  · rw [g7, h7]
    simp
  · intro k r hk
    generalize step env s Event.formSubmit = t at hk h1
    simp only [step, hk]
    rw [isUpdating_deliver]
    exact h1
  · intro i add r line hidle hrow hline
    have hclick : step env (step env s Event.formSubmit) (Event.qtyAdjustClick i add)
        = updateQuantity env line (cartStepperQty r.value add)
          (step env s Event.formSubmit) := by
      have hrow2 : (step env s Event.formSubmit).rows[i]? = some r := by
        rw [h2, ← List.get?_eq_getElem?]
        exact hrow
      have hidle2 : (step env s Event.formSubmit).isUpdating = false := by rw [h1, hidle]
      generalize step env s Event.formSubmit = t at hrow2 hidle2 ⊢
      simp [step, qtyAdjustClick, hidle2, hrow2, hline]
    constructor
    · rw [hclick]
      show (step env s Event.formSubmit).timers ++ _ = _
      rw [h3]
    · rw [hclick]
      rfl

/-- Witness for C24: the first submit on the sample page as loaded, and a stepper click
after a submit on the page with the rendered cart. -/
theorem submit_leaves_busy_flag_witness :
    demoSubmitted.isUpdating = false ∧
    demoSubmitted.pending = [Request.addItemFromForm] ∧
    (step demoEnv demoSubmitted Event.formSubmit).pending
      = [Request.addItemFromForm, Request.addItemFromForm] ∧
    (step demoEnv (step demoEnv demoOpen Event.formSubmit)
      (Event.qtyAdjustClick 0 true)).timers = [Timer.changeItem 1 (jsInt 3)] :=
  ⟨(submit_leaves_busy_flag demoEnv (initialState ["1".data])).1,
    (submit_leaves_busy_flag demoEnv (initialState ["1".data])).2.2.2.2.2.2.1,
    (submit_leaves_busy_flag demoEnv (initialState ["1".data])).2.2.2.2.2.2.2.1,
    (((submit_leaves_busy_flag demoEnv demoOpen).2.2.2.2.2.2.2.2.2.2 0 true
      { kind := RowKind.ajaxifyRow, line := some 1, value := "2".data, isLoading := false,
        isRemoved := false } 1 (by decide) (by decide) (by decide)).1).trans (by decide)⟩

/-! ## The error callback of the add-to-cart form -/

/-- C29. When the add request of the submit handler fails with a response that holds the
message text `msg`, the Number `status` and a description, the error callback appends one
error block holding the description if `msg` is not empty and `status` is 422, and appends
nothing otherwise; a response without a message appends nothing whatever its status.  In
every case no alert is raised (`Shopify.onError` is not called), nothing is sent and no
timer is started. -/
theorem itemErrorCallback_renders_iff (env : Env) (s : State) (k : Nat) (msg : List Char)
    (status : Int) (description : JSValue)
    (hreq : s.pending.get? k = some Request.addItemFromForm) :
    (step env s (Event.response k (Response.error (some
        { message := JSValue.str msg, status := jsInt status,
          description := description })))).qtyErrors
      = (if msg ≠ [] ∧ status = 422 then s.qtyErrors ++ [description.toStr]
        else s.qtyErrors) ∧
    (step env s (Event.response k (Response.error (some
        { message := JSValue.undefined, status := jsInt status,
          description := description })))).qtyErrors = s.qtyErrors ∧
    (∀ data : ErrorData,
      (step env s (Event.response k (Response.error (some data)))).alerts = s.alerts ∧
      (step env s (Event.response k (Response.error (some data)))).calls = s.calls ∧
      (step env s (Event.response k (Response.error (some data)))).timers = s.timers ∧
      (step env s (Event.response k (Response.error (some data)))).pending
        = s.pending.eraseIdx k) := by
  have hloose : jsLooseEqNum (jsInt status) (JSNum.ofInt 422) = decide (status = 422) := by
    simp [jsLooseEqNum, jsInt, JSNum.ofInt, JSValue.toNumber, JSNum.eq]
  have htruthy : (JSValue.str msg).truthy = !msg.isEmpty := rfl
  refine ⟨?_, ?_, ?_⟩
  · simp only [step, hreq, deliver, itemErrorCallback, hloose, htruthy]
    cases msg with
    | nil => cases env.settings.method <;> simp
    | cons c t =>
      by_cases hst : status = 422
      · cases env.settings.method <;> simp [hst]
      · cases env.settings.method <;> simp [hst]
  · simp only [step, hreq, deliver, itemErrorCallback]
    cases env.settings.method <;> simp [JSValue.truthy]
  · intro data
    simp only [step, hreq, deliver, itemErrorCallback]
    cases hb : data.message.truthy && jsLooseEqNum data.status (JSNum.ofInt 422) <;>
      cases env.settings.method <;> simp [hb]

/-- Witness for C29 on the sample page after a submit: the validation error with status
422 renders its description, the error with status 500 renders nothing. -/
theorem itemErrorCallback_renders_iff_witness :
    (step demoEnv demoSubmitted (Event.response 0 (Response.error (some demoError)))).qtyErrors
      = ["All 1 Shirt are in your cart.".data] ∧
    (step demoEnv demoSubmitted
      (Event.response 0 (Response.error (some demoServerError)))).qtyErrors = [] ∧
    (step demoEnv demoSubmitted
      (Event.response 0 (Response.error (some demoServerError)))).alerts = [] :=
  ⟨((itemErrorCallback_renders_iff demoEnv demoSubmitted 0 "Cart Error".data 422
      (JSValue.str "All 1 Shirt are in your cart.".data) (by decide)).1).trans (by decide),
    ((itemErrorCallback_renders_iff demoEnv demoSubmitted 0 "Server Error".data 500
      (JSValue.str "Try again later.".data) (by decide)).1).trans (by decide),
    ((itemErrorCallback_renders_iff demoEnv demoSubmitted 0 "Server Error".data 500
      (JSValue.str "Try again later.".data) (by decide)).2.2 demoServerError).1⟩

/-! ## Invalid text in a cart quantity field -/

/-- C26. When the text left in a cart quantity field is not a valid integer, the change
handler of an idle page writes 1 to the field and does nothing else: no timer, no request,
the busy flag still false, whether or not the field has a line.  Not a valid integer is a
text that is blank, that `Number` does not read (`NaN`), that reads as infinite, or that
reads as a number with a fractional part; the last for a decimal `m / 10 ^ sc` with `m`
below `2 ^ 53` and at most 300 decimals, which is where the Number that JavaScript reads
keeps the fractional part. -/
theorem invalid_commit_resets (env : Env) (s : State) (i : Nat) (text : List Char) (r : Row)
    (hidle : s.isUpdating = false) (hrow : s.rows.get? i = some r)
    (hbad : (∀ c ∈ text, isJsWhiteSpace c = true) ∨ isNaN (JSValue.str text) = true ∨
      (∃ (m : Int) (sc : Nat),
        (JSValue.str text).toNumber = JSNum.fin m sc ∧ m.natAbs < 2 ^ 53 ∧ sc ≤ 300 ∧
          ¬ (10 ^ sc : Int) ∣ m) ∨
      ∃ neg : Bool, (JSValue.str text).toNumber = JSNum.inf neg) :
    step env s (Event.qtyInputChange i text)
      = { s with rows := s.rows.set i { r with value := "1".data } } ∧
    (step env s (Event.qtyInputChange i text)).isUpdating = false ∧
    (step env s (Event.qtyInputChange i text)).timers = s.timers ∧
    (step env s (Event.qtyInputChange i text)).pending = s.pending ∧
    (step env s (Event.qtyInputChange i text)).calls = s.calls := by
  have htest : ((parseFloat (JSValue.str text)).eq (parseInt (JSValue.str text))
      && !isNaN (JSValue.str text)) = false := by
    rcases hbad with h | h | ⟨m, sc, hm, _, _, hd⟩ | ⟨neg, hinf⟩
    · exact change_test_fails text (Or.inl h)
    · exact change_test_fails text (Or.inr (Or.inl h))
    · have hsc : ∀ z : Int, JSNum.fin m sc ≠ JSNum.fin z 0 := by
        intro z hz
        simp only [JSNum.fin.injEq] at hz
        rw [hz.2] at hd
        exact hd (by simp)
      exact change_test_fails text (Or.inr (Or.inr ⟨m, sc,
        parseFloat_of_number text _ hm (by simp) hsc, hd⟩))
    · have hf : parseFloat (JSValue.str text) = JSNum.inf neg :=
        parseFloat_of_number text _ hinf (by simp) (by simp)
      rw [hf]
      rcases parseIntChars_shape text with hp | ⟨z, hp⟩
      · rw [show parseInt (JSValue.str text) = parseIntChars text from rfl, hp]
        rfl
      · rw [show parseInt (JSValue.str text) = parseIntChars text from rfl, hp]
        rfl
  have hs : step env s (Event.qtyInputChange i text)
      = { s with rows := s.rows.set i { r with value := "1".data } } := by
    rw [List.get?_eq_getElem?] at hrow
    simp only [step, qtyInputChange, List.get?_eq_getElem?, hrow, hidle, htest]
    simp
    rfl
  refine ⟨hs, ?_, ?_, ?_, ?_⟩
  all_goals rw [hs]
  exact hidle

/-- Witness for C26 on the sample page: `1.5`, an empty text and `abc` left in the field of
line 1. -/
theorem invalid_commit_resets_witness :
    (step demoEnv demoOpen (Event.qtyInputChange 0 "1.5".data)).rows.map Row.value
      = ["1".data] ∧
    (step demoEnv demoOpen (Event.qtyInputChange 0 "1.5".data)).timers = demoOpen.timers ∧
    (step demoEnv demoOpen (Event.qtyInputChange 0 [])).rows.map Row.value = ["1".data] ∧
    (step demoEnv demoOpen (Event.qtyInputChange 0 "abc".data)).rows.map Row.value
      = ["1".data] ∧
    (step demoEnv demoOpen (Event.qtyInputChange 0 "abc".data)).pending = demoOpen.pending :=
  ⟨(congrArg (fun t : State => t.rows.map Row.value)
      (invalid_commit_resets demoEnv demoOpen 0 "1.5".data
        { kind := RowKind.ajaxifyRow, line := some 1, value := "2".data, isLoading := false,
          isRemoved := false } (by decide) (by decide)
        (Or.inr (Or.inr (Or.inl ⟨15, 1, by decide, by decide, by decide,
          by decide⟩)))).1).trans (by decide),
    (invalid_commit_resets demoEnv demoOpen 0 "1.5".data
      { kind := RowKind.ajaxifyRow, line := some 1, value := "2".data, isLoading := false,
        isRemoved := false } (by decide) (by decide)
      (Or.inr (Or.inr (Or.inl ⟨15, 1, by decide, by decide, by decide,
        by decide⟩)))).2.2.1,
    (congrArg (fun t : State => t.rows.map Row.value)
      (invalid_commit_resets demoEnv demoOpen 0 []
        { kind := RowKind.ajaxifyRow, line := some 1, value := "2".data, isLoading := false,
          isRemoved := false } (by decide) (by decide)
        (Or.inl (by decide))).1).trans (by decide),
    (congrArg (fun t : State => t.rows.map Row.value)
      (invalid_commit_resets demoEnv demoOpen 0 "abc".data
        { kind := RowKind.ajaxifyRow, line := some 1, value := "2".data, isLoading := false,
          isRemoved := false } (by decide) (by decide)
        (Or.inr (Or.inl (by decide)))).1).trans (by decide),
    (invalid_commit_resets demoEnv demoOpen 0 "abc".data
      { kind := RowKind.ajaxifyRow, line := some 1, value := "2".data, isLoading := false,
        isRemoved := false } (by decide) (by decide)
      (Or.inr (Or.inl (by decide)))).2.2.2.1⟩

end ThemeJs
